import Mathlib

/-!
# GoldenCheetah TCX decoder: `TcxParser`

A shallow embedding of `src/TcxParser.cpp` (the SAX handler that decodes Garmin
Training Centre files into a series of ride samples) together with theorems
about its trackpoint derivation and smart-recording resampling.

Conventions of the embedding

* C++ `double` values are exact rationals (`ℚ`): arithmetic is the ideal
  arithmetic of the formulas in the source, without IEEE rounding.
* `int` and `QVariant::toInt()` values are `Int`.
* `QDateTime` values are `Int` seconds on an absolute time line;
  `a.secsTo(b)` is `b - a` and `a.addSecs(n)` is `a + n`.
* Text parsing lives outside the repository (`QString::toDouble`, `strtod`,
  `convertToLocalTime`); the three functions are parameters of the handlers,
  collected in `Parsers`.
* `RideFile*` pointers: the object `rideFile` points to is the field
  `rideFile`; objects it pointed to earlier are kept, in allocation order, in
  `earlier`; the caller's list `rides` holds allocation indices.
-/

namespace GoldenCheetah

/-- The enum `{ NotSwim, MayBeSwim, Swim }` of `TcxParser`. -/
inductive SwimState where
  | NotSwim
  | MayBeSwim
  | Swim
  deriving DecidableEq

/-- The fields of a `RideFilePoint` that `TcxParser` passes to `appendPoint` as
anything but a constant. Every other argument of the three calls is the
literal `0.0` (or `RideFile::NoTemp`) and is not represented. -/
structure RideFilePoint where
  secs : ℚ
  cad : ℚ
  hr : ℚ
  km : ℚ
  kph : ℚ
  nm : ℚ
  watts : ℚ
  alt : ℚ
  lon : ℚ
  lat : ℚ
  headwind : ℚ
  rcad : ℚ
  interval : Int
  deriving DecidableEq

/-- The part of `RideFile` the parser reads or writes. -/
structure RideFile where
  dataPoints : List RideFilePoint
  tags : List (String × String)
  startTime : Int
  recIntSecs : ℚ
  deviceType : String
  fileFormat : String
  deriving DecidableEq

namespace RideFile

/-- Modelled from the spec: `RideFile::appendPoint` (RideFile.cpp is not among
the sources) is the append-only sample sink: the sample is added at the end of
the series and nothing else changes. -/
def appendPoint (rf : RideFile) (p : RideFilePoint) : RideFile :=
  { rf with dataPoints := rf.dataPoints ++ [p] }

/-- Modelled from the spec: `RideFile::setTag` stores one value per tag name,
a later value replacing an earlier one. -/
def setTag (rf : RideFile) (name value : String) : RideFile :=
  { rf with tags := (name, value) :: rf.tags.filter (fun kv => kv.1 ≠ name) }

/-- Modelled from the spec: `RideFile::getTag`, the value stored for a name. -/
def getTag (rf : RideFile) (name : String) : Option String :=
  (rf.tags.find? (fun kv => kv.1 = name)).map Prod.snd

/-- The object built by `new RideFile()`: no samples, no tags. -/
def fresh : RideFile :=
  { dataPoints := [], tags := [], startTime := 0, recIntSecs := 0,
    deviceType := "", fileFormat := "" }

end RideFile

/-- The text conversions the handlers call; all three are library or
`TimeUtils` code outside the repository sources. -/
structure Parsers where
  toDouble : String → ℚ
  strtod : String → ℚ
  convertToLocalTime : String → Int

/-- The members of `TcxParser`. -/
structure TcxParser where
  rideFile : RideFile
  earlier : List RideFile
  rides : Option (List Nat)
  first : Bool
  buffer : String
  isGarminSmartRecording : Int
  GarminHWM : Int
  start_time : Int
  last_time : Int
  time : Int
  last_distance : ℚ
  lapSecs : ℚ
  lap : Int
  power : ℚ
  cadence : ℚ
  rcad : ℚ
  hr : ℚ
  speed : ℚ
  torque : ℚ
  alt : ℚ
  lat : ℚ
  lon : ℚ
  headwind : ℚ
  secs : ℚ
  distance : ℚ
  badgps : Bool
  swim : SwimState

/-- C `round`: to the nearest integer, halves away from zero. -/
def round (x : ℚ) : Int :=
  if 0 ≤ x then Int.floor (x + 1 / 2) else Int.ceil (x - 1 / 2)

/-- `QString::endsWith`: the characters of `post` end those of `str`. -/
def endsWith (str post : String) : Bool :=
  post.data.isSuffixOf str.data

namespace TcxParser

/-- The constructor `TcxParser::TcxParser(rideFile, rides)`. The two settings
are what `appsettings->value` finds (`none` for a null `QVariant`); members the
constructor does not initialise keep the indeterminate values of `garbage`. -/
def new (garbage : TcxParser) (rideFile : RideFile) (rides : Option (List Nat))
    (smartRecord hwMark : Option Int) : TcxParser :=
  { garbage with
    rideFile := rideFile
    earlier := []
    rides := rides
    buffer := ""
    isGarminSmartRecording := smartRecord.getD 2
    GarminHWM := if hwMark.isNone ∨ hwMark.getD 0 = 0 then 25 else hwMark.getD 0
    first := true
    alt := 0 }

/-- The handler `TcxParser::startElement` (its result is always `true`). -/
def startElement (P : Parsers) (s : TcxParser) (qName : String)
    (qAttributes : String → String) : TcxParser :=
  let s := { s with buffer := "" }
  if qName = "Activity" then
    let s := { s with lap := 0 }
    let s :=
      if s.first = true then { s with first := false }
      else
        { s with
          earlier := s.earlier ++ [s.rideFile]
          rideFile :=
            { RideFile.fresh with
              recIntSecs := 1
              deviceType := "Garmin"
              fileFormat := "Garmin Training Centre (tcx)" } }
    let s :=
      match s.rides with
      | some l => { s with rides := some (l ++ [s.earlier.length]) }
      | none => s
    let s := { s with swim := SwimState.NotSwim }
    let sport := qAttributes "Sport"
    if sport = "Biking" then { s with rideFile := s.rideFile.setTag "Sport" "Bike" }
    else if sport = "Running" then { s with rideFile := s.rideFile.setTag "Sport" "Run" }
    else if sport = "Other" then { s with swim := SwimState.MayBeSwim }
    else s
  else if qName = "Lap" then
    let s :=
      if s.lap = 0 then
        let start_time := P.convertToLocalTime (qAttributes "StartTime")
        { s with
          start_time := start_time
          rideFile := { s.rideFile with startTime := start_time }
          last_distance := 0
          last_time := start_time }
      else s
    { s with lap := s.lap + 1 }
  else if qName = "Trackpoint" then
    { s with
      power := 0
      cadence := 0
      rcad := 0
      speed := 0
      headwind := 0
      torque := 0
      hr := 0
      lat := 0
      lon := 0
      badgps := false
      distance := -1
      secs := 0 }
  else s

/-- The handler `TcxParser::characters`. -/
def characters (s : TcxParser) (str : String) : TcxParser :=
  { s with buffer := s.buffer ++ str }

/-- Lines 145-164 of `endElement`: derive speed from distance or distance from
speed. -/
def deriveSpeedDistance (s : TcxParser) : TcxParser :=
  if s.speed = 0 ∨ s.distance < 0 then
    let delta_t : ℚ := ((s.time - s.last_time : Int) : ℚ)
    if s.speed = 0 ∧ s.distance > 0 then
      let delta_d := s.distance - s.last_distance
      let delta_d := if delta_d < 0 then 0 else delta_d
      if delta_t > 0 then { s with speed := delta_d / delta_t * 3600 } else s
    else if s.distance < 0 then
      let delta_d := delta_t * s.speed / 3600
      { s with distance := s.last_distance + delta_d }
    else s
  else s

/-- Line 168 of `endElement`: a position of exactly (0, 0) is no fix. -/
def flagBadGps (s : TcxParser) : TcxParser :=
  if s.lat = 0 ∧ s.lon = 0 then { s with badgps := true } else s

/-- Lines 172-175 of `endElement`: sport Other with distance and no GPS is a
pool swim. -/
def classifySwim (s : TcxParser) : TcxParser :=
  if s.swim = SwimState.MayBeSwim ∧ s.badgps = true ∧ s.distance > 0 then
    { s with swim := SwimState.Swim, rideFile := s.rideFile.setTag "Sport" "Swim" }
  else s

/-- The scratch state as it stands when `endElement("Trackpoint")` reaches the
emission (line 181): derivation, bad-GPS flag and swim classification done. -/
def beforeRecord (s : TcxParser) : TcxParser :=
  classifySwim (flagBadGps (deriveSpeedDistance s))

/-- The sample of the two raw `appendPoint` calls (lines 184 and 213). -/
def rawPoint (s : TcxParser) : RideFilePoint :=
  { secs := s.secs, cad := s.cadence, hr := s.hr, km := s.distance, kph := s.speed,
    nm := s.torque, watts := s.power, alt := s.alt, lon := s.lon, lat := s.lat,
    headwind := s.headwind, rcad := s.rcad, interval := s.lap }

/-- The sample appended by iteration `i` of the interpolation loop (lines
229-259). The local `cad` of lines 233-234 is computed and never read, so it
has no counterpart here. -/
def interpolatedPoint (s : TcxParser) (prevPoint : RideFilePoint) (i : Int) :
    RideFilePoint :=
  let deltaSecs := s.secs - prevPoint.secs
  let deltaCad := s.cadence - prevPoint.cad
  let deltaHr := s.hr - prevPoint.hr
  let deltaDist := s.distance - prevPoint.km
  let deltaSpeed := s.speed - prevPoint.kph
  let deltaTorque := s.torque - prevPoint.nm
  let deltaPower := s.power - prevPoint.watts
  let deltaAlt := s.alt - prevPoint.alt
  let deltaLon := s.lon - prevPoint.lon
  let deltaLat := s.lat - prevPoint.lat
  let deltarcad := s.rcad - prevPoint.rcad
  let weight : ℚ := (i : ℚ) / deltaSecs
  let kph := if s.swim = SwimState.Swim then s.speed else prevPoint.kph + deltaSpeed * weight
  let kph := if kph > 0.35 then kph else 0
  { secs := prevPoint.secs + deltaSecs * weight
    cad := prevPoint.cad + deltaCad * weight
    hr := prevPoint.hr + deltaHr * weight
    km := prevPoint.km + deltaDist * weight
    kph := kph
    nm := prevPoint.nm + deltaTorque * weight
    watts := prevPoint.watts + deltaPower * weight
    alt := prevPoint.alt + deltaAlt * weight
    lon := if s.badgps = true then 0 else prevPoint.lon + deltaLon * weight
    lat := if s.badgps = true then 0 else prevPoint.lat + deltaLat * weight
    headwind := s.headwind
    rcad := prevPoint.rcad + deltarcad * weight
    interval := s.lap }

/-- The loop of line 228, entered with counter `i`:
`for (; i <= deltaSecs && i <= 300*GarminHWM.toInt(); i++) appendPoint(...)`. -/
def interpolate (s : TcxParser) (prevPoint : RideFilePoint) (i : Int) (rf : RideFile) :
    RideFile :=
  if (i : ℚ) ≤ s.secs - prevPoint.secs ∧ i ≤ 300 * s.GarminHWM then
    interpolate s prevPoint (i + 1) (rf.appendPoint (interpolatedPoint s prevPoint i))
  else rf
termination_by (300 * s.GarminHWM + 1 - i).toNat
decreasing_by
  simp_wf
  omega

/-- Line 208 of `endElement`: a previous sample at (0, 0) also counts as no
fix. -/
def flagPrevBadGps (s : TcxParser) (prevPoint : RideFilePoint) : TcxParser :=
  if prevPoint.lat = 0 ∧ prevPoint.lon = 0 then { s with badgps := true } else s

/-- The condition of line 210 of `endElement`, under which the trackpoint is
inserted as it is: smart recording off, or a gap of one second, or a gap of at
least the high water mark outside a pool swim. -/
def rawRule (s : TcxParser) (deltaSecs : ℚ) : Prop :=
  s.isGarminSmartRecording = 0 ∨ deltaSecs = 1 ∨
    (deltaSecs ≥ (s.GarminHWM : ℚ) ∧ s.swim ≠ SwimState.Swim)

instance (s : TcxParser) (deltaSecs : ℚ) : Decidable (rawRule s deltaSecs) := by
  unfold rawRule
  infer_instance

/-- Lines 181-263 of `endElement`: record the trackpoint. -/
def recordTrackpoint (s : TcxParser) : TcxParser :=
  match s.rideFile.dataPoints.getLast? with
  | none => { s with rideFile := s.rideFile.appendPoint (rawPoint s) }
  | some prevPoint =>
    let deltaSecs := s.secs - prevPoint.secs
    let s := flagPrevBadGps s prevPoint
    if rawRule s deltaSecs then
      { s with rideFile := s.rideFile.appendPoint (rawPoint s) }
    else
      { s with rideFile := interpolate s prevPoint 1 s.rideFile }

/-- The sample appended by iteration `i` of the pause loop (lines 272-293). -/
def pausePoint (s : TcxParser) (i : Int) : RideFilePoint :=
  { secs := s.secs + (i : ℚ), cad := 0, hr := 0, km := s.last_distance, kph := 0,
    nm := 0, watts := 0, alt := 0, lon := 0, lat := 0, headwind := 0, rcad := 0,
    interval := s.lap }

/-- The loop of line 271, entered with counter `i`:
`for (; i <= round(lapSecs) && i <= 300*GarminHWM.toInt(); i++) appendPoint(...)`. -/
def fillPause (s : TcxParser) (i : Int) (rf : RideFile) : RideFile :=
  if i ≤ round s.lapSecs ∧ i ≤ 300 * s.GarminHWM then
    fillPause s (i + 1) (rf.appendPoint (pausePoint s i))
  else rf
termination_by (300 * s.GarminHWM + 1 - i).toNat
decreasing_by
  simp_wf
  omega

/-- The condition of line 269 of `endElement`, under which a Lap-close fills a
pause: pool swim, scratch distance exactly 0, smart recording on. -/
def fillsPause (s : TcxParser) : Prop :=
  s.swim = SwimState.Swim ∧ s.distance = 0 ∧ s.isGarminSmartRecording ≠ 0

instance (s : TcxParser) : Decidable (fillsPause s) := by
  unfold fillsPause
  infer_instance

/-- The handler `TcxParser::endElement` (its result is always `true`). -/
def endElement (P : Parsers) (s : TcxParser) (qName : String) : TcxParser :=
  if qName = "Time" then
    let time := P.convertToLocalTime s.buffer
    { s with time := time, secs := ((time - s.start_time : Int) : ℚ) }
  else if qName = "DistanceMeters" then { s with distance := P.toDouble s.buffer / 1000 }
  else if qName = "TotalTimeSeconds" then { s with lapSecs := P.toDouble s.buffer }
  else if qName = "Watts" ∨ endsWith qName ":Watts" = true then
    { s with power := P.toDouble s.buffer }
  else if qName = "Speed" ∨ endsWith qName ":Speed" = true then
    { s with speed := P.toDouble s.buffer * 3.6 }
  else if qName = "RunCadence" ∨ endsWith qName ":RunCadence" = true then
    { s with rcad := P.toDouble s.buffer }
  else if qName = "Value" then { s with hr := P.toDouble s.buffer }
  else if qName = "Cadence" then { s with cadence := P.toDouble s.buffer }
  else if qName = "AltitudeMeters" then
    if P.toDouble s.buffer ≠ 0 then { s with alt := P.toDouble s.buffer } else s
  else if qName = "LongitudeDegrees" then { s with lon := P.strtod s.buffer }
  else if qName = "LatitudeDegrees" then { s with lat := P.strtod s.buffer }
  else if qName = "Trackpoint" then
    let s := recordTrackpoint (beforeRecord s)
    { s with last_distance := s.distance, last_time := s.time }
  else if qName = "Lap" then
    if fillsPause s then
      { s with
        rideFile := fillPause s 1 s.rideFile
        last_time := s.last_time + round s.lapSecs }
    else s
  else s

/-- One event of the tag stream, as the XML reader delivers it. -/
inductive Event where
  | startElement (qName : String) (qAttributes : String → String)
  | characters (str : String)
  | endElement (qName : String)

/-- Dispatch of one event to its handler. -/
def handle (P : Parsers) (s : TcxParser) : Event → TcxParser
  | Event.startElement qName qAttributes => startElement P s qName qAttributes
  | Event.characters str => characters s str
  | Event.endElement qName => endElement P s qName

/-- The parser state after a sequence of events, delivered in document order. -/
def parse (P : Parsers) (s : TcxParser) (events : List Event) : TcxParser :=
  events.foldl (handle P) s

/-! ### Vocabulary of the theorems -/

/-- Number of iterations the loops of lines 228 and 271 make when entered with
counter `i`: the counter runs up to `min bound (300 * hwm)`. -/
def iterations (bound hwm i : Int) : Nat :=
  (min bound (300 * hwm) + 1 - i).toNat

/-- Everything the emission reads, apart from speed, distance, the bad-GPS flag,
the swim state and the tags, is the same in two parser states. -/
def SameScratch (t s : TcxParser) : Prop :=
  t.rideFile.dataPoints = s.rideFile.dataPoints ∧ t.secs = s.secs ∧ t.cadence = s.cadence ∧
  t.hr = s.hr ∧ t.torque = s.torque ∧ t.power = s.power ∧ t.alt = s.alt ∧ t.lon = s.lon ∧
  t.lat = s.lat ∧ t.headwind = s.headwind ∧ t.rcad = s.rcad ∧ t.lap = s.lap ∧
  t.isGarminSmartRecording = s.isGarminSmartRecording ∧ t.GarminHWM = s.GarminHWM ∧
  t.time = s.time ∧ t.last_time = s.last_time ∧ t.last_distance = s.last_distance ∧
  t.earlier = s.earlier ∧ t.lapSecs = s.lapSecs ∧ t.start_time = s.start_time

/-- The scratch state the interpolation loop reads: `beforeRecord` with the
previous sample's fix taken into account (line 208). -/
def atInterpolation (s : TcxParser) (prevPoint : RideFilePoint) : TcxParser :=
  flagPrevBadGps (beforeRecord s) prevPoint


/-! ### Concrete inputs -/

/-- Text conversions that read every text as zero. -/
def exampleParsers : Parsers :=
  { toDouble := fun _ => 0, strtod := fun _ => 0, convertToLocalTime := fun _ => 0 }

/-- A sample at the start of the activity, at rest, in lap 1. -/
def originPoint : RideFilePoint :=
  { secs := 0, cad := 0, hr := 0, km := 0, kph := 0, nm := 0, watts := 0, alt := 0,
    lon := 0, lat := 0, headwind := 0, rcad := 0, interval := 1 }

/-- A parser with default settings (smart recording on, high water mark 25) in
lap 1 of a non-swim activity whose series holds `originPoint`; the scratch
fields are those of a trackpoint that reports nothing. -/
def oneSampleIn : TcxParser :=
  { rideFile := { RideFile.fresh with dataPoints := [originPoint] }
    earlier := [], rides := none, first := false, buffer := ""
    isGarminSmartRecording := 2, GarminHWM := 25
    start_time := 0, last_time := 0, time := 0, last_distance := 0, lapSecs := 0, lap := 1
    power := 0, cadence := 0, rcad := 0, hr := 0, speed := 0, torque := 0, alt := 0
    lat := 0, lon := 0, headwind := 0, secs := 0, distance := -1
    badgps := false, swim := SwimState.NotSwim }

/-- A trackpoint 30 seconds after `originPoint`. -/
def gapThirty : TcxParser := { oneSampleIn with time := 30, secs := 30 }

/-- A trackpoint of a pool swim 30 seconds after `originPoint`, 50 m in. -/
def swimGapThirty : TcxParser :=
  { oneSampleIn with time := 30, secs := 30, distance := 1 / 20, swim := SwimState.Swim }

/-- A trackpoint 10 seconds after `originPoint` reporting 36 kph, 50 m in. -/
def gapTen : TcxParser :=
  { oneSampleIn with time := 10, secs := 10, speed := 36, distance := 1 / 20 }

/-- A trackpoint 10 seconds after `originPoint` reporting 36 kph, 50 m in, with
heart rate 150, power 200, altitude 100 and run cadence 80. -/
def gapTenFull : TcxParser :=
  { gapTen with hr := 150, power := 200, alt := 100, rcad := 80 }

/-- A trackpoint 10 seconds after `originPoint` reporting 36 kph, 50 m in, with
cadence 1. -/
def gapTenSlowCadence : TcxParser := { gapTen with cadence := 1 }

/-- A trackpoint 10 seconds after the previous one that reports a distance of
100 m and no speed. -/
def distanceOnlyTen : TcxParser :=
  { oneSampleIn with time := 10, secs := 10, distance := 1 / 10 }

/-- A trackpoint 10 seconds after the previous one that reports 36 kph and no
distance. -/
def speedOnlyTen : TcxParser :=
  { oneSampleIn with time := 10, secs := 10, speed := 36 }

/-- The event is the close of a Trackpoint element. -/
def closesTrackpoint : Event → Prop
  | Event.endElement qName => qName = "Trackpoint"
  | _ => False

/-- A point with a real fix, at rest at the start of the activity. -/
def fixedPoint : RideFilePoint := { originPoint with lon := 2, lat := 4 }

/-- A parser whose series holds `fixedPoint`, before a Trackpoint element. -/
def oneFixIn : TcxParser :=
  { oneSampleIn with rideFile := { RideFile.fresh with dataPoints := [fixedPoint] } }

/-- Text conversions where a time reads as 10 and a coordinate as 6. -/
def tenSixParsers : Parsers :=
  { toDouble := fun _ => 0, strtod := fun _ => 6, convertToLocalTime := fun _ => 10 }

/-- The body of a Trackpoint element that reports a time and a position. -/
def positionBody : List Event :=
  [Event.startElement "Time" (fun _ => ""), Event.characters "t", Event.endElement "Time",
   Event.startElement "LatitudeDegrees" (fun _ => ""), Event.characters "x",
   Event.endElement "LatitudeDegrees",
   Event.startElement "LongitudeDegrees" (fun _ => ""), Event.characters "y",
   Event.endElement "LongitudeDegrees"]

/-- The parser state at the close of a trackpoint that reports time 10 and
position (6, 6), opened after `oneFixIn`. -/
def positionTrackpoint : TcxParser :=
  parse tenSixParsers (startElement tenSixParsers oneFixIn "Trackpoint" (fun _ => ""))
    positionBody

/-- The event is the close of a Lap element. -/
def closesLap : Event → Prop
  | Event.endElement qName => qName = "Lap"
  | _ => False

/-- No Lap-close of the sequence, delivered from state `s` on, fills a pause. -/
def pauseFree (P : Parsers) : TcxParser → List Event → Prop
  | _, [] => True
  | s, e :: rest => (closesLap e → ¬ fillsPause s) ∧ pauseFree P (handle P s e) rest

/-- The timestamps of a series, in series order. -/
def timestamps (rf : RideFile) : List ℚ :=
  rf.dataPoints.map RideFilePoint.secs

/-- Every activity decoded so far: the finished ones and the current one. -/
def activities (s : TcxParser) : List RideFile :=
  s.earlier ++ [s.rideFile]

/-- Within each decoded activity the timestamps are non-decreasing in series
order. -/
def Ordered (s : TcxParser) : Prop :=
  ∀ rf ∈ activities s, (timestamps rf).Sorted (· ≤ ·)

/-- Text conversions with a clock: the time texts "10" and "5" are read as 10
and 5 seconds, every other text as zero. -/
def clockParsers : Parsers :=
  { toDouble := fun _ => 0, strtod := fun _ => 0
    convertToLocalTime := fun t => if t = "10" then 10 else if t = "5" then 5 else 0 }

/-- A parser constructed on an empty ride file with smart recording unchecked
(setting 0) and no high water mark configured. -/
def uncheckedParser : TcxParser :=
  TcxParser.new oneSampleIn RideFile.fresh none (some 0) none

/-- An element without attributes. -/
def noAttributes : String → String := fun _ => ""

/-- The attributes of `<Activity Sport="Biking">`. -/
def bikingAttributes : String → String :=
  fun name => if name = "Sport" then "Biking" else ""

/-- One biking activity with one lap and two trackpoints, the second stamped
five seconds before the first. -/
def disorderEvents : List Event :=
  [Event.startElement "Activity" bikingAttributes,
   Event.startElement "Lap" noAttributes,
   Event.startElement "Trackpoint" noAttributes,
   Event.startElement "Time" noAttributes, Event.characters "10", Event.endElement "Time",
   Event.endElement "Trackpoint",
   Event.startElement "Trackpoint" noAttributes,
   Event.startElement "Time" noAttributes, Event.characters "5", Event.endElement "Time",
   Event.endElement "Trackpoint",
   Event.endElement "Lap",
   Event.endElement "Activity"]

instance (e : Event) : Decidable (closesLap e) := by
  cases e <;> unfold closesLap <;> infer_instance

/-- Whether a sequence is `pauseFree` is decided by running it. -/
instance decidablePauseFree (P : Parsers) :
    (s : TcxParser) → (events : List Event) → Decidable (pauseFree P s events)
  | _, [] => isTrue trivial
  | s, e :: rest =>
    @instDecidableAnd _ _ inferInstance (decidablePauseFree P (handle P s e) rest)

/-- A parser constructed on an empty ride file with nothing configured: smart
recording on (the default, `Qt::Checked`), high water mark 25. -/
def defaultParser : TcxParser :=
  TcxParser.new oneSampleIn RideFile.fresh none none none

/-- The events of a trackpoint that reports a time and a distance only. -/
def distanceOnlyTrackpoint (timeText distanceText : String) : List Event :=
  [Event.startElement "Trackpoint" noAttributes,
   Event.startElement "Time" noAttributes, Event.characters timeText, Event.endElement "Time",
   Event.startElement "DistanceMeters" noAttributes, Event.characters distanceText,
   Event.endElement "DistanceMeters",
   Event.endElement "Trackpoint"]

/-- The events of a sequence of trackpoints that report time and distance only,
each given by its two texts. -/
def distanceOnlyEvents : List (String × String) → List Event
  | [] => []
  | tp :: rest => distanceOnlyTrackpoint tp.1 tp.2 ++ distanceOnlyEvents rest

/-- The spec's round-trip formula for a sequence of (time, distance in km)
readings: each speed is `(Δdistance_km / Δt_s) × 3600` clamped to be at least 0,
the differences being taken from the reading before (`lastTime`, `lastKm` for
the first); a reading that is not later than the one before has speed 0. -/
def specSpeeds (lastTime : Int) (lastKm : ℚ) : List (Int × ℚ) → List ℚ
  | [] => []
  | tp :: rest =>
    (if tp.1 - lastTime > 0 then
        max 0 ((tp.2 - lastKm) / ((tp.1 - lastTime : Int) : ℚ) * 3600)
      else 0) :: specSpeeds tp.1 tp.2 rest

/-- The scratch state at the close of a distance-only trackpoint delivered from
state `s`: reset at the open, then time and distance parsed from the texts. -/
def atDistanceOnlyClose (P : Parsers) (s : TcxParser) (timeText distanceText : String) :
    TcxParser :=
  { s with
    buffer := distanceText
    power := 0, cadence := 0, rcad := 0, speed := 0, headwind := 0, torque := 0, hr := 0
    lat := 0, lon := 0, badgps := false
    time := P.convertToLocalTime timeText
    secs := ((P.convertToLocalTime timeText - s.start_time : Int) : ℚ)
    distance := P.toDouble distanceText / 1000 }

/-- Text conversions reading "t10" as the time 10 s and "d100" as 100 (metres),
every other text as zero. -/
def roundTripParsers : Parsers :=
  { toDouble := fun t => if t = "d100" then 100 else 0
    strtod := fun _ => 0
    convertToLocalTime := fun t => if t = "t10" then 10 else 0 }

/-- A parser constructed with smart recording unchecked, after
`<Activity Sport="Biking">` and the open of the first lap at time 0. -/
def uncheckedInLap : TcxParser :=
  parse roundTripParsers uncheckedParser
    [Event.startElement "Activity" bikingAttributes, Event.startElement "Lap" noAttributes]

/-- A parser constructed with the default settings, after
`<Activity Sport="Biking">` and the open of the first lap at time 0. -/
def defaultInLap : TcxParser :=
  parse roundTripParsers defaultParser
    [Event.startElement "Activity" bikingAttributes, Event.startElement "Lap" noAttributes]

/-- Two distance-only trackpoints: 0 m at 0 s, then 100 m at 10 s. -/
def hundredMetres : List (String × String) := [("t0", "d0"), ("t10", "d100")]

/-- The scratch state at the close of the second trackpoint of `hundredMetres`,
decoded with the default settings. -/
def hundredMetresClose : TcxParser :=
  atDistanceOnlyClose roundTripParsers
    (parse roundTripParsers defaultInLap (distanceOnlyTrackpoint "t0" "d0")) "t10" "d100"

/-- The Lap-close of a pause of 2.5 s in a pool swim: scratch offset 40 s,
scratch distance 0, last known distance 100 m, lap 2. -/
def swimPause : TcxParser :=
  { oneSampleIn with
    swim := SwimState.Swim, distance := 0, secs := 40, time := 40, last_time := 40
    last_distance := 1 / 10, lapSecs := 5 / 2, lap := 2 }

/-- The event is the open of an Activity element. -/
def opensActivity : Event → Prop
  | Event.startElement qName _ => qName = "Activity"
  | _ => False

/-- No Activity opens in the sequence, delivered from state `s` on, and every
Trackpoint-close of it finds a previous sample and takes the synthesis branch
(the condition of line 210 fails). -/
def synthesisOnly (P : Parsers) : TcxParser → List Event → Prop
  | _, [] => True
  | s, e :: rest =>
    ¬ opensActivity e ∧
    (closesTrackpoint e → ∃ prevPoint : RideFilePoint,
      s.rideFile.dataPoints.getLast? = some prevPoint ∧
      ¬ rawRule (beforeRecord s) (s.secs - prevPoint.secs)) ∧
    synthesisOnly P (handle P s e) rest

/-- A trackpoint of a pool swim 30 seconds and 50 m after `originPoint`, with no
speed reading. -/
def swimLength : TcxParser := { swimGapThirty with speed := 0 }

/-- A trackpoint 10 seconds after `originPoint`, a sample without a fix, that
reports the position (6, 6). -/
def fixAfterNoFix : TcxParser := { gapTen with lat := 6, lon := 6 }

/-- The event is the close of an AltitudeMeters element. -/
def closesAltitude : Event → Prop
  | Event.endElement qName => qName = "AltitudeMeters"
  | _ => False

/-- No AltitudeMeters element of the sequence, delivered from state `s` on, has
a reading other than zero. -/
def noAltitudeReading (P : Parsers) : TcxParser → List Event → Prop
  | _, [] => True
  | s, e :: rest =>
    (closesAltitude e → P.toDouble s.buffer = 0) ∧ noAltitudeReading P (handle P s e) rest

/-- Text conversions reading "250" as 250, every other text as zero. -/
def altitudeParsers : Parsers :=
  { toDouble := fun t => if t = "250" then 250 else 0
    strtod := fun _ => 0
    convertToLocalTime := fun _ => 0 }

/-- A parser on an empty series whose running altitude is 120 m, with the text
"250" in the buffer. -/
def atAltitude : TcxParser :=
  { oneSampleIn with alt := 120, rideFile := RideFile.fresh, buffer := "250" }

/-- The body of a Trackpoint element that reports a time and the altitude 0. -/
def altitudeBody : List Event :=
  [Event.startElement "Time" noAttributes, Event.characters "t", Event.endElement "Time",
   Event.startElement "AltitudeMeters" noAttributes, Event.characters "0",
   Event.endElement "AltitudeMeters"]

/-- The event is the open of a Lap element. -/
def opensLap : Event → Prop
  | Event.startElement qName _ => qName = "Lap"
  | _ => False

/-- The attributes of `<Lap StartTime="10">`. -/
def lapAtTen : String → String :=
  fun name => if name = "StartTime" then "10" else ""

/-- A parser in lap 2 of an activity that started at time 3, with last distance
1 km and last trackpoint time 60. -/
def inSecondLap : TcxParser :=
  { oneSampleIn with lap := 2, start_time := 3, last_distance := 1, last_time := 60 }

/-- A sample at the start of the activity, at rest, 5 km in. -/
def fiveKmPoint : RideFilePoint := { originPoint with km := 5 }

/-- A trackpoint one second after `fiveKmPoint` that reports neither speed nor
distance (speed 0, distance at the sentinel), the last distance being 5 km. -/
def silentAfterFiveKm : TcxParser :=
  { oneSampleIn with
    rideFile := { RideFile.fresh with dataPoints := [fiveKmPoint] }
    last_distance := 5, time := 1, secs := 1 }

/-- The attributes of `<Activity Sport="Other">`. -/
def otherAttributes : String → String :=
  fun name => if name = "Sport" then "Other" else ""

/-- Text conversions reading "25" as 25 (metres) and "t9" as the time 9 s, every
other text as zero. -/
def poolParsers : Parsers :=
  { toDouble := fun t => if t = "25" then 25 else 0
    strtod := fun _ => 0
    convertToLocalTime := fun t => if t = "t9" then 9 else 0 }

/-- The parser after `<Activity Sport="Other">` and the open of the first lap. -/
def otherInLap : TcxParser :=
  parse poolParsers defaultParser
    [Event.startElement "Activity" otherAttributes, Event.startElement "Lap" noAttributes]

/-- The body of a Trackpoint element of a pool swim: a time and a distance of
25 m, no position. -/
def poolBody : List Event :=
  [Event.startElement "Time" noAttributes, Event.characters "t9", Event.endElement "Time",
   Event.startElement "DistanceMeters" noAttributes, Event.characters "25",
   Event.endElement "DistanceMeters"]

/-- The parser state at the close of the first trackpoint of the pool swim. -/
def poolTrackpoint : TcxParser :=
  parse poolParsers (startElement poolParsers otherInLap "Trackpoint" noAttributes) poolBody

/-- Within each decoded activity the timestamps are strictly increasing in
series order. -/
def StrictlyOrdered (s : TcxParser) : Prop :=
  ∀ rf ∈ activities s, (timestamps rf).Sorted (· < ·)

/-- The activity is not classified Swim in any state the sequence, delivered
from state `s` on, goes through. -/
def neverSwim (P : Parsers) : TcxParser → List Event → Prop
  | s, [] => s.swim ≠ SwimState.Swim
  | s, e :: rest => s.swim ≠ SwimState.Swim ∧ neverSwim P (handle P s e) rest

/-- One biking activity with one lap and one trackpoint, stamped 10 s, whose
close is delivered; a second Trackpoint-close would follow without an open. -/
def singleTrackpointEvents : List Event :=
  [Event.startElement "Activity" bikingAttributes,
   Event.startElement "Lap" noAttributes,
   Event.startElement "Trackpoint" noAttributes,
   Event.startElement "Time" noAttributes, Event.characters "10", Event.endElement "Time",
   Event.endElement "Trackpoint"]

/-- The parser with smart recording unchecked after `singleTrackpointEvents`. -/
def uncheckedAfterClose : TcxParser :=
  parse clockParsers uncheckedParser singleTrackpointEvents

/-- The parser with the default settings after `singleTrackpointEvents`. -/
def defaultAfterClose : TcxParser :=
  parse clockParsers defaultParser singleTrackpointEvents

/-- Whether a sequence is `neverSwim` is decided by running it. -/
instance decidableNeverSwim (P : Parsers) :
    (s : TcxParser) → (events : List Event) → Decidable (neverSwim P s events)
  | s, [] => inferInstanceAs (Decidable (s.swim ≠ SwimState.Swim))
  | s, e :: rest =>
    @instDecidableAnd _ _ inferInstance (decidableNeverSwim P (handle P s e) rest)

/-- One biking activity with one lap and two trackpoints, stamped 5 s and
10 s. -/
def inOrderEvents : List Event :=
  [Event.startElement "Activity" bikingAttributes,
   Event.startElement "Lap" noAttributes,
   Event.startElement "Trackpoint" noAttributes,
   Event.startElement "Time" noAttributes, Event.characters "5", Event.endElement "Time",
   Event.endElement "Trackpoint",
   Event.startElement "Trackpoint" noAttributes,
   Event.startElement "Time" noAttributes, Event.characters "10", Event.endElement "Time",
   Event.endElement "Trackpoint",
   Event.endElement "Lap",
   Event.endElement "Activity"]

/-! ## The trackpoint pipeline: what each stage leaves alone -/

theorem endElement_Trackpoint (P : Parsers) (s : TcxParser) :
    endElement P s "Trackpoint" =
      { recordTrackpoint (beforeRecord s) with
        last_distance := (recordTrackpoint (beforeRecord s)).distance
        last_time := (recordTrackpoint (beforeRecord s)).time } := rfl

theorem SameScratch.refl (s : TcxParser) : SameScratch s s := by
  simp [SameScratch]

theorem SameScratch.trans {a b c : TcxParser} (h : SameScratch a b) (k : SameScratch b c) :
    SameScratch a c := by
  simp only [SameScratch] at *
  simp [h, k]

theorem deriveSpeedDistance_same (s : TcxParser) : SameScratch (deriveSpeedDistance s) s := by
  unfold deriveSpeedDistance
  dsimp only
  split_ifs <;> exact SameScratch.refl s

theorem flagBadGps_same (s : TcxParser) : SameScratch (flagBadGps s) s := by
  unfold flagBadGps
  split_ifs <;> exact SameScratch.refl s

theorem classifySwim_same (s : TcxParser) : SameScratch (classifySwim s) s := by
  unfold classifySwim
  split_ifs <;> exact SameScratch.refl s

theorem beforeRecord_same (s : TcxParser) : SameScratch (beforeRecord s) s :=
  ((classifySwim_same _).trans (flagBadGps_same _)).trans (deriveSpeedDistance_same s)

theorem flagPrevBadGps_same (s : TcxParser) (p : RideFilePoint) :
    SameScratch (flagPrevBadGps s p) s := by
  unfold flagPrevBadGps
  split_ifs <;> exact SameScratch.refl s

theorem atInterpolation_same (s : TcxParser) (p : RideFilePoint) :
    SameScratch (atInterpolation s p) s :=
  (flagPrevBadGps_same _ p).trans (beforeRecord_same s)

theorem flagPrevBadGps_speed (s : TcxParser) (p : RideFilePoint) :
    (flagPrevBadGps s p).speed = s.speed := by
  unfold flagPrevBadGps
  split_ifs <;> rfl

theorem flagPrevBadGps_distance (s : TcxParser) (p : RideFilePoint) :
    (flagPrevBadGps s p).distance = s.distance := by
  unfold flagPrevBadGps
  split_ifs <;> rfl

theorem flagPrevBadGps_swim (s : TcxParser) (p : RideFilePoint) :
    (flagPrevBadGps s p).swim = s.swim := by
  unfold flagPrevBadGps
  split_ifs <;> rfl

theorem flagPrevBadGps_rideFile (s : TcxParser) (p : RideFilePoint) :
    (flagPrevBadGps s p).rideFile = s.rideFile := by
  unfold flagPrevBadGps
  split_ifs <;> rfl

theorem beforeRecord_speed (s : TcxParser) :
    (beforeRecord s).speed = (deriveSpeedDistance s).speed := by
  unfold beforeRecord classifySwim flagBadGps
  split_ifs <;> rfl

theorem beforeRecord_distance (s : TcxParser) :
    (beforeRecord s).distance = (deriveSpeedDistance s).distance := by
  unfold beforeRecord classifySwim flagBadGps
  split_ifs <;> rfl

theorem rawRule_flagPrevBadGps (s : TcxParser) (p : RideFilePoint) (d : ℚ) :
    rawRule (flagPrevBadGps s p) d ↔ rawRule s d := by
  unfold rawRule
  rw [flagPrevBadGps_swim, (flagPrevBadGps_same s p).2.2.2.2.2.2.2.2.2.2.2.2.1,
    (flagPrevBadGps_same s p).2.2.2.2.2.2.2.2.2.2.2.2.2.1]

/-! ## The interpolation loop -/

theorem interpolate_eq (s : TcxParser) (prevPoint : RideFilePoint) :
    ∀ (n : Nat) (i : Int) (rf : RideFile),
      iterations (Int.floor (s.secs - prevPoint.secs)) s.GarminHWM i = n →
      interpolate s prevPoint i rf =
        { rf with
          dataPoints := rf.dataPoints ++
            ((List.range n).map fun (k : Nat) => interpolatedPoint s prevPoint (i + (k : Int))) } := by
  intro n
  induction n with
  | zero =>
    intro i rf h
    have hi : ¬ ((i : ℚ) ≤ s.secs - prevPoint.secs ∧ i ≤ 300 * s.GarminHWM) := by
      rw [← Int.le_floor]
      unfold iterations at h
      omega
    rw [interpolate, if_neg hi]
    simp
  | succ n ih =>
    intro i rf h
    have hi : (i : ℚ) ≤ s.secs - prevPoint.secs ∧ i ≤ 300 * s.GarminHWM := by
      rw [← Int.le_floor]
      unfold iterations at h
      omega
    have hn : iterations (Int.floor (s.secs - prevPoint.secs)) s.GarminHWM (i + 1) = n := by
      unfold iterations at h ⊢
      omega
    rw [interpolate, if_pos hi, ih (i + 1) _ hn]
    simp only [RideFile.appendPoint, List.range_succ_eq_map, List.map_cons, List.map_map,
      List.append_assoc, List.singleton_append]
    congr 3
    · simp
    · apply List.map_congr_left
      intro k _
      simp only [Function.comp, Nat.succ_eq_add_one, Nat.cast_add, Nat.cast_one]
      congr 1
      ring

theorem rawPoint_flagPrevBadGps (s : TcxParser) (p : RideFilePoint) :
    rawPoint (flagPrevBadGps s p) = rawPoint s := by
  unfold flagPrevBadGps
  split_ifs <;> rfl

theorem endElement_Trackpoint_rideFile (P : Parsers) (s : TcxParser) :
    (endElement P s "Trackpoint").rideFile = (recordTrackpoint (beforeRecord s)).rideFile := rfl

theorem recordTrackpoint_first (t : TcxParser) (h : t.rideFile.dataPoints.getLast? = none) :
    (recordTrackpoint t).rideFile.dataPoints = t.rideFile.dataPoints ++ [rawPoint t] := by
  unfold recordTrackpoint
  rw [h]
  rfl

theorem recordTrackpoint_raw (t : TcxParser) (prevPoint : RideFilePoint)
    (h : t.rideFile.dataPoints.getLast? = some prevPoint)
    (hr : rawRule t (t.secs - prevPoint.secs)) :
    (recordTrackpoint t).rideFile.dataPoints = t.rideFile.dataPoints ++ [rawPoint t] := by
  unfold recordTrackpoint
  rw [h]
  dsimp only
  rw [if_pos ((rawRule_flagPrevBadGps _ _ _).2 hr)]
  simp only [RideFile.appendPoint, flagPrevBadGps_rideFile, rawPoint_flagPrevBadGps]

theorem recordTrackpoint_interpolated (t : TcxParser) (prevPoint : RideFilePoint)
    (h : t.rideFile.dataPoints.getLast? = some prevPoint)
    (hr : ¬ rawRule t (t.secs - prevPoint.secs)) :
    (recordTrackpoint t).rideFile.dataPoints = t.rideFile.dataPoints ++
      ((List.range (iterations (Int.floor (t.secs - prevPoint.secs)) t.GarminHWM 1)).map
        fun (k : Nat) => interpolatedPoint (flagPrevBadGps t prevPoint) prevPoint (1 + (k : Int))) := by
  have hs := flagPrevBadGps_same t prevPoint
  unfold recordTrackpoint
  rw [h]
  dsimp only
  rw [if_neg (fun hh => hr ((rawRule_flagPrevBadGps _ _ _).1 hh))]
  dsimp only
  rw [interpolate_eq (flagPrevBadGps t prevPoint) prevPoint _ 1 _ rfl, flagPrevBadGps_rideFile,
    hs.2.1, hs.2.2.2.2.2.2.2.2.2.2.2.2.2.1]

/-- The samples `endElement("Trackpoint")` appends when the series is empty or
the condition of line 210 holds: the trackpoint itself. -/
theorem trackpoint_raw (P : Parsers) (s : TcxParser) (prevPoint : RideFilePoint)
    (hprev : s.rideFile.dataPoints.getLast? = some prevPoint)
    (hrule : rawRule (beforeRecord s) (s.secs - prevPoint.secs)) :
    (endElement P s "Trackpoint").rideFile.dataPoints =
      s.rideFile.dataPoints ++ [rawPoint (beforeRecord s)] := by
  have hsame := beforeRecord_same s
  rw [endElement_Trackpoint_rideFile, recordTrackpoint_raw _ prevPoint (by rw [hsame.1, hprev])
    (by rw [hsame.2.1]; exact hrule), hsame.1]

/-- The samples `endElement("Trackpoint")` appends when a previous sample exists
and the condition of line 210 fails: the run of the interpolation loop. -/
theorem trackpoint_interpolated (P : Parsers) (s : TcxParser) (prevPoint : RideFilePoint)
    (hprev : s.rideFile.dataPoints.getLast? = some prevPoint)
    (hrule : ¬ rawRule (beforeRecord s) (s.secs - prevPoint.secs)) :
    (endElement P s "Trackpoint").rideFile.dataPoints = s.rideFile.dataPoints ++
      ((List.range (iterations (Int.floor (s.secs - prevPoint.secs)) s.GarminHWM 1)).map
        fun (k : Nat) => interpolatedPoint (atInterpolation s prevPoint) prevPoint (1 + (k : Int))) := by
  have hsame := beforeRecord_same s
  rw [endElement_Trackpoint_rideFile, recordTrackpoint_interpolated _ prevPoint
    (by rw [hsame.1, hprev]) (by rw [hsame.2.1]; exact hrule), hsame.1, hsame.2.1,
    hsame.2.2.2.2.2.2.2.2.2.2.2.2.2.1]
  rfl

theorem not_rawRule_iff (s : TcxParser) (d : ℚ) :
    ¬ rawRule s d ↔
      s.isGarminSmartRecording ≠ 0 ∧ d ≠ 1 ∧ (d < (s.GarminHWM : ℚ) ∨ s.swim = SwimState.Swim) := by
  unfold rawRule
  constructor
  · intro h
    refine ⟨fun h0 => h (Or.inl h0), fun h1 => h (Or.inr (Or.inl h1)), ?_⟩
    by_cases hsw : s.swim = SwimState.Swim
    · exact Or.inr hsw
    · left
      by_contra hlt
      exact h (Or.inr (Or.inr ⟨not_lt.mp hlt, hsw⟩))
  · rintro ⟨h0, h1, h2⟩ (h | h | ⟨h, hsw⟩)
    · exact h0 h
    · exact h1 h
    · rcases h2 with h2 | h2
      · exact absurd h (not_le.mpr h2)
      · exact hsw h2

theorem beforeRecord_rawRule (s : TcxParser) (d : ℚ) :
    rawRule (beforeRecord s) d ↔
      (s.isGarminSmartRecording = 0 ∨ d = 1 ∨
        ((s.GarminHWM : ℚ) ≤ d ∧ (beforeRecord s).swim ≠ SwimState.Swim)) := by
  have hsame := beforeRecord_same s
  unfold rawRule
  rw [hsame.2.2.2.2.2.2.2.2.2.2.2.2.1, hsame.2.2.2.2.2.2.2.2.2.2.2.2.2.1]

/-- The run of the interpolation loop, sample by sample. -/
theorem trackpoint_interpolated_run (P : Parsers) (s : TcxParser) (prevPoint : RideFilePoint)
    (hprev : s.rideFile.dataPoints.getLast? = some prevPoint)
    (hrule : ¬ rawRule (beforeRecord s) (s.secs - prevPoint.secs)) :
    ∃ run : List RideFilePoint,
      (endElement P s "Trackpoint").rideFile.dataPoints = s.rideFile.dataPoints ++ run ∧
      run.length = iterations (Int.floor (s.secs - prevPoint.secs)) s.GarminHWM 1 ∧
      ∀ (i : Nat) (h : i < run.length),
        run[i] = interpolatedPoint (atInterpolation s prevPoint) prevPoint ((i : Int) + 1) := by
  refine ⟨_, trackpoint_interpolated P s prevPoint hprev hrule, by simp, ?_⟩
  intro i h
  simp only [List.getElem_map, List.getElem_range]
  congr 1
  ring

theorem iterations_lt (x : ℚ) (hwm : Int) (i : Nat)
    (h : i < iterations (Int.floor x) hwm 1) :
    ((i : ℚ) + 1 ≤ x) ∧ ((i : Int) + 1 ≤ 300 * hwm) := by
  unfold iterations at h
  have h1 : (i : Int) + 1 ≤ Int.floor x := by omega
  have h2 : (i : Int) + 1 ≤ 300 * hwm := by omega
  refine ⟨?_, h2⟩
  have := Int.le_floor.mp h1
  push_cast at this
  exact this

theorem iterations_int (d hwm : Int) :
    ((iterations (Int.floor ((d : ℚ))) hwm 1 : Nat) : Int) = max 0 (min d (300 * hwm)) := by
  unfold iterations
  rw [Int.floor_intCast]
  omega


/-! ## Smart-recording resampling -/

/-- C1 (raw passthrough). At a Trackpoint-close that is not the first of its
activity, with the gap measured from the last emitted sample, if smart recording
is disabled, or the gap is one second, or the gap is at least the high water
mark and the activity is not classified Swim, then exactly one sample is
appended, carrying the trackpoint's own timestamp, cadence, heart rate,
(possibly derived) distance and speed, torque, power, altitude, longitude,
latitude and the current lap index. -/
theorem raw_passthrough (P : Parsers) (s : TcxParser) (prevPoint : RideFilePoint)
    (hprev : s.rideFile.dataPoints.getLast? = some prevPoint)
    (hrule : s.isGarminSmartRecording = 0 ∨ s.secs - prevPoint.secs = 1 ∨
      ((s.GarminHWM : ℚ) ≤ s.secs - prevPoint.secs ∧
        (beforeRecord s).swim ≠ SwimState.Swim)) :
    (endElement P s "Trackpoint").rideFile.dataPoints = s.rideFile.dataPoints ++
      [{ secs := s.secs, cad := s.cadence, hr := s.hr
         km := (deriveSpeedDistance s).distance, kph := (deriveSpeedDistance s).speed
         nm := s.torque, watts := s.power, alt := s.alt, lon := s.lon, lat := s.lat
         headwind := s.headwind, rcad := s.rcad, interval := s.lap }] := by
  have hsame := beforeRecord_same s
  obtain ⟨-, h2, h3, h4, h5, h6, h7, h8, h9, h10, h11, h12, -⟩ := hsame
  rw [trackpoint_raw P s prevPoint hprev ((beforeRecord_rawRule s _).2 hrule)]
  simp only [rawPoint, h2, h3, h4, h5, h6, h7, h8, h9, h10, h11, h12, beforeRecord_speed,
    beforeRecord_distance]

/-- C2 (synthesis count and spacing). With smart recording enabled, at a
non-first Trackpoint-close whose gap is an integer `d` other than 1 and is below
the high water mark or falls in an activity classified Swim, the number of
samples appended is `min d (300 * HWM)`, none when that is not positive, and
the sample number `i + 1` of the run is stamped `i + 1` seconds after the
previous last sample. -/
theorem synthesis_count_and_spacing (P : Parsers) (s : TcxParser) (prevPoint : RideFilePoint)
    (d : Int)
    (hsmart : s.isGarminSmartRecording ≠ 0)
    (hprev : s.rideFile.dataPoints.getLast? = some prevPoint)
    (hgap : s.secs - prevPoint.secs = (d : ℚ))
    (hne : d ≠ 1)
    (hrule : d < s.GarminHWM ∨ (beforeRecord s).swim = SwimState.Swim) :
    ∃ run : List RideFilePoint,
      (endElement P s "Trackpoint").rideFile.dataPoints = s.rideFile.dataPoints ++ run ∧
      (run.length : Int) = max 0 (min d (300 * s.GarminHWM)) ∧
      ∀ (i : Nat) (h : i < run.length), run[i].secs = prevPoint.secs + ((i : ℚ) + 1) := by
  have hsame := beforeRecord_same s
  have hnot : ¬ rawRule (beforeRecord s) (s.secs - prevPoint.secs) := by
    rw [not_rawRule_iff, hsame.2.2.2.2.2.2.2.2.2.2.2.2.1, hsame.2.2.2.2.2.2.2.2.2.2.2.2.2.1, hgap]
    refine ⟨hsmart, ?_, ?_⟩
    · exact_mod_cast hne
    · rcases hrule with h | h
      · left
        exact_mod_cast h
      · exact Or.inr h
  obtain ⟨run, hrun, hlen, hget⟩ := trackpoint_interpolated_run P s prevPoint hprev hnot
  refine ⟨run, hrun, ?_, ?_⟩
  · rw [hlen, hgap, iterations_int]
  · intro i h
    have hpos := (iterations_lt _ _ i (hlen ▸ h)).1
    have hne0 : s.secs - prevPoint.secs ≠ 0 := by
      have : (0 : ℚ) < (i : ℚ) + 1 := by positivity
      linarith
    rw [hget i h]
    simp only [interpolatedPoint, (atInterpolation_same s prevPoint).2.1]
    push_cast
    rw [mul_div_cancel₀ _ hne0]

theorem beforeRecord_swim_of_ne (s : TcxParser) (h : s.swim ≠ SwimState.MayBeSwim) :
    (beforeRecord s).swim = s.swim := by
  unfold beforeRecord classifySwim flagBadGps deriveSpeedDistance
  dsimp only
  split_ifs <;> first | rfl | simp_all

theorem raw_passthrough_witness :
    gapThirty.rideFile.dataPoints.getLast? = some originPoint ∧
    ((gapThirty.GarminHWM : ℚ) ≤ gapThirty.secs - originPoint.secs ∧
      (beforeRecord gapThirty).swim ≠ SwimState.Swim) ∧
    (endElement exampleParsers gapThirty "Trackpoint").rideFile.dataPoints =
      [originPoint, { originPoint with secs := 30 }] := by
  have hsw : (beforeRecord gapThirty).swim ≠ SwimState.Swim := by
    rw [beforeRecord_swim_of_ne _ (by decide)]
    decide
  have hgap : (gapThirty.GarminHWM : ℚ) ≤ gapThirty.secs - originPoint.secs := by
    norm_num [gapThirty, oneSampleIn, originPoint]
  refine ⟨rfl, ⟨hgap, hsw⟩, ?_⟩
  rw [raw_passthrough exampleParsers gapThirty originPoint rfl (Or.inr (Or.inr ⟨hgap, hsw⟩))]
  norm_num [gapThirty, oneSampleIn, originPoint, RideFile.fresh, deriveSpeedDistance]

theorem synthesis_count_and_spacing_witness :
    swimGapThirty.isGarminSmartRecording ≠ 0 ∧
    swimGapThirty.rideFile.dataPoints.getLast? = some originPoint ∧
    swimGapThirty.secs - originPoint.secs = ((30 : Int) : ℚ) ∧
    (beforeRecord swimGapThirty).swim = SwimState.Swim ∧
    ∃ run : List RideFilePoint,
      (endElement exampleParsers swimGapThirty "Trackpoint").rideFile.dataPoints =
        swimGapThirty.rideFile.dataPoints ++ run ∧
      (run.length : Int) = 30 ∧
      ∀ (i : Nat) (h : i < run.length), run[i].secs = originPoint.secs + ((i : ℚ) + 1) := by
  have hsmart : swimGapThirty.isGarminSmartRecording ≠ 0 := by decide
  have hgap : swimGapThirty.secs - originPoint.secs = ((30 : Int) : ℚ) := by
    norm_num [swimGapThirty, oneSampleIn, originPoint]
  have hsw : (beforeRecord swimGapThirty).swim = SwimState.Swim :=
    beforeRecord_swim_of_ne _ (by decide)
  refine ⟨hsmart, rfl, hgap, hsw, ?_⟩
  obtain ⟨run, h1, h2, h3⟩ := synthesis_count_and_spacing exampleParsers swimGapThirty
    originPoint 30 hsmart rfl hgap (by decide) (Or.inr hsw)
  exact ⟨run, h1, by rw [h2]; decide, h3⟩

/-- C3 (interpolated speed). With smart recording enabled, on an activity not
classified Swim, at a non-first Trackpoint-close whose gap is an integer `d`
with `1 < d < HWM`, exactly `d` samples are appended and the speed of sample
number `i + 1` is `prevSpeed + (speed - prevSpeed) * (i + 1) / d` when that
exceeds 0.35 and 0 otherwise, `prevSpeed` being the speed of the sample that was
last in the series before the run. -/
theorem interpolated_speed (P : Parsers) (s : TcxParser) (prevPoint : RideFilePoint)
    (d : Int)
    (hsmart : s.isGarminSmartRecording ≠ 0)
    (hswim : (beforeRecord s).swim ≠ SwimState.Swim)
    (hprev : s.rideFile.dataPoints.getLast? = some prevPoint)
    (hgap : s.secs - prevPoint.secs = (d : ℚ))
    (hlow : 1 < d) (hhigh : d < s.GarminHWM) :
    ∃ run : List RideFilePoint,
      (endElement P s "Trackpoint").rideFile.dataPoints = s.rideFile.dataPoints ++ run ∧
      (run.length : Int) = d ∧
      ∀ (i : Nat) (h : i < run.length),
        run[i].kph =
          if prevPoint.kph + ((deriveSpeedDistance s).speed - prevPoint.kph) * ((i : ℚ) + 1) / d
              > 0.35
          then prevPoint.kph + ((deriveSpeedDistance s).speed - prevPoint.kph) * ((i : ℚ) + 1) / d
          else 0 := by
  have hsame := beforeRecord_same s
  have hnot : ¬ rawRule (beforeRecord s) (s.secs - prevPoint.secs) := by
    rw [not_rawRule_iff, hsame.2.2.2.2.2.2.2.2.2.2.2.2.1, hsame.2.2.2.2.2.2.2.2.2.2.2.2.2.1, hgap]
    refine ⟨hsmart, ?_, Or.inl ?_⟩
    · have : d ≠ 1 := by omega
      exact_mod_cast this
    · exact_mod_cast hhigh
  obtain ⟨run, hrun, hlen, hget⟩ := trackpoint_interpolated_run P s prevPoint hprev hnot
  refine ⟨run, hrun, ?_, ?_⟩
  · rw [hlen, hgap, iterations_int]
    omega
  · intro i h
    have hsw : (atInterpolation s prevPoint).swim ≠ SwimState.Swim := by
      unfold atInterpolation
      rw [flagPrevBadGps_swim]
      exact hswim
    rw [hget i h]
    simp only [interpolatedPoint, if_neg hsw, (atInterpolation_same s prevPoint).2.1, hgap]
    unfold atInterpolation
    rw [flagPrevBadGps_speed, beforeRecord_speed]
    push_cast
    rw [mul_div_assoc]

theorem interpolated_speed_witness :
    gapTen.isGarminSmartRecording ≠ 0 ∧
    (beforeRecord gapTen).swim ≠ SwimState.Swim ∧
    gapTen.rideFile.dataPoints.getLast? = some originPoint ∧
    gapTen.secs - originPoint.secs = ((10 : Int) : ℚ) ∧
    (1 : Int) < 10 ∧ 10 < gapTen.GarminHWM ∧
    originPoint.kph = 0 ∧ (deriveSpeedDistance gapTen).speed = 36 ∧
    ∃ run : List RideFilePoint,
      (endElement exampleParsers gapTen "Trackpoint").rideFile.dataPoints =
        gapTen.rideFile.dataPoints ++ run ∧
      run.length = 10 ∧ run[4]?.map RideFilePoint.kph = some 18 := by
  have hsmart : gapTen.isGarminSmartRecording ≠ 0 := by decide
  have hsw : (beforeRecord gapTen).swim ≠ SwimState.Swim := by
    rw [beforeRecord_swim_of_ne _ (by decide)]
    decide
  have hgap : gapTen.secs - originPoint.secs = ((10 : Int) : ℚ) := by
    norm_num [gapTen, oneSampleIn, originPoint]
  have hspeed : (deriveSpeedDistance gapTen).speed = 36 := by
    norm_num [deriveSpeedDistance, gapTen, oneSampleIn]
  refine ⟨hsmart, hsw, rfl, hgap, by decide, by decide, rfl, hspeed, ?_⟩
  obtain ⟨run, h1, h2, h3⟩ := interpolated_speed exampleParsers gapTen originPoint 10
    hsmart hsw rfl hgap (by decide) (by decide)
  have hlen : run.length = 10 := by exact_mod_cast h2
  refine ⟨run, h1, hlen, ?_⟩
  have h4 : 4 < run.length := by omega
  rw [List.getElem?_eq_getElem h4, Option.map_some', h3 4 h4, hspeed]
  norm_num [originPoint]

/-- C4 (linear blend of the remaining fields). In every synthesized run (smart
recording enabled, gap other than 1, and gap below the high water mark or
activity classified Swim), the heart rate, distance, torque, power, altitude and
run cadence of sample number `i + 1` are `prev + (curr - prev) * (i + 1) / gap`,
with `prev` taken from the sample that was last in the series before the run and
`curr` the trackpoint's own (possibly derived) value; and when the gap is an
integer not above `300 * HWM`, the last sample of the run carries the
trackpoint's own values of those fields. -/
theorem linear_blend (P : Parsers) (s : TcxParser) (prevPoint : RideFilePoint)
    (hsmart : s.isGarminSmartRecording ≠ 0)
    (hprev : s.rideFile.dataPoints.getLast? = some prevPoint)
    (hne : s.secs - prevPoint.secs ≠ 1)
    (hrule : s.secs - prevPoint.secs < (s.GarminHWM : ℚ) ∨
      (beforeRecord s).swim = SwimState.Swim) :
    ∃ run : List RideFilePoint,
      (endElement P s "Trackpoint").rideFile.dataPoints = s.rideFile.dataPoints ++ run ∧
      (∀ (i : Nat) (h : i < run.length),
        run[i].hr = prevPoint.hr +
          (s.hr - prevPoint.hr) * ((i : ℚ) + 1) / (s.secs - prevPoint.secs) ∧
        run[i].km = prevPoint.km +
          ((deriveSpeedDistance s).distance - prevPoint.km) * ((i : ℚ) + 1) /
            (s.secs - prevPoint.secs) ∧
        run[i].nm = prevPoint.nm +
          (s.torque - prevPoint.nm) * ((i : ℚ) + 1) / (s.secs - prevPoint.secs) ∧
        run[i].watts = prevPoint.watts +
          (s.power - prevPoint.watts) * ((i : ℚ) + 1) / (s.secs - prevPoint.secs) ∧
        run[i].alt = prevPoint.alt +
          (s.alt - prevPoint.alt) * ((i : ℚ) + 1) / (s.secs - prevPoint.secs) ∧
        run[i].rcad = prevPoint.rcad +
          (s.rcad - prevPoint.rcad) * ((i : ℚ) + 1) / (s.secs - prevPoint.secs)) ∧
      (∀ d : Int, s.secs - prevPoint.secs = (d : ℚ) → d ≤ 300 * s.GarminHWM →
        ∀ hrun : run ≠ [],
          (run.getLast hrun).hr = s.hr ∧
          (run.getLast hrun).km = (deriveSpeedDistance s).distance ∧
          (run.getLast hrun).nm = s.torque ∧
          (run.getLast hrun).watts = s.power ∧
          (run.getLast hrun).alt = s.alt ∧
          (run.getLast hrun).rcad = s.rcad) := by
  have hsame := beforeRecord_same s
  have hnot : ¬ rawRule (beforeRecord s) (s.secs - prevPoint.secs) := by
    rw [not_rawRule_iff, hsame.2.2.2.2.2.2.2.2.2.2.2.2.1, hsame.2.2.2.2.2.2.2.2.2.2.2.2.2.1]
    exact ⟨hsmart, hne, hrule⟩
  obtain ⟨run, hrun, hlen, hget⟩ := trackpoint_interpolated_run P s prevPoint hprev hnot
  have hat := atInterpolation_same s prevPoint
  obtain ⟨-, a2, -, a4, a5, a6, a7, -, -, -, a11, -⟩ := hat
  have hkm : (atInterpolation s prevPoint).distance = (deriveSpeedDistance s).distance := by
    unfold atInterpolation
    rw [flagPrevBadGps_distance, beforeRecord_distance]
  have hblend : ∀ (i : Nat) (h : i < run.length),
      run[i].hr = prevPoint.hr +
          (s.hr - prevPoint.hr) * ((i : ℚ) + 1) / (s.secs - prevPoint.secs) ∧
        run[i].km = prevPoint.km +
          ((deriveSpeedDistance s).distance - prevPoint.km) * ((i : ℚ) + 1) /
            (s.secs - prevPoint.secs) ∧
        run[i].nm = prevPoint.nm +
          (s.torque - prevPoint.nm) * ((i : ℚ) + 1) / (s.secs - prevPoint.secs) ∧
        run[i].watts = prevPoint.watts +
          (s.power - prevPoint.watts) * ((i : ℚ) + 1) / (s.secs - prevPoint.secs) ∧
        run[i].alt = prevPoint.alt +
          (s.alt - prevPoint.alt) * ((i : ℚ) + 1) / (s.secs - prevPoint.secs) ∧
        run[i].rcad = prevPoint.rcad +
          (s.rcad - prevPoint.rcad) * ((i : ℚ) + 1) / (s.secs - prevPoint.secs) := by
    intro i h
    rw [hget i h]
    simp only [interpolatedPoint, a2, a4, a5, a6, a7, a11, hkm, mul_div_assoc]
    push_cast
    exact ⟨rfl, rfl, rfl, rfl, rfl, rfl⟩
  refine ⟨run, hrun, hblend, ?_⟩
  intro d hd hcap hne'
  have hpos : 0 < run.length := List.length_pos.mpr hne'
  have hlen' : (run.length : Int) = max 0 (min d (300 * s.GarminHWM)) := by
    rw [hlen, hd, iterations_int]
  have hd1 : (run.length : Int) = d := by omega
  have hlast : ((run.length - 1 : Nat) : ℚ) + 1 = s.secs - prevPoint.secs := by
    rw [hd, ← hd1]
    have : ((run.length - 1 : Nat) : Int) + 1 = (run.length : Int) := by omega
    exact_mod_cast this
  have hne0 : s.secs - prevPoint.secs ≠ 0 := by
    rw [← hlast]
    positivity
  rw [List.getLast_eq_getElem]
  obtain ⟨b1, b2, b3, b4, b5, b6⟩ := hblend (run.length - 1) (by omega)
  rw [b1, b2, b3, b4, b5, b6, hlast]
  simp only [mul_div_assoc, div_self hne0, mul_one, add_sub_cancel, and_self]

theorem linear_blend_witness :
    gapTenFull.isGarminSmartRecording ≠ 0 ∧
    gapTenFull.rideFile.dataPoints.getLast? = some originPoint ∧
    gapTenFull.secs - originPoint.secs ≠ 1 ∧
    gapTenFull.secs - originPoint.secs < (gapTenFull.GarminHWM : ℚ) ∧
    ∃ run : List RideFilePoint,
      (endElement exampleParsers gapTenFull "Trackpoint").rideFile.dataPoints =
        gapTenFull.rideFile.dataPoints ++ run ∧
      (∀ (i : Nat) (h : i < run.length),
        run[i].hr = 15 * ((i : ℚ) + 1) ∧ run[i].watts = 20 * ((i : ℚ) + 1)) ∧
      (∀ hrun : run ≠ [], (run.getLast hrun).hr = 150 ∧ (run.getLast hrun).watts = 200) := by
  have hsmart : gapTenFull.isGarminSmartRecording ≠ 0 := by decide
  have hne : gapTenFull.secs - originPoint.secs ≠ 1 := by
    norm_num [gapTenFull, gapTen, oneSampleIn, originPoint]
  have hlt : gapTenFull.secs - originPoint.secs < (gapTenFull.GarminHWM : ℚ) := by
    norm_num [gapTenFull, gapTen, oneSampleIn, originPoint]
  refine ⟨hsmart, rfl, hne, hlt, ?_⟩
  obtain ⟨run, h1, h2, h3⟩ := linear_blend exampleParsers gapTenFull originPoint hsmart rfl hne
    (Or.inl hlt)
  refine ⟨run, h1, ?_, ?_⟩
  · intro i h
    obtain ⟨a, -, -, b, -⟩ := h2 i h
    rw [a, b]
    norm_num [gapTenFull, gapTen, oneSampleIn, originPoint]
    constructor <;> ring
  · intro hrun
    obtain ⟨a, -, -, b, -⟩ := h3 10 (by norm_num [gapTenFull, gapTen, oneSampleIn, originPoint])
      (by decide) hrun
    rw [a, b]
    exact ⟨rfl, rfl⟩

/-- The speed of every synthesized sample is 0 or above 0.35 (lines 230-232). -/
theorem interpolatedPoint_kph_floor (s : TcxParser) (prevPoint : RideFilePoint) (i : Int) :
    (interpolatedPoint s prevPoint i).kph = 0 ∨ (interpolatedPoint s prevPoint i).kph > 0.35 := by
  simp only [interpolatedPoint]
  split_ifs with h1 h2 h3
  · exact Or.inr h2
  · exact Or.inl rfl
  · exact Or.inr h3
  · exact Or.inl rfl

/-- C5 (noise-floor snap), evaluated where it fails: between a sample with
cadence 0 and a trackpoint with cadence 1 ten seconds later, ten samples are
synthesized and the first has cadence 1/10, which is neither 0 nor above 0.35.
The floored local `cad` of lines 233-234 is never passed to `appendPoint`. -/
theorem cadence_not_floored :
    ∃ run : List RideFilePoint,
      (endElement exampleParsers gapTenSlowCadence "Trackpoint").rideFile.dataPoints =
        gapTenSlowCadence.rideFile.dataPoints ++ run ∧
      run.length = 10 ∧
      run[0]?.map RideFilePoint.cad = some (1 / 10) ∧
      ¬ ((1 / 10 : ℚ) = 0 ∨ (1 / 10 : ℚ) > 0.35) := by
  have hgap : gapTenSlowCadence.secs - originPoint.secs = ((10 : Int) : ℚ) := by
    norm_num [gapTenSlowCadence, gapTen, oneSampleIn, originPoint]
  have hnot : ¬ rawRule (beforeRecord gapTenSlowCadence)
      (gapTenSlowCadence.secs - originPoint.secs) := by
    rw [beforeRecord_rawRule, hgap]
    norm_num [gapTenSlowCadence, gapTen, oneSampleIn]
  obtain ⟨run, h1, h2, h3⟩ :=
    trackpoint_interpolated_run exampleParsers gapTenSlowCadence originPoint rfl hnot
  have hlen : run.length = 10 := by
    have h := iterations_int 10 gapTenSlowCadence.GarminHWM
    rw [← hgap, ← h2] at h
    have h' : max (0 : Int) (min 10 (300 * gapTenSlowCadence.GarminHWM)) = 10 := by decide
    omega
  have h0 : 0 < run.length := by omega
  refine ⟨run, h1, hlen, ?_, by norm_num⟩
  rw [List.getElem?_eq_getElem h0, Option.map_some', h3 0 h0]
  simp only [interpolatedPoint, (atInterpolation_same gapTenSlowCadence originPoint).2.1,
    (atInterpolation_same gapTenSlowCadence originPoint).2.2.1]
  norm_num [gapTenSlowCadence, gapTen, oneSampleIn, originPoint]

/-! ## Derivation of speed and distance -/

/-- C7 (speed derivation). At Trackpoint-close, for a trackpoint whose parsed
speed is 0 and whose distance is known and positive, with `dt` the seconds from
the previous trackpoint's time (or the first lap's start) to this one: when
`dt > 0` the speed used for emission is
`max 0 (distance - lastDistance) / dt * 3600`, when `dt ≤ 0` it stays 0, and the
distance is left unchanged. -/
theorem speed_derivation (P : Parsers) (s : TcxParser)
    (hspeed : s.speed = 0) (hdist : 0 < s.distance) :
    (0 < s.time - s.last_time →
      (beforeRecord s).speed =
        max 0 (s.distance - s.last_distance) / ((s.time - s.last_time : Int) : ℚ) * 3600 ∧
      (endElement P s "Trackpoint").speed =
        max 0 (s.distance - s.last_distance) / ((s.time - s.last_time : Int) : ℚ) * 3600) ∧
    (s.time - s.last_time ≤ 0 →
      (beforeRecord s).speed = 0 ∧ (endElement P s "Trackpoint").speed = 0) ∧
    (beforeRecord s).distance = s.distance ∧
    (endElement P s "Trackpoint").distance = s.distance := by
  have hfin : ∀ t : TcxParser, (recordTrackpoint t).speed = t.speed ∧
      (recordTrackpoint t).distance = t.distance := by
    intro t
    unfold recordTrackpoint
    split
    · exact ⟨rfl, rfl⟩
    · dsimp only
      split_ifs
      · exact ⟨flagPrevBadGps_speed _ _, flagPrevBadGps_distance _ _⟩
      · exact ⟨flagPrevBadGps_speed _ _, flagPrevBadGps_distance _ _⟩
  have hend : (endElement P s "Trackpoint").speed = (beforeRecord s).speed :=
    (hfin (beforeRecord s)).1
  have hendd : (endElement P s "Trackpoint").distance = (beforeRecord s).distance :=
    (hfin (beforeRecord s)).2
  rw [hend, hendd, beforeRecord_speed, beforeRecord_distance]
  refine ⟨fun hdt => ?_, fun hdt => ?_, ?_⟩
  · have hq : ((s.time - s.last_time : Int) : ℚ) > 0 := by exact_mod_cast hdt
    have hval : (deriveSpeedDistance s).speed =
        max 0 (s.distance - s.last_distance) / ((s.time - s.last_time : Int) : ℚ) * 3600 := by
      unfold deriveSpeedDistance
      simp only [hspeed, true_or, if_true, true_and, gt_iff_lt, hdist, hq]
      by_cases hneg : s.distance - s.last_distance < 0
      · simp only [if_pos hneg, max_eq_left hneg.le]
      · simp only [if_neg hneg, max_eq_right (not_lt.mp hneg)]
    exact ⟨hval, hval⟩
  · have hq : ¬ ((s.time - s.last_time : Int) : ℚ) > 0 := by
      have : ((s.time - s.last_time : Int) : ℚ) ≤ 0 := by exact_mod_cast hdt
      exact not_lt.mpr this
    have hval : (deriveSpeedDistance s).speed = 0 := by
      unfold deriveSpeedDistance
      simp only [hspeed, true_or, if_true, true_and, gt_iff_lt, hdist, hq, if_false]
    exact ⟨hval, hval⟩
  · have hval : (deriveSpeedDistance s).distance = s.distance := by
      unfold deriveSpeedDistance
      simp only [hspeed, true_or, if_true, true_and, gt_iff_lt, hdist]
      split_ifs <;> rfl
    exact ⟨hval, hval⟩

theorem speed_derivation_witness :
    distanceOnlyTen.speed = 0 ∧ 0 < distanceOnlyTen.distance ∧
    0 < distanceOnlyTen.time - distanceOnlyTen.last_time ∧
    (beforeRecord distanceOnlyTen).speed = 36 ∧
    (endElement exampleParsers distanceOnlyTen "Trackpoint").speed = 36 ∧
    (endElement exampleParsers distanceOnlyTen "Trackpoint").distance = 1 / 10 := by
  have hspeed : distanceOnlyTen.speed = 0 := rfl
  have hdist : 0 < distanceOnlyTen.distance := by
    norm_num [distanceOnlyTen, oneSampleIn]
  have hdt : 0 < distanceOnlyTen.time - distanceOnlyTen.last_time := by decide
  have hval : max 0 (distanceOnlyTen.distance - distanceOnlyTen.last_distance) /
      ((distanceOnlyTen.time - distanceOnlyTen.last_time : Int) : ℚ) * 3600 = 36 := by
    norm_num [distanceOnlyTen, oneSampleIn]
  obtain ⟨h1, -, -, h4⟩ := speed_derivation exampleParsers distanceOnlyTen hspeed hdist
  obtain ⟨a, b⟩ := h1 hdt
  rw [hval] at a b
  exact ⟨hspeed, hdist, hdt, a, b, h4⟩

/-- C8 (distance derivation). At Trackpoint-close, for a trackpoint whose
distance is unset (negative, the sentinel being -1), the distance used for
emission and stored as the new last distance is
`lastDistance + dt * speed / 3600` and the speed is left unchanged; a trackpoint
with known distance (not negative) and non-zero speed has neither quantity
altered by the derivation. -/
theorem distance_derivation (P : Parsers) (s : TcxParser) :
    (s.distance < 0 →
      (beforeRecord s).distance =
        s.last_distance + ((s.time - s.last_time : Int) : ℚ) * s.speed / 3600 ∧
      (endElement P s "Trackpoint").last_distance =
        s.last_distance + ((s.time - s.last_time : Int) : ℚ) * s.speed / 3600 ∧
      (beforeRecord s).speed = s.speed) ∧
    (0 ≤ s.distance → s.speed ≠ 0 →
      (beforeRecord s).distance = s.distance ∧ (beforeRecord s).speed = s.speed ∧
      (endElement P s "Trackpoint").last_distance = s.distance) := by
  have hfin : ∀ t : TcxParser, (recordTrackpoint t).distance = t.distance := by
    intro t
    unfold recordTrackpoint
    split
    · rfl
    · dsimp only
      split_ifs <;> exact flagPrevBadGps_distance _ _
  have hend : (endElement P s "Trackpoint").last_distance = (beforeRecord s).distance :=
    hfin (beforeRecord s)
  rw [hend, beforeRecord_speed, beforeRecord_distance]
  constructor
  · intro hneg
    have hnp : ¬ s.distance > 0 := not_lt.mpr hneg.le
    have hd : (deriveSpeedDistance s).distance =
        s.last_distance + ((s.time - s.last_time : Int) : ℚ) * s.speed / 3600 := by
      unfold deriveSpeedDistance
      simp only [hneg, or_true, if_true, hnp, and_false, if_false]
    have hs : (deriveSpeedDistance s).speed = s.speed := by
      unfold deriveSpeedDistance
      simp only [hneg, or_true, if_true, hnp, and_false, if_false]
    exact ⟨hd, hd, hs⟩
  · intro hnn hsp
    have hcond : ¬ (s.speed = 0 ∨ s.distance < 0) := by
      rintro (h | h)
      · exact hsp h
      · exact absurd h (not_lt.mpr hnn)
    have hd : deriveSpeedDistance s = s := by
      unfold deriveSpeedDistance
      rw [if_neg hcond]
    rw [hd]
    exact ⟨rfl, rfl, rfl⟩

theorem distance_derivation_witness :
    speedOnlyTen.distance < 0 ∧
    (beforeRecord speedOnlyTen).distance = 1 / 10 ∧
    (endElement exampleParsers speedOnlyTen "Trackpoint").last_distance = 1 / 10 ∧
    (beforeRecord speedOnlyTen).speed = 36 ∧
    (0 ≤ gapTen.distance ∧ gapTen.speed ≠ 0 ∧
      (beforeRecord gapTen).distance = 1 / 20 ∧ (beforeRecord gapTen).speed = 36 ∧
      (endElement exampleParsers gapTen "Trackpoint").last_distance = 1 / 20) := by
  have hneg : speedOnlyTen.distance < 0 := by norm_num [speedOnlyTen, oneSampleIn]
  have hval : speedOnlyTen.last_distance +
      ((speedOnlyTen.time - speedOnlyTen.last_time : Int) : ℚ) * speedOnlyTen.speed / 3600
        = 1 / 10 := by
    norm_num [speedOnlyTen, oneSampleIn]
  have hnn : 0 ≤ gapTen.distance := by norm_num [gapTen, oneSampleIn]
  have hsp : gapTen.speed ≠ 0 := by norm_num [gapTen, oneSampleIn]
  obtain ⟨a, b, c⟩ := (distance_derivation exampleParsers speedOnlyTen).1 hneg
  obtain ⟨d, e, f⟩ := (distance_derivation exampleParsers gapTen).2 hnn hsp
  rw [hval] at a b
  exact ⟨hneg, a, b, c, hnn, hsp, d, e, f⟩

/-! ## Bad GPS -/

theorem beforeRecord_badgps (s : TcxParser) :
    (beforeRecord s).badgps = true ↔ s.badgps = true ∨ (s.lat = 0 ∧ s.lon = 0) := by
  have h1 : (deriveSpeedDistance s).badgps = s.badgps := by
    unfold deriveSpeedDistance
    dsimp only
    split_ifs <;> rfl
  have h2 := deriveSpeedDistance_same s
  have h3 : ∀ t : TcxParser, (classifySwim t).badgps = t.badgps := by
    intro t
    unfold classifySwim
    split_ifs <;> rfl
  unfold beforeRecord
  rw [h3]
  unfold flagBadGps
  rw [h2.2.2.2.2.2.2.2.2.1, h2.2.2.2.2.2.2.2.1]
  split_ifs with h
  · simp [h]
  · simp [h, h1]

theorem atInterpolation_badgps (s : TcxParser) (prevPoint : RideFilePoint) :
    (atInterpolation s prevPoint).badgps = true ↔
      s.badgps = true ∨ (s.lat = 0 ∧ s.lon = 0) ∨ (prevPoint.lat = 0 ∧ prevPoint.lon = 0) := by
  unfold atInterpolation flagPrevBadGps
  split_ifs with h
  · simp [h]
  · rw [beforeRecord_badgps]
    simp [h]

theorem recordTrackpoint_badgps (t : TcxParser) (h : t.badgps = true) :
    (recordTrackpoint t).badgps = true := by
  have hf : ∀ p, (flagPrevBadGps t p).badgps = true := by
    intro p
    unfold flagPrevBadGps
    split_ifs
    · rfl
    · exact h
  unfold recordTrackpoint
  split
  · exact h
  · dsimp only
    split_ifs <;> exact hf _

theorem startElement_badgps_false (P : Parsers) (s : TcxParser) (qName : String)
    (qAttributes : String → String) (h : s.badgps = false) :
    (startElement P s qName qAttributes).badgps = false := by
  unfold startElement
  dsimp only
  split_ifs <;> first | exact h | rfl | (split <;> exact h)

theorem endElement_badgps_false (P : Parsers) (s : TcxParser) (qName : String)
    (hq : qName ≠ "Trackpoint") (h : s.badgps = false) :
    (endElement P s qName).badgps = false := by
  unfold endElement
  simp only [apply_ite TcxParser.badgps, hq, if_false, h, ite_self]

theorem handle_badgps_false (P : Parsers) (s : TcxParser) (e : Event)
    (he : ¬ closesTrackpoint e) (h : s.badgps = false) : (handle P s e).badgps = false := by
  cases e with
  | startElement q a => exact startElement_badgps_false P s q a h
  | characters str => exact h
  | endElement q => exact endElement_badgps_false P s q he h

theorem parse_badgps_false (P : Parsers) (events : List Event) :
    ∀ s : TcxParser, (∀ e ∈ events, ¬ closesTrackpoint e) → s.badgps = false →
      (parse P s events).badgps = false := by
  induction events with
  | nil => intro s _ h; exact h
  | cons e rest ih =>
    intro s hev h
    exact ih (handle P s e) (fun e' he' => hev e' (List.mem_cons_of_mem _ he'))
      (handle_badgps_false P s e (hev e (List.mem_cons_self _ _)) h)

/-- C6 (bad-GPS handling). For a trackpoint, that is a Trackpoint-open followed
by any events other than a Trackpoint-close, the Trackpoint-close sets the
bad-GPS flag when latitude and longitude are both 0; and in every synthesized
run, if the trackpoint or the previous last sample is at (0, 0) every
synthesized sample has longitude 0 and latitude 0, while if neither is, the
longitude and latitude of sample number `i + 1` are the linear blends
`prev + (curr - prev) * (i + 1) / gap`. -/
theorem bad_gps_handling (P : Parsers) (s₀ : TcxParser) (qAttributes : String → String)
    (body : List Event) (hbody : ∀ e ∈ body, ¬ closesTrackpoint e) (s : TcxParser)
    (hs : s = parse P (startElement P s₀ "Trackpoint" qAttributes) body) :
    (s.lat = 0 ∧ s.lon = 0 → (endElement P s "Trackpoint").badgps = true) ∧
    ∀ prevPoint : RideFilePoint,
      s.rideFile.dataPoints.getLast? = some prevPoint →
      s.isGarminSmartRecording ≠ 0 →
      s.secs - prevPoint.secs ≠ 1 →
      (s.secs - prevPoint.secs < (s.GarminHWM : ℚ) ∨ (beforeRecord s).swim = SwimState.Swim) →
      ∃ run : List RideFilePoint,
        (endElement P s "Trackpoint").rideFile.dataPoints = s.rideFile.dataPoints ++ run ∧
        ∀ (i : Nat) (h : i < run.length),
          ((s.lat = 0 ∧ s.lon = 0) ∨ (prevPoint.lat = 0 ∧ prevPoint.lon = 0) →
            run[i].lon = 0 ∧ run[i].lat = 0) ∧
          (¬ (s.lat = 0 ∧ s.lon = 0) → ¬ (prevPoint.lat = 0 ∧ prevPoint.lon = 0) →
            run[i].lon = prevPoint.lon +
              (s.lon - prevPoint.lon) * ((i : ℚ) + 1) / (s.secs - prevPoint.secs) ∧
            run[i].lat = prevPoint.lat +
              (s.lat - prevPoint.lat) * ((i : ℚ) + 1) / (s.secs - prevPoint.secs)) := by
  have hopen : (startElement P s₀ "Trackpoint" qAttributes).badgps = false := rfl
  have hflag : s.badgps = false := by
    rw [hs]
    exact parse_badgps_false P body _ hbody hopen
  constructor
  · intro hzero
    have h1 : (beforeRecord s).badgps = true := (beforeRecord_badgps s).2 (Or.inr hzero)
    exact recordTrackpoint_badgps _ h1
  · intro prevPoint hprev hsmart hne hrule
    have hsame := beforeRecord_same s
    have hnot : ¬ rawRule (beforeRecord s) (s.secs - prevPoint.secs) := by
      rw [not_rawRule_iff, hsame.2.2.2.2.2.2.2.2.2.2.2.2.1,
        hsame.2.2.2.2.2.2.2.2.2.2.2.2.2.1]
      exact ⟨hsmart, hne, hrule⟩
    obtain ⟨run, hrun, -, hget⟩ := trackpoint_interpolated_run P s prevPoint hprev hnot
    have hat := atInterpolation_same s prevPoint
    obtain ⟨-, a2, -, -, -, -, -, a8, a9, -⟩ := hat
    refine ⟨run, hrun, fun i h => ⟨fun hbad => ?_, fun hcur hprv => ?_⟩⟩
    · have hb : (atInterpolation s prevPoint).badgps = true :=
        (atInterpolation_badgps s prevPoint).2 (Or.inr hbad)
      rw [hget i h]
      simp only [interpolatedPoint, hb, if_true, and_self]
    · have hb : ¬ (atInterpolation s prevPoint).badgps = true := by
        rw [atInterpolation_badgps]
        rintro (hx | hx | hx)
        · rw [hflag] at hx
          exact Bool.noConfusion hx
        · exact hcur hx
        · exact hprv hx
      rw [hget i h]
      simp only [interpolatedPoint, hb, if_false, a2, a8, a9, mul_div_assoc]
      push_cast
      exact ⟨rfl, rfl⟩

theorem bad_gps_handling_witness :
    (∀ e ∈ positionBody, ¬ closesTrackpoint e) ∧
    positionTrackpoint.rideFile.dataPoints.getLast? = some fixedPoint ∧
    positionTrackpoint.isGarminSmartRecording ≠ 0 ∧
    positionTrackpoint.secs - fixedPoint.secs ≠ 1 ∧
    positionTrackpoint.secs - fixedPoint.secs < (positionTrackpoint.GarminHWM : ℚ) ∧
    ¬ (positionTrackpoint.lat = 0 ∧ positionTrackpoint.lon = 0) ∧
    ¬ (fixedPoint.lat = 0 ∧ fixedPoint.lon = 0) ∧
    ∃ run : List RideFilePoint,
      (endElement tenSixParsers positionTrackpoint "Trackpoint").rideFile.dataPoints =
        positionTrackpoint.rideFile.dataPoints ++ run ∧
      ∀ (i : Nat) (h : i < run.length),
        run[i].lon = 2 + 4 * ((i : ℚ) + 1) / 10 ∧ run[i].lat = 4 + 2 * ((i : ℚ) + 1) / 10 := by
  have hbody : ∀ e ∈ positionBody, ¬ closesTrackpoint e := by
    intro e he
    simp only [positionBody, List.mem_cons, List.mem_singleton, List.mem_nil_iff, or_false]
      at he
    rcases he with h | h | h | h | h | h | h | h | h <;> subst h <;>
      simp [closesTrackpoint]
  have hsecs : positionTrackpoint.secs = 10 := by
    show (((10 : Int) - 0 : Int) : ℚ) = 10
    norm_num
  have hlat : positionTrackpoint.lat = 6 := rfl
  have hlon : positionTrackpoint.lon = 6 := rfl
  have hhwm : positionTrackpoint.GarminHWM = 25 := rfl
  have hlast : positionTrackpoint.rideFile.dataPoints.getLast? = some fixedPoint := rfl
  have hsmart : positionTrackpoint.isGarminSmartRecording ≠ 0 := by
    show (2 : Int) ≠ 0
    decide
  have hne : positionTrackpoint.secs - fixedPoint.secs ≠ 1 := by
    rw [hsecs]
    norm_num [fixedPoint, originPoint]
  have hlt : positionTrackpoint.secs - fixedPoint.secs < (positionTrackpoint.GarminHWM : ℚ) := by
    rw [hsecs, hhwm]
    norm_num [fixedPoint, originPoint]
  have hcur : ¬ (positionTrackpoint.lat = 0 ∧ positionTrackpoint.lon = 0) := by
    rw [hlat]
    norm_num
  have hprv : ¬ (fixedPoint.lat = 0 ∧ fixedPoint.lon = 0) := by
    norm_num [fixedPoint, originPoint]
  refine ⟨hbody, hlast, hsmart, hne, hlt, hcur, hprv, ?_⟩
  obtain ⟨run, h1, h2⟩ := (bad_gps_handling tenSixParsers oneFixIn (fun _ => "") positionBody
    hbody positionTrackpoint rfl).2 fixedPoint hlast hsmart hne (Or.inl hlt)
  refine ⟨run, h1, fun i h => ?_⟩
  obtain ⟨a, b⟩ := (h2 i h).2 hcur hprv
  rw [a, b, hsecs, hlat, hlon]
  norm_num [fixedPoint, originPoint]

/-! ## Ordering of the timestamps -/

theorem recordTrackpoint_settings (t : TcxParser) :
    (recordTrackpoint t).isGarminSmartRecording = t.isGarminSmartRecording ∧
    (recordTrackpoint t).GarminHWM = t.GarminHWM ∧
    (recordTrackpoint t).earlier = t.earlier := by
  unfold recordTrackpoint
  split
  · exact ⟨rfl, rfl, rfl⟩
  · have h := flagPrevBadGps_same t
    dsimp only
    split_ifs <;>
      exact ⟨(h _).2.2.2.2.2.2.2.2.2.2.2.2.1, (h _).2.2.2.2.2.2.2.2.2.2.2.2.2.1,
        (h _).2.2.2.2.2.2.2.2.2.2.2.2.2.2.2.2.2.1⟩

theorem endElement_settings (P : Parsers) (s : TcxParser) (qName : String) :
    (endElement P s qName).isGarminSmartRecording = s.isGarminSmartRecording ∧
    (endElement P s qName).GarminHWM = s.GarminHWM := by
  by_cases hq : qName = "Trackpoint"
  · subst hq
    have h1 := recordTrackpoint_settings (beforeRecord s)
    have h2 := beforeRecord_same s
    exact ⟨h1.1.trans h2.2.2.2.2.2.2.2.2.2.2.2.2.1,
      h1.2.1.trans h2.2.2.2.2.2.2.2.2.2.2.2.2.2.1⟩
  · unfold endElement
    simp only [apply_ite TcxParser.isGarminSmartRecording, apply_ite TcxParser.GarminHWM, hq,
      if_false, ite_self, and_self]

theorem startElement_settings (P : Parsers) (s : TcxParser) (qName : String)
    (qAttributes : String → String) :
    (startElement P s qName qAttributes).isGarminSmartRecording = s.isGarminSmartRecording ∧
    (startElement P s qName qAttributes).GarminHWM = s.GarminHWM := by
  unfold startElement
  dsimp only
  split_ifs <;> first | exact ⟨rfl, rfl⟩ | (split <;> exact ⟨rfl, rfl⟩)

theorem handle_settings (P : Parsers) (s : TcxParser) (e : Event) :
    (handle P s e).isGarminSmartRecording = s.isGarminSmartRecording ∧
    (handle P s e).GarminHWM = s.GarminHWM := by
  cases e with
  | startElement q a => exact startElement_settings P s q a
  | characters str => exact ⟨rfl, rfl⟩
  | endElement q => exact endElement_settings P s q

theorem startElement_series (P : Parsers) (s : TcxParser) (qName : String)
    (qAttributes : String → String) :
    ((startElement P s qName qAttributes).earlier = s.earlier ∧
      (startElement P s qName qAttributes).rideFile.dataPoints = s.rideFile.dataPoints) ∨
    ((startElement P s qName qAttributes).earlier = s.earlier ++ [s.rideFile] ∧
      (startElement P s qName qAttributes).rideFile.dataPoints = []) := by
  unfold startElement
  dsimp only
  split_ifs <;>
    first
    | exact Or.inl ⟨rfl, rfl⟩
    | exact Or.inr ⟨rfl, rfl⟩
    | (split <;> first | exact Or.inl ⟨rfl, rfl⟩ | exact Or.inr ⟨rfl, rfl⟩)

theorem endElement_series_of_ne (P : Parsers) (s : TcxParser) (qName : String)
    (hq : qName ≠ "Trackpoint") (hl : qName = "Lap" → ¬ fillsPause s) :
    (endElement P s qName).earlier = s.earlier ∧
    (endElement P s qName).rideFile = s.rideFile := by
  by_cases hlap : qName = "Lap"
  · subst hlap
    have hf := hl rfl
    have : endElement P s "Lap" = if fillsPause s then
        { s with
          rideFile := fillPause s 1 s.rideFile
          last_time := s.last_time + round s.lapSecs }
        else s := rfl
    rw [this, if_neg hf]
    exact ⟨rfl, rfl⟩
  · unfold endElement
    simp only [apply_ite TcxParser.earlier, apply_ite TcxParser.rideFile, hq, hlap,
      if_false, ite_self, and_self]

theorem le_last_of_sorted (l : List ℚ) (x : ℚ) (hs : l.Sorted (· ≤ ·))
    (hlast : l.getLast? = some x) : ∀ a ∈ l, a ≤ x := by
  obtain ⟨ys, rfl⟩ := List.getLast?_eq_some_iff.1 hlast
  intro a ha
  rw [List.Sorted, List.pairwise_append] at hs
  rcases List.mem_append.1 ha with h | h
  · exact hs.2.2 a h x (List.mem_singleton_self x)
  · rw [List.mem_singleton.1 h]

theorem sorted_append_of_le_last (l r : List ℚ) (x : ℚ) (hs : l.Sorted (· ≤ ·))
    (hlast : l.getLast? = some x) (hr : r.Sorted (· ≤ ·)) (hx : ∀ b ∈ r, x ≤ b) :
    (l ++ r).Sorted (· ≤ ·) := by
  rw [List.Sorted, List.pairwise_append]
  exact ⟨hs, hr, fun a ha b hb => (le_last_of_sorted l x hs hlast a ha).trans (hx b hb)⟩

theorem interpolatedPoint_secs (s : TcxParser) (prevPoint : RideFilePoint) (i : Int)
    (h : s.secs - prevPoint.secs ≠ 0) :
    (interpolatedPoint s prevPoint i).secs = prevPoint.secs + (i : ℚ) := by
  simp only [interpolatedPoint]
  rw [mul_div_cancel₀ _ h]

/-- With smart recording on and a high water mark that is not negative, a
Trackpoint-close keeps the timestamps of the current series non-decreasing. -/
theorem trackpoint_sorted (P : Parsers) (s : TcxParser)
    (hsmart : s.isGarminSmartRecording ≠ 0) (hhwm : 0 ≤ s.GarminHWM)
    (hs : (timestamps s.rideFile).Sorted (· ≤ ·)) :
    (timestamps (endElement P s "Trackpoint").rideFile).Sorted (· ≤ ·) := by
  unfold timestamps at hs ⊢
  cases hlast : s.rideFile.dataPoints.getLast? with
  | none =>
    have hnil : s.rideFile.dataPoints = [] := List.getLast?_eq_none_iff.1 hlast
    have hb : (beforeRecord s).rideFile.dataPoints.getLast? = none := by
      rw [(beforeRecord_same s).1, hlast]
    rw [endElement_Trackpoint_rideFile, recordTrackpoint_first _ hb, (beforeRecord_same s).1,
      hnil]
    simp
  | some prevPoint =>
    have hl : (s.rideFile.dataPoints.map RideFilePoint.secs).getLast? = some prevPoint.secs := by
      rw [List.getLast?_map, hlast]
      rfl
    by_cases hr : rawRule (beforeRecord s) (s.secs - prevPoint.secs)
    · rw [trackpoint_raw P s prevPoint hlast hr, List.map_append]
      apply sorted_append_of_le_last _ _ _ hs hl
      · simp
      · intro b hb
        simp only [List.map_cons, List.map_nil, List.mem_singleton] at hb
        rw [hb]
        have hsec : (rawPoint (beforeRecord s)).secs = s.secs := (beforeRecord_same s).2.1
        rw [hsec]
        rcases (beforeRecord_rawRule s _).1 hr with h | h | ⟨h, -⟩
        · exact absurd h hsmart
        · linarith
        · have : (0 : ℚ) ≤ (s.GarminHWM : ℚ) := by exact_mod_cast hhwm
          linarith
    · rw [trackpoint_interpolated P s prevPoint hlast hr, List.map_append, List.map_map]
      have hsec := (atInterpolation_same s prevPoint).2.1
      have hval : ∀ k ∈ List.range
          (iterations (Int.floor (s.secs - prevPoint.secs)) s.GarminHWM 1),
          (interpolatedPoint (atInterpolation s prevPoint) prevPoint (1 + (k : Int))).secs =
            prevPoint.secs + (1 + (k : ℚ)) := by
        intro k hk
        have hpos := (iterations_lt _ _ k (List.mem_range.1 hk)).1
        have hne0 : (atInterpolation s prevPoint).secs - prevPoint.secs ≠ 0 := by
          rw [hsec]
          have : (0 : ℚ) < (k : ℚ) + 1 := by positivity
          linarith
        rw [interpolatedPoint_secs _ _ _ hne0]
        push_cast
        rfl
      apply sorted_append_of_le_last _ _ _ hs hl
      · rw [List.Sorted, List.pairwise_map]
        apply (List.pairwise_lt_range _).imp_of_mem
        intro a b ha hb hab
        simp only [Function.comp]
        rw [hval a ha, hval b hb]
        have : (a : ℚ) < (b : ℚ) := by exact_mod_cast hab
        linarith
      · intro b hb
        obtain ⟨k, hk, rfl⟩ := List.mem_map.1 hb
        simp only [Function.comp]
        rw [hval k hk]
        have : (0 : ℚ) ≤ (k : ℚ) := by positivity
        linarith

theorem ordered_iff (s : TcxParser) :
    Ordered s ↔ (∀ rf ∈ s.earlier, (timestamps rf).Sorted (· ≤ ·)) ∧
      (timestamps s.rideFile).Sorted (· ≤ ·) := by
  unfold Ordered activities
  constructor
  · intro h
    exact ⟨fun rf hrf => h rf (List.mem_append_left _ hrf),
      h _ (List.mem_append_right _ (List.mem_singleton_self _))⟩
  · rintro ⟨h1, h2⟩ rf hrf
    rcases List.mem_append.1 hrf with h | h
    · exact h1 rf h
    · rw [List.mem_singleton.1 h]
      exact h2

/-- Every event other than a Lap-close that fills a pause keeps the timestamps
of every activity non-decreasing, smart recording being on and the high water
mark not negative. -/
theorem handle_ordered (P : Parsers) (s : TcxParser) (e : Event)
    (hsmart : s.isGarminSmartRecording ≠ 0) (hhwm : 0 ≤ s.GarminHWM)
    (hfree : closesLap e → ¬ fillsPause s) (hord : Ordered s) :
    Ordered (handle P s e) := by
  rw [ordered_iff] at hord ⊢
  obtain ⟨h1, h2⟩ := hord
  cases e with
  | startElement q a =>
    rcases startElement_series P s q a with ⟨he, hd⟩ | ⟨he, hd⟩
    · refine ⟨?_, ?_⟩
      · show ∀ rf ∈ (startElement P s q a).earlier, _
        rw [he]
        exact h1
      · show (timestamps (startElement P s q a).rideFile).Sorted (· ≤ ·)
        unfold timestamps at h2 ⊢
        rw [hd]
        exact h2
    · refine ⟨?_, ?_⟩
      · show ∀ rf ∈ (startElement P s q a).earlier, _
        rw [he]
        intro rf hrf
        rcases List.mem_append.1 hrf with h | h
        · exact h1 rf h
        · rw [List.mem_singleton.1 h]
          exact h2
      · show (timestamps (startElement P s q a).rideFile).Sorted (· ≤ ·)
        unfold timestamps
        rw [hd]
        simp
  | characters str => exact ⟨h1, h2⟩
  | endElement q =>
    by_cases hq : q = "Trackpoint"
    · subst hq
      refine ⟨?_, trackpoint_sorted P s hsmart hhwm h2⟩
      show ∀ rf ∈ (endElement P s "Trackpoint").earlier, _
      have he : (endElement P s "Trackpoint").earlier = s.earlier :=
        (recordTrackpoint_settings (beforeRecord s)).2.2.trans
          (beforeRecord_same s).2.2.2.2.2.2.2.2.2.2.2.2.2.2.2.2.2.1
      rw [he]
      exact h1
    · obtain ⟨he, hr⟩ := endElement_series_of_ne P s q hq hfree
      refine ⟨?_, ?_⟩
      · show ∀ rf ∈ (endElement P s q).earlier, _
        rw [he]
        exact h1
      · show (timestamps (endElement P s q).rideFile).Sorted (· ≤ ·)
        rw [hr]
        exact h2

/-- C10 (timestamp ordering), as stated, fails: with smart recording unchecked,
a biking activity whose second trackpoint is stamped 5 s after a first stamped
10 s is decoded into the timestamps 10, 5. -/
theorem timestamps_nondecreasing_counterexample :
    Ordered uncheckedParser ∧
    timestamps (parse clockParsers uncheckedParser disorderEvents).rideFile = [10, 5] ∧
    ¬ Ordered (parse clockParsers uncheckedParser disorderEvents) := by
  have hts : timestamps (parse clockParsers uncheckedParser disorderEvents).rideFile
      = [10, 5] := by decide
  refine ⟨?_, hts, ?_⟩
  · intro rf hrf
    have : rf = RideFile.fresh := by
      simpa [activities, uncheckedParser, TcxParser.new] using hrf
    rw [this]
    simp [timestamps, RideFile.fresh]
  · intro h
    have h2 := ((ordered_iff _).1 h).2
    rw [hts] at h2
    norm_num [List.Sorted] at h2

/-- C10 (timestamp ordering), amended. With smart recording enabled and a high
water mark that is not negative, for every sequence of decoder events in which
no Lap-close fills a swim pause, started in a state whose activities have
non-decreasing timestamps (a newly constructed parser on an empty ride file for
one), the timestamps of the emitted samples are non-decreasing in series order
within each decoded activity; this covers raw samples and synthesized runs. -/
theorem timestamps_nondecreasing (P : Parsers) (events : List Event) (s : TcxParser)
    (hsmart : s.isGarminSmartRecording ≠ 0) (hhwm : 0 ≤ s.GarminHWM)
    (hfree : pauseFree P s events) (hord : Ordered s) :
    Ordered (parse P s events) := by
  induction events generalizing s with
  | nil => exact hord
  | cons e rest ih =>
    have hset := handle_settings P s e
    exact ih (handle P s e) (by rw [hset.1]; exact hsmart) (by rw [hset.2]; exact hhwm)
      hfree.2 (handle_ordered P s e hsmart hhwm hfree.1 hord)

theorem timestamps_nondecreasing_witness :
    defaultParser.isGarminSmartRecording ≠ 0 ∧ 0 ≤ defaultParser.GarminHWM ∧
    pauseFree clockParsers defaultParser disorderEvents ∧ Ordered defaultParser ∧
    Ordered (parse clockParsers defaultParser disorderEvents) ∧
    timestamps (parse clockParsers defaultParser disorderEvents).rideFile = [10] := by
  have hsmart : defaultParser.isGarminSmartRecording ≠ 0 := by decide
  have hhwm : 0 ≤ defaultParser.GarminHWM := by decide
  have hfree : pauseFree clockParsers defaultParser disorderEvents := by decide!
  have hord : Ordered defaultParser := by
    intro rf hrf
    have : rf = RideFile.fresh := by
      simpa [activities, defaultParser, TcxParser.new] using hrf
    rw [this]
    simp [timestamps, RideFile.fresh]
  have hres := timestamps_nondecreasing clockParsers disorderEvents defaultParser hsmart hhwm
    hfree hord
  exact ⟨hsmart, hhwm, hfree, hord, hres, by decide!⟩

/-! ## Distance-only sequences -/

theorem parse_append (P : Parsers) (s : TcxParser) (a b : List Event) :
    parse P s (a ++ b) = parse P (parse P s a) b := by
  unfold parse
  rw [List.foldl_append]

theorem startElement_Trackpoint (P : Parsers) (s : TcxParser) (a : String → String) :
    startElement P s "Trackpoint" a =
      { s with
        buffer := ""
        power := 0, cadence := 0, rcad := 0, speed := 0, headwind := 0, torque := 0, hr := 0
        lat := 0, lon := 0, badgps := false, distance := -1, secs := 0 } := rfl

theorem startElement_Time (P : Parsers) (s : TcxParser) (a : String → String) :
    startElement P s "Time" a = { s with buffer := "" } := rfl

theorem startElement_DistanceMeters (P : Parsers) (s : TcxParser) (a : String → String) :
    startElement P s "DistanceMeters" a = { s with buffer := "" } := rfl

theorem endElement_Time (P : Parsers) (s : TcxParser) :
    endElement P s "Time" =
      { s with
        time := P.convertToLocalTime s.buffer
        secs := ((P.convertToLocalTime s.buffer - s.start_time : Int) : ℚ) } := rfl

theorem endElement_DistanceMeters (P : Parsers) (s : TcxParser) :
    endElement P s "DistanceMeters" = { s with distance := P.toDouble s.buffer / 1000 } := rfl

theorem parse_distanceOnlyTrackpoint (P : Parsers) (s : TcxParser) (t d : String) :
    parse P s (distanceOnlyTrackpoint t d) =
      endElement P (atDistanceOnlyClose P s t d) "Trackpoint" := by
  simp only [parse, distanceOnlyTrackpoint, List.foldl, handle, startElement_Trackpoint,
    startElement_Time, startElement_DistanceMeters, endElement_Time, endElement_DistanceMeters,
    characters, String.empty_append]
  rfl

theorem recordTrackpoint_scratch (t : TcxParser) :
    (recordTrackpoint t).speed = t.speed ∧ (recordTrackpoint t).distance = t.distance ∧
    (recordTrackpoint t).time = t.time := by
  unfold recordTrackpoint
  split
  · exact ⟨rfl, rfl, rfl⟩
  · have h := flagPrevBadGps_same t
    dsimp only
    split_ifs <;>
      exact ⟨flagPrevBadGps_speed _ _, flagPrevBadGps_distance _ _,
        (h _).2.2.2.2.2.2.2.2.2.2.2.2.2.2.1⟩

theorem trackpoint_single (P : Parsers) (u : TcxParser) (h : u.isGarminSmartRecording = 0) :
    (endElement P u "Trackpoint").rideFile.dataPoints =
      u.rideFile.dataPoints ++ [rawPoint (beforeRecord u)] := by
  cases hlast : u.rideFile.dataPoints.getLast? with
  | none =>
    have hb : (beforeRecord u).rideFile.dataPoints.getLast? = none := by
      rw [(beforeRecord_same u).1, hlast]
    rw [endElement_Trackpoint_rideFile, recordTrackpoint_first _ hb, (beforeRecord_same u).1]
  | some prevPoint =>
    exact trackpoint_raw P u prevPoint hlast ((beforeRecord_rawRule u _).2 (Or.inl h))

theorem deriveSpeedDistance_distance_only (s : TcxParser) (h0 : s.speed = 0)
    (hd : 0 ≤ s.distance) (hl : 0 ≤ s.last_distance) :
    (deriveSpeedDistance s).speed =
      (if s.time - s.last_time > 0 then
        max 0 ((s.distance - s.last_distance) / ((s.time - s.last_time : Int) : ℚ) * 3600)
      else 0) ∧
    (deriveSpeedDistance s).distance = s.distance := by
  have hnn : ¬ s.distance < 0 := not_lt.mpr hd
  unfold deriveSpeedDistance
  simp only [h0, true_or, if_true, true_and, gt_iff_lt, hnn, if_false]
  by_cases hdt : 0 < s.time - s.last_time
  · have hq : (0 : ℚ) < ((s.time - s.last_time : Int) : ℚ) := by exact_mod_cast hdt
    simp only [hq, hdt, if_true]
    by_cases hpos : 0 < s.distance
    · simp only [hpos, if_true, and_true]
      by_cases hneg : s.distance - s.last_distance < 0
      · have : (s.distance - s.last_distance) / ((s.time - s.last_time : Int) : ℚ) * 3600 ≤ 0 :=
          mul_nonpos_of_nonpos_of_nonneg (div_nonpos_of_nonpos_of_nonneg hneg.le hq.le)
            (by norm_num)
        simp only [if_pos hneg, max_eq_left this, zero_div, zero_mul]
      · have : 0 ≤ (s.distance - s.last_distance) / ((s.time - s.last_time : Int) : ℚ) * 3600 :=
          mul_nonneg (div_nonneg (not_lt.mp hneg) hq.le) (by norm_num)
        simp only [if_neg hneg, max_eq_right this]
    · have hz : s.distance = 0 := le_antisymm (not_lt.mp hpos) hd
      have : (s.distance - s.last_distance) / ((s.time - s.last_time : Int) : ℚ) * 3600 ≤ 0 := by
        rw [hz, zero_sub]
        exact mul_nonpos_of_nonpos_of_nonneg
          (div_nonpos_of_nonpos_of_nonneg (neg_nonpos.mpr hl) hq.le) (by norm_num)
      simp only [hpos, if_false, h0, max_eq_left this, and_self]
  · have hq : ¬ (0 : ℚ) < ((s.time - s.last_time : Int) : ℚ) := by
      intro h
      exact hdt (by exact_mod_cast h)
    simp only [hq, hdt, if_false]
    split_ifs <;> exact ⟨h0, rfl⟩

theorem distanceOnly_step (P : Parsers) (s : TcxParser) (t d : String)
    (hsmart : s.isGarminSmartRecording = 0) (hl : 0 ≤ s.last_distance)
    (hd : 0 ≤ P.toDouble d) :
    (parse P s (distanceOnlyTrackpoint t d)).isGarminSmartRecording = 0 ∧
    (parse P s (distanceOnlyTrackpoint t d)).last_time = P.convertToLocalTime t ∧
    (parse P s (distanceOnlyTrackpoint t d)).last_distance = P.toDouble d / 1000 ∧
    ∃ p : RideFilePoint,
      (parse P s (distanceOnlyTrackpoint t d)).rideFile.dataPoints =
        s.rideFile.dataPoints ++ [p] ∧
      p.kph =
        (if P.convertToLocalTime t - s.last_time > 0 then
          max 0 ((P.toDouble d / 1000 - s.last_distance) /
            ((P.convertToLocalTime t - s.last_time : Int) : ℚ) * 3600)
        else 0) := by
  have hu0 : (atDistanceOnlyClose P s t d).speed = 0 := rfl
  have hud : 0 ≤ (atDistanceOnlyClose P s t d).distance := by
    show 0 ≤ P.toDouble d / 1000
    positivity
  have hul : 0 ≤ (atDistanceOnlyClose P s t d).last_distance := hl
  obtain ⟨hsp, hdi⟩ := deriveSpeedDistance_distance_only _ hu0 hud hul
  have hrec := recordTrackpoint_scratch (beforeRecord (atDistanceOnlyClose P s t d))
  have hsame := beforeRecord_same (atDistanceOnlyClose P s t d)
  rw [parse_distanceOnlyTrackpoint]
  refine ⟨?_, ?_, ?_, ?_⟩
  · rw [(endElement_settings P _ _).1]
    exact hsmart
  · show (recordTrackpoint (beforeRecord (atDistanceOnlyClose P s t d))).time = _
    rw [hrec.2.2, hsame.2.2.2.2.2.2.2.2.2.2.2.2.2.2.1]
    rfl
  · show (recordTrackpoint (beforeRecord (atDistanceOnlyClose P s t d))).distance = _
    rw [hrec.2.1, beforeRecord_distance, hdi]
    rfl
  · refine ⟨rawPoint (beforeRecord (atDistanceOnlyClose P s t d)),
      trackpoint_single P _ hsmart, ?_⟩
    show (beforeRecord (atDistanceOnlyClose P s t d)).speed = _
    rw [beforeRecord_speed, hsp]
    rfl

/-- C9 (distance-only round trip), as stated, fails: with the default settings
(smart recording on), after a first trackpoint at 0 s and 0 m, a second at 10 s
and 100 m has the derived speed 0.1 / 10 * 3600 = 36 kph, yet the run of ten
samples it emits starts with a sample of 3.6 kph. -/
theorem distance_only_round_trip_counterexample :
    specSpeeds defaultInLap.last_time defaultInLap.last_distance
        (hundredMetres.map fun tp =>
          (roundTripParsers.convertToLocalTime tp.1, roundTripParsers.toDouble tp.2 / 1000))
      = [0, 36] ∧
    ∃ run : List RideFilePoint,
      (parse roundTripParsers defaultInLap (distanceOnlyEvents hundredMetres)).rideFile.dataPoints
        = originPoint :: run ∧
      run.length = 10 ∧ run[0]?.map RideFilePoint.kph = some (18 / 5) := by
  have hparse : parse roundTripParsers defaultInLap (distanceOnlyEvents hundredMetres) =
      endElement roundTripParsers hundredMetresClose "Trackpoint" := by
    show parse roundTripParsers defaultInLap
      (distanceOnlyTrackpoint "t0" "d0" ++ (distanceOnlyTrackpoint "t10" "d100" ++ [])) = _
    rw [parse_append, List.append_nil, parse_distanceOnlyTrackpoint]
    rfl
  have hpts : hundredMetresClose.rideFile.dataPoints = [originPoint] := by decide!
  have hprev : hundredMetresClose.rideFile.dataPoints.getLast? = some originPoint := by
    rw [hpts]
    rfl
  have hgap : hundredMetresClose.secs - originPoint.secs = ((10 : Int) : ℚ) := by decide!
  have hnot : ¬ rawRule (beforeRecord hundredMetresClose)
      (hundredMetresClose.secs - originPoint.secs) := by decide!
  obtain ⟨run, h1, h2, h3⟩ :=
    trackpoint_interpolated_run roundTripParsers hundredMetresClose originPoint hprev hnot
  have hlen : run.length = 10 := by
    have h := iterations_int 10 hundredMetresClose.GarminHWM
    rw [← hgap, ← h2] at h
    have h' : max (0 : Int) (min 10 (300 * hundredMetresClose.GarminHWM)) = 10 := by decide!
    omega
  have h0 : 0 < run.length := by omega
  refine ⟨by decide!, run, ?_, hlen, ?_⟩
  · rw [hparse, h1, hpts]
    rfl
  · rw [List.getElem?_eq_getElem h0, Option.map_some', h3 0 h0]
    decide!

/-- C9 (distance-only round trip), amended. With smart recording disabled, for
every sequence of trackpoints that report only a time and a distance that is not
negative (input speed 0), delivered in a state whose last distance is not
negative, every trackpoint emits exactly one sample, and the speeds of the
emitted samples are `(Δdistance_km / Δt_s) × 3600` clamped to be at least 0, and
0 for a trackpoint that is not later than the one before; the differences are
taken between the trackpoint that produced the sample and the trackpoint before
it (the parser's last time and last distance for the first). -/
theorem distance_only_round_trip (P : Parsers) (tps : List (String × String)) (s : TcxParser)
    (hsmart : s.isGarminSmartRecording = 0) (hlast : 0 ≤ s.last_distance)
    (hkm : ∀ tp ∈ tps, 0 ≤ P.toDouble tp.2) :
    ∃ run : List RideFilePoint,
      (parse P s (distanceOnlyEvents tps)).rideFile.dataPoints = s.rideFile.dataPoints ++ run ∧
      run.length = tps.length ∧
      run.map RideFilePoint.kph =
        specSpeeds s.last_time s.last_distance
          (tps.map fun tp => (P.convertToLocalTime tp.1, P.toDouble tp.2 / 1000)) := by
  induction tps generalizing s with
  | nil => exact ⟨[], by simp [distanceOnlyEvents, parse], rfl, rfl⟩
  | cons tp rest ih =>
    have hd : 0 ≤ P.toDouble tp.2 := hkm tp (List.mem_cons_self _ _)
    obtain ⟨h1, h2, h3, p, h4, h5⟩ := distanceOnly_step P s tp.1 tp.2 hsmart hlast hd
    have hl' : 0 ≤ (parse P s (distanceOnlyTrackpoint tp.1 tp.2)).last_distance := by
      rw [h3]
      positivity
    obtain ⟨run, hr1, hr2, hr3⟩ := ih (parse P s (distanceOnlyTrackpoint tp.1 tp.2)) h1 hl'
      (fun tp' htp' => hkm tp' (List.mem_cons_of_mem _ htp'))
    refine ⟨p :: run, ?_, ?_, ?_⟩
    · rw [distanceOnlyEvents, parse_append, hr1, h4]
      simp
    · simp [hr2]
    · rw [List.map_cons, List.map_cons, specSpeeds, hr3, h2, h3, h5]

theorem distance_only_round_trip_witness :
    uncheckedInLap.isGarminSmartRecording = 0 ∧ 0 ≤ uncheckedInLap.last_distance ∧
    (∀ tp ∈ hundredMetres, 0 ≤ roundTripParsers.toDouble tp.2) ∧
    ∃ run : List RideFilePoint,
      (parse roundTripParsers uncheckedInLap (distanceOnlyEvents hundredMetres)).rideFile.dataPoints
        = uncheckedInLap.rideFile.dataPoints ++ run ∧
      run.length = 2 ∧ run.map RideFilePoint.kph = [0, 36] := by
  have hsmart : uncheckedInLap.isGarminSmartRecording = 0 := by decide
  have hlast : 0 ≤ uncheckedInLap.last_distance := by decide!
  have hkm : ∀ tp ∈ hundredMetres, 0 ≤ roundTripParsers.toDouble tp.2 := by decide!
  obtain ⟨run, h1, h2, h3⟩ := distance_only_round_trip roundTripParsers hundredMetres
    uncheckedInLap hsmart hlast hkm
  refine ⟨hsmart, hlast, hkm, run, h1, h2, ?_⟩
  rw [h3]
  decide!

/-! ## Pool swims -/

theorem fillPause_eq (s : TcxParser) :
    ∀ (n : Nat) (i : Int) (rf : RideFile),
      iterations (round s.lapSecs) s.GarminHWM i = n →
      fillPause s i rf =
        { rf with
          dataPoints := rf.dataPoints ++
            ((List.range n).map fun (k : Nat) => pausePoint s (i + (k : Int))) } := by
  intro n
  induction n with
  | zero =>
    intro i rf h
    have hi : ¬ (i ≤ round s.lapSecs ∧ i ≤ 300 * s.GarminHWM) := by
      unfold iterations at h
      omega
    rw [fillPause, if_neg hi]
    simp
  | succ n ih =>
    intro i rf h
    have hi : i ≤ round s.lapSecs ∧ i ≤ 300 * s.GarminHWM := by
      unfold iterations at h
      omega
    have hn : iterations (round s.lapSecs) s.GarminHWM (i + 1) = n := by
      unfold iterations at h ⊢
      omega
    rw [fillPause, if_pos hi, ih (i + 1) _ hn]
    simp only [RideFile.appendPoint, List.range_succ_eq_map, List.map_cons, List.map_map,
      List.append_assoc, List.singleton_append]
    congr 3
    · simp
    · apply List.map_congr_left
      intro k _
      simp only [Function.comp, Nat.succ_eq_add_one, Nat.cast_add, Nat.cast_one]
      congr 1
      ring

theorem endElement_Lap (P : Parsers) (s : TcxParser) :
    endElement P s "Lap" =
      if fillsPause s then
        { s with
          rideFile := fillPause s 1 s.rideFile
          last_time := s.last_time + round s.lapSecs }
      else s := rfl

/-- C12 (swim pause filler). At Lap-close, if the activity is classified Swim,
the scratch distance is exactly 0 and smart recording is enabled, then
`min (round lapSecs) (300 * HWM)` samples are appended, none when that is not
positive; sample number `i + 1` is stamped `secs + (i + 1)`, holds the last
known distance and the current lap index, and is zero in every other field; and
the last trackpoint time is advanced by `round lapSecs`. In every other case
Lap-close appends no sample and leaves the last trackpoint time unchanged. -/
theorem swim_pause_filler (P : Parsers) (s : TcxParser) :
    ((s.swim = SwimState.Swim ∧ s.distance = 0 ∧ s.isGarminSmartRecording ≠ 0) →
      (∃ run : List RideFilePoint,
        (endElement P s "Lap").rideFile.dataPoints = s.rideFile.dataPoints ++ run ∧
        (run.length : Int) = max 0 (min (round s.lapSecs) (300 * s.GarminHWM)) ∧
        ∀ (i : Nat) (h : i < run.length),
          run[i] =
            { secs := s.secs + ((i : ℚ) + 1), cad := 0, hr := 0, km := s.last_distance,
              kph := 0, nm := 0, watts := 0, alt := 0, lon := 0, lat := 0, headwind := 0,
              rcad := 0, interval := s.lap }) ∧
      (endElement P s "Lap").last_time = s.last_time + round s.lapSecs) ∧
    (¬ (s.swim = SwimState.Swim ∧ s.distance = 0 ∧ s.isGarminSmartRecording ≠ 0) →
      (endElement P s "Lap").rideFile.dataPoints = s.rideFile.dataPoints ∧
      (endElement P s "Lap").last_time = s.last_time) := by
  constructor
  · intro h
    have hf : fillsPause s := h
    rw [endElement_Lap, if_pos hf]
    refine ⟨⟨(List.range (iterations (round s.lapSecs) s.GarminHWM 1)).map
      fun (k : Nat) => pausePoint s (1 + (k : Int)), ?_, ?_, ?_⟩, rfl⟩
    · show (fillPause s 1 s.rideFile).dataPoints = _
      rw [fillPause_eq s _ 1 _ rfl]
    · simp only [List.length_map, List.length_range]
      unfold iterations
      omega
    · intro i hi
      simp only [List.getElem_map, List.getElem_range, pausePoint]
      congr 1
      push_cast
      ring
  · intro h
    have hf : ¬ fillsPause s := h
    rw [endElement_Lap, if_neg hf]
    exact ⟨rfl, rfl⟩

theorem swim_pause_filler_witness :
    (swimPause.swim = SwimState.Swim ∧ swimPause.distance = 0 ∧
      swimPause.isGarminSmartRecording ≠ 0) ∧
    (∃ run : List RideFilePoint,
      (endElement exampleParsers swimPause "Lap").rideFile.dataPoints =
        swimPause.rideFile.dataPoints ++ run ∧
      run.length = 3 ∧
      ∀ (i : Nat) (h : i < run.length),
        run[i] = { originPoint with secs := 40 + ((i : ℚ) + 1), km := 1 / 10, interval := 2 }) ∧
    (endElement exampleParsers swimPause "Lap").last_time = 43 ∧
    ¬ (oneSampleIn.swim = SwimState.Swim ∧ oneSampleIn.distance = 0 ∧
      oneSampleIn.isGarminSmartRecording ≠ 0) ∧
    (endElement exampleParsers oneSampleIn "Lap").rideFile.dataPoints =
      oneSampleIn.rideFile.dataPoints ∧
    (endElement exampleParsers oneSampleIn "Lap").last_time = oneSampleIn.last_time := by
  have hyes : swimPause.swim = SwimState.Swim ∧ swimPause.distance = 0 ∧
      swimPause.isGarminSmartRecording ≠ 0 := by decide!
  have hno : ¬ (oneSampleIn.swim = SwimState.Swim ∧ oneSampleIn.distance = 0 ∧
      oneSampleIn.isGarminSmartRecording ≠ 0) := by decide!
  have hround : round swimPause.lapSecs = 3 := by decide!
  obtain ⟨⟨run, h1, h2, h3⟩, h4⟩ := (swim_pause_filler exampleParsers swimPause).1 hyes
  obtain ⟨h5, h6⟩ := (swim_pause_filler exampleParsers oneSampleIn).2 hno
  rw [hround] at h2 h4
  have hlen : run.length = 3 := by
    have : max (0 : Int) (min 3 (300 * swimPause.GarminHWM)) = 3 := by decide!
    omega
  exact ⟨hyes, ⟨run, h1, hlen, fun i h => by rw [h3 i h]; rfl⟩, h4, hno, h5, h6⟩

/-- C20 (swim speed is not blended). In an activity classified Swim, with smart
recording enabled, every sample synthesized by a Trackpoint-close carries the
same speed: the trackpoint's own (possibly derived) speed if that exceeds 0.35
and 0 otherwise, whatever the sample number and the previous sample's speed. -/
theorem swim_synthesized_speed (P : Parsers) (s : TcxParser) (prevPoint : RideFilePoint)
    (hsmart : s.isGarminSmartRecording ≠ 0)
    (hswim : (beforeRecord s).swim = SwimState.Swim)
    (hprev : s.rideFile.dataPoints.getLast? = some prevPoint)
    (hne : s.secs - prevPoint.secs ≠ 1) :
    ∃ run : List RideFilePoint,
      (endElement P s "Trackpoint").rideFile.dataPoints = s.rideFile.dataPoints ++ run ∧
      ∀ (i : Nat) (h : i < run.length),
        run[i].kph =
          if (deriveSpeedDistance s).speed > 0.35 then (deriveSpeedDistance s).speed else 0 := by
  have hsame := beforeRecord_same s
  have hnot : ¬ rawRule (beforeRecord s) (s.secs - prevPoint.secs) := by
    rw [not_rawRule_iff, hsame.2.2.2.2.2.2.2.2.2.2.2.2.1]
    exact ⟨hsmart, hne, Or.inr hswim⟩
  obtain ⟨run, hrun, -, hget⟩ := trackpoint_interpolated_run P s prevPoint hprev hnot
  refine ⟨run, hrun, fun i h => ?_⟩
  have hsw : (atInterpolation s prevPoint).swim = SwimState.Swim := by
    unfold atInterpolation
    rw [flagPrevBadGps_swim]
    exact hswim
  have hsp : (atInterpolation s prevPoint).speed = (deriveSpeedDistance s).speed := by
    unfold atInterpolation
    rw [flagPrevBadGps_speed, beforeRecord_speed]
  rw [hget i h]
  simp only [interpolatedPoint, hsw, if_true, hsp]

theorem swim_synthesized_speed_witness :
    swimLength.isGarminSmartRecording ≠ 0 ∧
    (beforeRecord swimLength).swim = SwimState.Swim ∧
    swimLength.rideFile.dataPoints.getLast? = some originPoint ∧
    swimLength.secs - originPoint.secs ≠ 1 ∧
    (deriveSpeedDistance swimLength).speed = 6 ∧
    ∃ run : List RideFilePoint,
      (endElement exampleParsers swimLength "Trackpoint").rideFile.dataPoints =
        swimLength.rideFile.dataPoints ++ run ∧
      ∀ (i : Nat) (h : i < run.length), run[i].kph = 6 := by
  have hsmart : swimLength.isGarminSmartRecording ≠ 0 := by decide
  have hsw : (beforeRecord swimLength).swim = SwimState.Swim :=
    beforeRecord_swim_of_ne _ (by decide)
  have hne : swimLength.secs - originPoint.secs ≠ 1 := by decide!
  have hsp : (deriveSpeedDistance swimLength).speed = 6 := by decide!
  obtain ⟨run, h1, h2⟩ := swim_synthesized_speed exampleParsers swimLength originPoint
    hsmart hsw rfl hne
  refine ⟨hsmart, hsw, rfl, hne, hsp, run, h1, fun i h => ?_⟩
  rw [h2 i h, hsp]
  norm_num

theorem startElement_dataPoints_of_ne (P : Parsers) (s : TcxParser) (qName : String)
    (qAttributes : String → String) (hq : qName ≠ "Activity") :
    (startElement P s qName qAttributes).rideFile.dataPoints = s.rideFile.dataPoints := by
  unfold startElement
  simp only [hq, if_false]
  split_ifs <;> rfl

/-- A Trackpoint-close that finds a last sample without a fix and takes the
synthesis branch appends samples without a fix only. -/
theorem trackpoint_no_fix_run (P : Parsers) (s : TcxParser) (prevPoint : RideFilePoint)
    (hprev : s.rideFile.dataPoints.getLast? = some prevPoint)
    (hbad : prevPoint.lat = 0 ∧ prevPoint.lon = 0)
    (hrule : ¬ rawRule (beforeRecord s) (s.secs - prevPoint.secs)) :
    ∃ run : List RideFilePoint,
      (endElement P s "Trackpoint").rideFile.dataPoints = s.rideFile.dataPoints ++ run ∧
      ∀ p ∈ run, p.lat = 0 ∧ p.lon = 0 := by
  obtain ⟨run, hrun, -, hget⟩ := trackpoint_interpolated_run P s prevPoint hprev hrule
  refine ⟨run, hrun, fun p hp => ?_⟩
  obtain ⟨i, hi, rfl⟩ := List.getElem_of_mem hp
  have hb : (atInterpolation s prevPoint).badgps = true :=
    (atInterpolation_badgps s prevPoint).2 (Or.inr (Or.inr hbad))
  rw [hget i hi]
  simp only [interpolatedPoint, hb, if_true, and_self]

/-- The samples a Lap-close appends have no fix. -/
theorem lap_no_fix_run (P : Parsers) (s : TcxParser) :
    ∃ run : List RideFilePoint,
      (endElement P s "Lap").rideFile.dataPoints = s.rideFile.dataPoints ++ run ∧
      ∀ p ∈ run, p.lat = 0 ∧ p.lon = 0 := by
  rw [endElement_Lap]
  split_ifs
  · refine ⟨(List.range (iterations (round s.lapSecs) s.GarminHWM 1)).map
      fun (k : Nat) => pausePoint s (1 + (k : Int)), ?_, ?_⟩
    · show (fillPause s 1 s.rideFile).dataPoints = _
      rw [fillPause_eq s _ 1 _ rfl]
    · intro p hp
      obtain ⟨k, -, rfl⟩ := List.mem_map.1 hp
      exact ⟨rfl, rfl⟩
  · exact ⟨[], by simp, by simp⟩

/-- One event of a `synthesisOnly` sequence, delivered when the last sample has
no fix, appends samples without a fix only. -/
theorem handle_no_fix_run (P : Parsers) (s : TcxParser) (e : Event)
    (hact : ¬ opensActivity e)
    (hsyn : closesTrackpoint e → ∃ prevPoint : RideFilePoint,
      s.rideFile.dataPoints.getLast? = some prevPoint ∧
      ¬ rawRule (beforeRecord s) (s.secs - prevPoint.secs))
    (hlast : ∃ q : RideFilePoint, s.rideFile.dataPoints.getLast? = some q ∧
      q.lat = 0 ∧ q.lon = 0) :
    ∃ run : List RideFilePoint,
      (handle P s e).rideFile.dataPoints = s.rideFile.dataPoints ++ run ∧
      ∀ p ∈ run, p.lat = 0 ∧ p.lon = 0 := by
  cases e with
  | startElement q a =>
    exact ⟨[], by
      show (startElement P s q a).rideFile.dataPoints = _
      rw [startElement_dataPoints_of_ne P s q a hact]
      simp, by simp⟩
  | characters str => exact ⟨[], by simp [handle, characters], by simp⟩
  | endElement q =>
    by_cases hq : q = "Trackpoint"
    · subst hq
      obtain ⟨prevPoint, hprev, hrule⟩ := hsyn rfl
      obtain ⟨q', hq', hbad⟩ := hlast
      rw [hprev] at hq'
      cases hq'
      exact trackpoint_no_fix_run P s prevPoint hprev hbad hrule
    · by_cases hl : q = "Lap"
      · subst hl
        exact lap_no_fix_run P s
      · refine ⟨[], ?_, by simp⟩
        show (endElement P s q).rideFile.dataPoints = _
        rw [(endElement_series_of_ne P s q hq (fun h => absurd h hl)).2]
        simp

theorem getLast?_append_no_fix (l run : List RideFilePoint)
    (hlast : ∃ q : RideFilePoint, l.getLast? = some q ∧ q.lat = 0 ∧ q.lon = 0)
    (hrun : ∀ p ∈ run, p.lat = 0 ∧ p.lon = 0) :
    ∃ q : RideFilePoint, (l ++ run).getLast? = some q ∧ q.lat = 0 ∧ q.lon = 0 := by
  cases hr : run.getLast? with
  | none =>
    rw [List.getLast?_eq_none_iff.1 hr, List.append_nil]
    exact hlast
  | some q =>
    obtain ⟨ys, rfl⟩ := List.getLast?_eq_some_iff.1 hr
    refine ⟨q, ?_, hrun q (by simp)⟩
    rw [← List.append_assoc, List.getLast?_append]
    rfl

/-- C19 (a missing fix is sticky through synthesis). When the last sample of the
series is at (0, 0), a Trackpoint-close that takes the synthesis branch (smart
recording enabled, gap other than 1, gap below the high water mark or activity
classified Swim) appends samples at (0, 0) only, the final sample of the run
included, whatever position the trackpoint reports; and over any sequence of
events of the activity whose Trackpoint-closes all take the synthesis branch,
every sample emitted is at (0, 0). -/
theorem missing_fix_sticky (P : Parsers) (s : TcxParser) (prevPoint : RideFilePoint)
    (hprev : s.rideFile.dataPoints.getLast? = some prevPoint)
    (hbad : prevPoint.lat = 0 ∧ prevPoint.lon = 0) :
    (s.isGarminSmartRecording ≠ 0 → s.secs - prevPoint.secs ≠ 1 →
      (s.secs - prevPoint.secs < (s.GarminHWM : ℚ) ∨ (beforeRecord s).swim = SwimState.Swim) →
      ∃ run : List RideFilePoint,
        (endElement P s "Trackpoint").rideFile.dataPoints = s.rideFile.dataPoints ++ run ∧
        ∀ p ∈ run, p.lat = 0 ∧ p.lon = 0) ∧
    (∀ events : List Event, synthesisOnly P s events →
      ∃ emitted : List RideFilePoint,
        (parse P s events).rideFile.dataPoints = s.rideFile.dataPoints ++ emitted ∧
        ∀ p ∈ emitted, p.lat = 0 ∧ p.lon = 0) := by
  constructor
  · intro hsmart hne hrule
    have hsame := beforeRecord_same s
    have hnot : ¬ rawRule (beforeRecord s) (s.secs - prevPoint.secs) := by
      rw [not_rawRule_iff, hsame.2.2.2.2.2.2.2.2.2.2.2.2.1,
        hsame.2.2.2.2.2.2.2.2.2.2.2.2.2.1]
      exact ⟨hsmart, hne, hrule⟩
    exact trackpoint_no_fix_run P s prevPoint hprev hbad hnot
  · intro events
    have hlast : ∃ q : RideFilePoint, s.rideFile.dataPoints.getLast? = some q ∧
        q.lat = 0 ∧ q.lon = 0 := ⟨prevPoint, hprev, hbad⟩
    clear hprev hbad
    induction events generalizing s with
    | nil => intro _; exact ⟨[], by simp [parse], by simp⟩
    | cons e rest ih =>
      intro hsyn
      obtain ⟨hact, htp, hrest⟩ := hsyn
      obtain ⟨run, hrun, hfix⟩ := handle_no_fix_run P s e hact htp hlast
      have hlast' : ∃ q : RideFilePoint,
          (handle P s e).rideFile.dataPoints.getLast? = some q ∧ q.lat = 0 ∧ q.lon = 0 := by
        rw [hrun]
        exact getLast?_append_no_fix _ _ hlast hfix
      obtain ⟨emitted, hem, hemfix⟩ := ih (handle P s e) hlast' hrest
      refine ⟨run ++ emitted, ?_, ?_⟩
      · show (parse P (handle P s e) rest).rideFile.dataPoints = _
        rw [hem, hrun, List.append_assoc]
      · intro p hp
        rcases List.mem_append.1 hp with h | h
        · exact hfix p h
        · exact hemfix p h

theorem missing_fix_sticky_witness :
    fixAfterNoFix.rideFile.dataPoints.getLast? = some originPoint ∧
    (originPoint.lat = 0 ∧ originPoint.lon = 0) ∧
    fixAfterNoFix.lat = 6 ∧ fixAfterNoFix.lon = 6 ∧
    fixAfterNoFix.isGarminSmartRecording ≠ 0 ∧
    fixAfterNoFix.secs - originPoint.secs ≠ 1 ∧
    fixAfterNoFix.secs - originPoint.secs < (fixAfterNoFix.GarminHWM : ℚ) ∧
    synthesisOnly exampleParsers fixAfterNoFix [Event.endElement "Trackpoint"] ∧
    (∃ run : List RideFilePoint,
      (endElement exampleParsers fixAfterNoFix "Trackpoint").rideFile.dataPoints =
        fixAfterNoFix.rideFile.dataPoints ++ run ∧
      ∀ p ∈ run, p.lat = 0 ∧ p.lon = 0) ∧
    (∃ emitted : List RideFilePoint,
      (parse exampleParsers fixAfterNoFix [Event.endElement "Trackpoint"]).rideFile.dataPoints =
        fixAfterNoFix.rideFile.dataPoints ++ emitted ∧
      ∀ p ∈ emitted, p.lat = 0 ∧ p.lon = 0) := by
  have hbad : originPoint.lat = 0 ∧ originPoint.lon = 0 := ⟨rfl, rfl⟩
  have hsmart : fixAfterNoFix.isGarminSmartRecording ≠ 0 := by decide
  have hne : fixAfterNoFix.secs - originPoint.secs ≠ 1 := by decide!
  have hlt : fixAfterNoFix.secs - originPoint.secs < (fixAfterNoFix.GarminHWM : ℚ) := by
    decide!
  have hnot : ¬ rawRule (beforeRecord fixAfterNoFix)
      (fixAfterNoFix.secs - originPoint.secs) := by decide!
  have hsyn : synthesisOnly exampleParsers fixAfterNoFix [Event.endElement "Trackpoint"] :=
    ⟨fun h => h, fun _ => ⟨originPoint, rfl, hnot⟩, trivial⟩
  obtain ⟨h1, h2⟩ := missing_fix_sticky exampleParsers fixAfterNoFix originPoint rfl hbad
  exact ⟨rfl, hbad, rfl, rfl, hsmart, hne, hlt, hsyn, h1 hsmart hne (Or.inl hlt),
    h2 _ hsyn⟩

/-! ## Settings, altitude and laps -/

/-- C13 (high-water-mark default), as stated, fails: a configured high water
mark of -5 is kept by the constructor, so the effective value is negative. -/
theorem high_water_mark_default_counterexample :
    (TcxParser.new oneSampleIn RideFile.fresh none none (some (-5))).GarminHWM = -5 ∧
    ¬ (0 < (TcxParser.new oneSampleIn RideFile.fresh none none (some (-5))).GarminHWM) := by
  decide

/-- C13 (high-water-mark default), amended. After the decoder is constructed,
the effective high water mark is 25 whenever the configured value is unset or
zero, and is the configured value otherwise, a negative one included; hence it
is never zero, and it and the cap `300 * HWM` are positive whenever the
configured value is not negative. -/
theorem high_water_mark_default (garbage : TcxParser) (rideFile : RideFile)
    (rides : Option (List Nat)) (smartRecord hwMark : Option Int) :
    (hwMark = none → (TcxParser.new garbage rideFile rides smartRecord hwMark).GarminHWM = 25) ∧
    (hwMark = some 0 →
      (TcxParser.new garbage rideFile rides smartRecord hwMark).GarminHWM = 25) ∧
    (∀ v : Int, hwMark = some v → v ≠ 0 →
      (TcxParser.new garbage rideFile rides smartRecord hwMark).GarminHWM = v) ∧
    (TcxParser.new garbage rideFile rides smartRecord hwMark).GarminHWM ≠ 0 ∧
    ((∀ v : Int, hwMark = some v → 0 ≤ v) →
      0 < (TcxParser.new garbage rideFile rides smartRecord hwMark).GarminHWM ∧
      0 < 300 * (TcxParser.new garbage rideFile rides smartRecord hwMark).GarminHWM) := by
  have hval : (TcxParser.new garbage rideFile rides smartRecord hwMark).GarminHWM =
      if hwMark.isNone ∨ hwMark.getD 0 = 0 then 25 else hwMark.getD 0 := rfl
  rw [hval]
  cases hwMark with
  | none => simp
  | some w =>
    by_cases hw : w = 0
    · subst hw
      simp
    · have hv : (if (some w).isNone ∨ (some w).getD 0 = 0 then (25 : Int)
          else (some w).getD 0) = w := by
        simp [hw]
      rw [hv]
      refine ⟨fun h => Option.noConfusion h, fun h => ?_, fun v hv _ => ?_, hw, fun h => ?_⟩
      · cases h
        exact absurd rfl hw
      · cases hv
        rfl
      · have := h w rfl
        omega

theorem high_water_mark_default_witness :
    (TcxParser.new oneSampleIn RideFile.fresh none none none).GarminHWM = 25 ∧
    (TcxParser.new oneSampleIn RideFile.fresh none none (some 0)).GarminHWM = 25 ∧
    (TcxParser.new oneSampleIn RideFile.fresh none none (some 40)).GarminHWM = 40 ∧
    (TcxParser.new oneSampleIn RideFile.fresh none none (some (-5))).GarminHWM = -5 ∧
    (∀ v : Int, some (40 : Int) = some v → 0 ≤ v) ∧
    0 < (TcxParser.new oneSampleIn RideFile.fresh none none (some 40)).GarminHWM ∧
    0 < 300 * (TcxParser.new oneSampleIn RideFile.fresh none none (some 40)).GarminHWM := by
  have hnn : ∀ v : Int, some (40 : Int) = some v → 0 ≤ v := by
    intro v hv
    cases hv
    decide
  have h40 := high_water_mark_default oneSampleIn RideFile.fresh none none (some 40)
  exact ⟨(high_water_mark_default oneSampleIn RideFile.fresh none none none).1 rfl,
    (high_water_mark_default oneSampleIn RideFile.fresh none none (some 0)).2.1 rfl,
    h40.2.2.1 40 rfl (by decide),
    (high_water_mark_default oneSampleIn RideFile.fresh none none (some (-5))).2.2.1 (-5) rfl
      (by decide),
    hnn, (h40.2.2.2.2 hnn).1, (h40.2.2.2.2 hnn).2⟩

theorem startElement_alt (P : Parsers) (s : TcxParser) (qName : String)
    (qAttributes : String → String) : (startElement P s qName qAttributes).alt = s.alt := by
  unfold startElement
  dsimp only
  split_ifs <;> first | rfl | (split <;> rfl)

theorem recordTrackpoint_alt (t : TcxParser) : (recordTrackpoint t).alt = t.alt := by
  unfold recordTrackpoint
  split
  · rfl
  · have h := flagPrevBadGps_same t
    dsimp only
    split_ifs <;> exact (h _).2.2.2.2.2.2.1

theorem endElement_AltitudeMeters (P : Parsers) (s : TcxParser) :
    endElement P s "AltitudeMeters" =
      if P.toDouble s.buffer ≠ 0 then { s with alt := P.toDouble s.buffer } else s := rfl

theorem endElement_alt (P : Parsers) (s : TcxParser) (qName : String)
    (h : qName = "AltitudeMeters" → P.toDouble s.buffer = 0) :
    (endElement P s qName).alt = s.alt := by
  by_cases hq : qName = "Trackpoint"
  · subst hq
    show (recordTrackpoint (beforeRecord s)).alt = s.alt
    rw [recordTrackpoint_alt, (beforeRecord_same s).2.2.2.2.2.2.1]
  · by_cases ha : qName = "AltitudeMeters"
    · subst ha
      rw [endElement_AltitudeMeters, if_neg (not_not.mpr (h rfl))]
    · unfold endElement
      simp only [apply_ite TcxParser.alt, hq, ha, if_false, ite_self]

theorem parse_alt (P : Parsers) (events : List Event) (s : TcxParser)
    (h : noAltitudeReading P s events) : (parse P s events).alt = s.alt := by
  induction events generalizing s with
  | nil => rfl
  | cons e rest ih =>
    show (parse P (handle P s e) rest).alt = s.alt
    rw [ih (handle P s e) h.2]
    cases e with
    | startElement q a => exact startElement_alt P s q a
    | characters str => rfl
    | endElement q => exact endElement_alt P s q h.1

/-- C14 (running altitude). An AltitudeMeters field whose value is exactly 0
leaves the running altitude unchanged and one with any other value `v` sets it
to `v`; Trackpoint-open resets power, cadence, run cadence, speed, headwind,
torque, heart rate, latitude and longitude to 0, bad-GPS to false, distance to
the sentinel -1 and the seconds-offset to 0, and does not change the running
altitude; so a trackpoint without a non-zero altitude reading reaches its
emission with the altitude the parser had before it, and when it is emitted as
it is (first sample, or the condition of line 210) the sample carries that
altitude. -/
theorem running_altitude (P : Parsers) (s : TcxParser) (qAttributes : String → String) :
    (P.toDouble s.buffer = 0 → (endElement P s "AltitudeMeters").alt = s.alt) ∧
    (P.toDouble s.buffer ≠ 0 → (endElement P s "AltitudeMeters").alt = P.toDouble s.buffer) ∧
    ((startElement P s "Trackpoint" qAttributes).power = 0 ∧
      (startElement P s "Trackpoint" qAttributes).cadence = 0 ∧
      (startElement P s "Trackpoint" qAttributes).rcad = 0 ∧
      (startElement P s "Trackpoint" qAttributes).speed = 0 ∧
      (startElement P s "Trackpoint" qAttributes).headwind = 0 ∧
      (startElement P s "Trackpoint" qAttributes).torque = 0 ∧
      (startElement P s "Trackpoint" qAttributes).hr = 0 ∧
      (startElement P s "Trackpoint" qAttributes).lat = 0 ∧
      (startElement P s "Trackpoint" qAttributes).lon = 0 ∧
      (startElement P s "Trackpoint" qAttributes).badgps = false ∧
      (startElement P s "Trackpoint" qAttributes).distance = -1 ∧
      (startElement P s "Trackpoint" qAttributes).secs = 0 ∧
      (startElement P s "Trackpoint" qAttributes).alt = s.alt) ∧
    (∀ body : List Event,
      noAltitudeReading P (startElement P s "Trackpoint" qAttributes) body →
      ∀ u : TcxParser, u = parse P (startElement P s "Trackpoint" qAttributes) body →
        u.alt = s.alt ∧ (beforeRecord u).alt = s.alt ∧
        ((u.rideFile.dataPoints.getLast? = none ∨
            ∃ prevPoint : RideFilePoint, u.rideFile.dataPoints.getLast? = some prevPoint ∧
              rawRule (beforeRecord u) (u.secs - prevPoint.secs)) →
          ∃ p : RideFilePoint,
            (endElement P u "Trackpoint").rideFile.dataPoints = u.rideFile.dataPoints ++ [p] ∧
            p.alt = s.alt)) := by
  refine ⟨fun h => ?_, fun h => ?_, ⟨rfl, rfl, rfl, rfl, rfl, rfl, rfl, rfl, rfl, rfl, rfl, rfl,
    rfl⟩, fun body hbody u hu => ?_⟩
  · rw [endElement_AltitudeMeters, if_neg (not_not.mpr h)]
  · rw [endElement_AltitudeMeters, if_pos h]
  · have halt : u.alt = s.alt := by
      rw [hu, parse_alt P body _ hbody]
      rfl
    have hb : (beforeRecord u).alt = s.alt := by
      rw [(beforeRecord_same u).2.2.2.2.2.2.1, halt]
    refine ⟨halt, hb, fun hraw => ⟨rawPoint (beforeRecord u), ?_, hb⟩⟩
    rcases hraw with hnone | ⟨prevPoint, hprev, hrule⟩
    · have hbn : (beforeRecord u).rideFile.dataPoints.getLast? = none := by
        rw [(beforeRecord_same u).1, hnone]
      rw [endElement_Trackpoint_rideFile, recordTrackpoint_first _ hbn, (beforeRecord_same u).1]
    · exact trackpoint_raw P u prevPoint hprev hrule

theorem running_altitude_witness :
    altitudeParsers.toDouble ({ atAltitude with buffer := "0" } : TcxParser).buffer = 0 ∧
    (endElement altitudeParsers { atAltitude with buffer := "0" } "AltitudeMeters").alt = 120 ∧
    altitudeParsers.toDouble atAltitude.buffer ≠ 0 ∧
    (endElement altitudeParsers atAltitude "AltitudeMeters").alt = 250 ∧
    noAltitudeReading altitudeParsers (startElement altitudeParsers atAltitude "Trackpoint"
      noAttributes) altitudeBody ∧
    (parse altitudeParsers (startElement altitudeParsers atAltitude "Trackpoint" noAttributes)
      altitudeBody).rideFile.dataPoints.getLast? = none ∧
    ∃ p : RideFilePoint,
      (endElement altitudeParsers
          (parse altitudeParsers
            (startElement altitudeParsers atAltitude "Trackpoint" noAttributes) altitudeBody)
          "Trackpoint").rideFile.dataPoints =
        (parse altitudeParsers (startElement altitudeParsers atAltitude "Trackpoint" noAttributes)
          altitudeBody).rideFile.dataPoints ++ [p] ∧
      p.alt = 120 := by
  have hz : altitudeParsers.toDouble ({ atAltitude with buffer := "0" } : TcxParser).buffer = 0 := by
    decide!
  have hnz : altitudeParsers.toDouble atAltitude.buffer ≠ 0 := by decide!
  have hquiet : noAltitudeReading altitudeParsers
      (startElement altitudeParsers atAltitude "Trackpoint" noAttributes) altitudeBody := by
    refine ⟨fun h => h.elim, fun h => h.elim, fun h => absurd (show "Time" = "AltitudeMeters" from h) (by decide), fun h => h.elim,
      fun h => h.elim, fun _ => ?_, trivial⟩
    decide!
  have hnone : (parse altitudeParsers
      (startElement altitudeParsers atAltitude "Trackpoint" noAttributes)
      altitudeBody).rideFile.dataPoints.getLast? = none := by decide!
  have h0 := running_altitude altitudeParsers { atAltitude with buffer := "0" } noAttributes
  have h1 := running_altitude altitudeParsers atAltitude noAttributes
  obtain ⟨-, -, hemit⟩ := h1.2.2.2 altitudeBody hquiet _ rfl
  obtain ⟨p, hp, hpalt⟩ := hemit (Or.inl hnone)
  refine ⟨hz, ?_, hnz, ?_, hquiet, hnone, p, hp, ?_⟩
  · rw [h0.1 hz]
    rfl
  · rw [h1.2.1 hnz]
    decide!
  · rw [hpalt]
    rfl

theorem startElement_Activity_lap (P : Parsers) (s : TcxParser)
    (qAttributes : String → String) : (startElement P s "Activity" qAttributes).lap = 0 := by
  unfold startElement
  simp only [if_true]
  split_ifs <;> first | rfl | (split <;> rfl)

theorem startElement_Lap (P : Parsers) (s : TcxParser) (qAttributes : String → String) :
    startElement P s "Lap" qAttributes =
      if s.lap = 0 then
        { s with
          buffer := ""
          start_time := P.convertToLocalTime (qAttributes "StartTime")
          rideFile :=
            { s.rideFile with startTime := P.convertToLocalTime (qAttributes "StartTime") }
          last_distance := 0
          last_time := P.convertToLocalTime (qAttributes "StartTime")
          lap := s.lap + 1 }
      else { s with buffer := "", lap := s.lap + 1 } := by
  unfold startElement
  simp only [show ¬ ("Lap" = "Activity") by decide, if_false, if_true]
  split_ifs <;> rfl

theorem recordTrackpoint_lap (t : TcxParser) : (recordTrackpoint t).lap = t.lap := by
  unfold recordTrackpoint
  split
  · rfl
  · have h := flagPrevBadGps_same t
    dsimp only
    split_ifs <;> exact (h _).2.2.2.2.2.2.2.2.2.2.2.1

theorem endElement_lap (P : Parsers) (s : TcxParser) (qName : String) :
    (endElement P s qName).lap = s.lap := by
  by_cases hq : qName = "Trackpoint"
  · subst hq
    show (recordTrackpoint (beforeRecord s)).lap = s.lap
    rw [recordTrackpoint_lap, (beforeRecord_same s).2.2.2.2.2.2.2.2.2.2.2.1]
  · unfold endElement
    simp only [apply_ite TcxParser.lap, hq, if_false, ite_self]

theorem startElement_lap_of_ne (P : Parsers) (s : TcxParser) (qName : String)
    (qAttributes : String → String) (ha : qName ≠ "Activity") (hl : qName ≠ "Lap") :
    (startElement P s qName qAttributes).lap = s.lap := by
  unfold startElement
  simp only [ha, hl, if_false]
  split_ifs <;> rfl

theorem handle_lap_of_ne (P : Parsers) (s : TcxParser) (e : Event)
    (ha : ¬ opensActivity e) (hl : ¬ opensLap e) : (handle P s e).lap = s.lap := by
  cases e with
  | startElement q a => exact startElement_lap_of_ne P s q a ha hl
  | characters str => rfl
  | endElement q => exact endElement_lap P s q

theorem handle_lap_pos (P : Parsers) (s : TcxParser) (e : Event)
    (ha : ¬ opensActivity e) (h : 1 ≤ s.lap) : 1 ≤ (handle P s e).lap := by
  by_cases hl : opensLap e
  · cases e with
    | startElement q a =>
      have hq : q = "Lap" := hl
      subst hq
      show 1 ≤ (startElement P s "Lap" a).lap
      rw [startElement_Lap]
      split_ifs
      · show 1 ≤ s.lap + 1
        omega
      · show 1 ≤ s.lap + 1
        omega
    | characters str => exact hl.elim
    | endElement q => exact hl.elim
  · rw [handle_lap_of_ne P s e ha hl]
    exact h

theorem parse_lap_zero (P : Parsers) (events : List Event) (s : TcxParser)
    (hev : ∀ e ∈ events, ¬ opensActivity e ∧ ¬ opensLap e) (h : s.lap = 0) :
    (parse P s events).lap = 0 := by
  induction events generalizing s with
  | nil => exact h
  | cons e rest ih =>
    have he := hev e (List.mem_cons_self _ _)
    exact ih (handle P s e) (fun e' he' => hev e' (List.mem_cons_of_mem _ he'))
      (by rw [handle_lap_of_ne P s e he.1 he.2]; exact h)

theorem parse_lap_pos (P : Parsers) (events : List Event) (s : TcxParser)
    (hev : ∀ e ∈ events, ¬ opensActivity e) (h : 1 ≤ s.lap) :
    1 ≤ (parse P s events).lap := by
  induction events generalizing s with
  | nil => exact h
  | cons e rest ih =>
    exact ih (handle P s e) (fun e' he' => hev e' (List.mem_cons_of_mem _ he'))
      (handle_lap_pos P s e (hev e (List.mem_cons_self _ _)) h)

/-- Every sample a Trackpoint-close appends carries the lap counter. -/
theorem trackpoint_interval (P : Parsers) (s : TcxParser) :
    ∃ run : List RideFilePoint,
      (endElement P s "Trackpoint").rideFile.dataPoints = s.rideFile.dataPoints ++ run ∧
      ∀ p ∈ run, p.interval = s.lap := by
  have hlap : (beforeRecord s).lap = s.lap := (beforeRecord_same s).2.2.2.2.2.2.2.2.2.2.2.1
  cases hlast : s.rideFile.dataPoints.getLast? with
  | none =>
    have hbn : (beforeRecord s).rideFile.dataPoints.getLast? = none := by
      rw [(beforeRecord_same s).1, hlast]
    refine ⟨[rawPoint (beforeRecord s)], ?_, ?_⟩
    · rw [endElement_Trackpoint_rideFile, recordTrackpoint_first _ hbn, (beforeRecord_same s).1]
    · intro p hp
      rw [List.mem_singleton.1 hp]
      exact hlap
  | some prevPoint =>
    by_cases hr : rawRule (beforeRecord s) (s.secs - prevPoint.secs)
    · refine ⟨[rawPoint (beforeRecord s)], trackpoint_raw P s prevPoint hlast hr, ?_⟩
      intro p hp
      rw [List.mem_singleton.1 hp]
      exact hlap
    · obtain ⟨run, hrun, -, hget⟩ := trackpoint_interpolated_run P s prevPoint hlast hr
      refine ⟨run, hrun, fun p hp => ?_⟩
      obtain ⟨i, hi, rfl⟩ := List.getElem_of_mem hp
      rw [hget i hi]
      exact (atInterpolation_same s prevPoint).2.2.2.2.2.2.2.2.2.2.2.1

/-- Every sample a Lap-close appends carries the lap counter. -/
theorem lap_interval (P : Parsers) (s : TcxParser) :
    ∃ run : List RideFilePoint,
      (endElement P s "Lap").rideFile.dataPoints = s.rideFile.dataPoints ++ run ∧
      ∀ p ∈ run, p.interval = s.lap := by
  rw [endElement_Lap]
  split_ifs
  · refine ⟨(List.range (iterations (round s.lapSecs) s.GarminHWM 1)).map
      fun (k : Nat) => pausePoint s (1 + (k : Int)), ?_, ?_⟩
    · show (fillPause s 1 s.rideFile).dataPoints = _
      rw [fillPause_eq s _ 1 _ rfl]
    · intro p hp
      obtain ⟨k, -, rfl⟩ := List.mem_map.1 hp
      rfl
  · exact ⟨[], by simp, by simp⟩

/-- C16 (lap segmentation). Activity-open resets the lap counter to 0, and the
counter stays 0 until the first Lap-open. A Lap-open that finds the counter at
0, the first of the activity, sets the activity's start time to the lap's
StartTime, seeds last distance 0 and last time = start time, and moves the
counter to 1; from then on the counter stays at least 1 until the next
Activity-open, and a Lap-open that finds it other than 0 increments it by
exactly one and leaves start time, last distance and last time unchanged. Every
sample appended by a Trackpoint-close or a Lap-close carries the value the
counter has then. -/
theorem lap_segmentation (P : Parsers) (s : TcxParser) (qAttributes : String → String) :
    (startElement P s "Activity" qAttributes).lap = 0 ∧
    (∀ events : List Event, (∀ e ∈ events, ¬ opensActivity e ∧ ¬ opensLap e) →
      (parse P (startElement P s "Activity" qAttributes) events).lap = 0) ∧
    (s.lap = 0 →
      (startElement P s "Lap" qAttributes).start_time =
        P.convertToLocalTime (qAttributes "StartTime") ∧
      (startElement P s "Lap" qAttributes).rideFile.startTime =
        P.convertToLocalTime (qAttributes "StartTime") ∧
      (startElement P s "Lap" qAttributes).last_distance = 0 ∧
      (startElement P s "Lap" qAttributes).last_time =
        (startElement P s "Lap" qAttributes).start_time ∧
      (startElement P s "Lap" qAttributes).lap = 1) ∧
    (0 ≤ s.lap → ∀ events : List Event, (∀ e ∈ events, ¬ opensActivity e) →
      1 ≤ (parse P (startElement P s "Lap" qAttributes) events).lap) ∧
    (s.lap ≠ 0 →
      (startElement P s "Lap" qAttributes).lap = s.lap + 1 ∧
      (startElement P s "Lap" qAttributes).start_time = s.start_time ∧
      (startElement P s "Lap" qAttributes).rideFile.startTime = s.rideFile.startTime ∧
      (startElement P s "Lap" qAttributes).last_distance = s.last_distance ∧
      (startElement P s "Lap" qAttributes).last_time = s.last_time) ∧
    (∃ run : List RideFilePoint,
      (endElement P s "Trackpoint").rideFile.dataPoints = s.rideFile.dataPoints ++ run ∧
      ∀ p ∈ run, p.interval = s.lap) ∧
    (∃ run : List RideFilePoint,
      (endElement P s "Lap").rideFile.dataPoints = s.rideFile.dataPoints ++ run ∧
      ∀ p ∈ run, p.interval = s.lap) := by
  refine ⟨startElement_Activity_lap P s qAttributes, fun events hev => ?_, fun h0 => ?_,
    fun hnn events hev => ?_, fun hne => ?_, trackpoint_interval P s, lap_interval P s⟩
  · exact parse_lap_zero P events _ hev (startElement_Activity_lap P s qAttributes)
  · rw [startElement_Lap, if_pos h0]
    refine ⟨rfl, rfl, rfl, rfl, ?_⟩
    show s.lap + 1 = 1
    omega
  · apply parse_lap_pos P events _ hev
    rw [startElement_Lap]
    split_ifs
    · show 1 ≤ s.lap + 1
      omega
    · show 1 ≤ s.lap + 1
      omega
  · rw [startElement_Lap, if_neg hne]
    exact ⟨rfl, rfl, rfl, rfl, rfl⟩

theorem lap_segmentation_witness :
    (startElement clockParsers defaultParser "Activity" bikingAttributes).lap = 0 ∧
    (startElement clockParsers
      (startElement clockParsers defaultParser "Activity" bikingAttributes) "Lap"
      lapAtTen).start_time = 10 ∧
    (startElement clockParsers
      (startElement clockParsers defaultParser "Activity" bikingAttributes) "Lap"
      lapAtTen).lap = 1 ∧
    inSecondLap.lap ≠ 0 ∧ 0 ≤ inSecondLap.lap ∧
    (startElement clockParsers inSecondLap "Lap" lapAtTen).lap = 3 ∧
    (startElement clockParsers inSecondLap "Lap" lapAtTen).start_time = 3 ∧
    (startElement clockParsers inSecondLap "Lap" lapAtTen).last_time = 60 ∧
    1 ≤ (parse clockParsers (startElement clockParsers inSecondLap "Lap" lapAtTen)
      [Event.endElement "Lap"]).lap ∧
    (parse clockParsers (startElement clockParsers inSecondLap "Activity" bikingAttributes)
      [Event.endElement "Activity"]).lap = 0 := by
  have hopen := lap_segmentation clockParsers defaultParser bikingAttributes
  have hfirst := (lap_segmentation clockParsers
    (startElement clockParsers defaultParser "Activity" bikingAttributes) lapAtTen).2.2.1
    hopen.1
  have hne : inSecondLap.lap ≠ 0 := by decide
  have hnn : 0 ≤ inSecondLap.lap := by decide
  have hsecond := lap_segmentation clockParsers inSecondLap lapAtTen
  obtain ⟨a, b, -, -, e⟩ := hsecond.2.2.2.2.1 hne
  have hpos := hsecond.2.2.2.1 hnn [Event.endElement "Lap"]
    (fun e he => by
      rw [List.mem_singleton.1 he]
      exact fun h => h)
  have hzero := (lap_segmentation clockParsers inSecondLap bikingAttributes).2.1
    [Event.endElement "Activity"]
    (fun e he => by
      rw [List.mem_singleton.1 he]
      exact ⟨fun h => h, fun h => h⟩)
  refine ⟨hopen.1, ?_, hfirst.2.2.2.2, hne, hnn, ?_, ?_, ?_, hpos, hzero⟩
  · rw [hfirst.1]
    decide
  · rw [a]
    decide
  · rw [b]
    decide
  · rw [e]
    decide

/-- C17 (trackpoint with neither speed nor distance), as stated, fails: one
second after a sample at 5 km, a trackpoint with speed 0 and distance unset is
recorded with speed 0 and distance 5 km, the last distance, not 0. -/
theorem silent_trackpoint_counterexample :
    silentAfterFiveKm.speed = 0 ∧ silentAfterFiveKm.distance = -1 ∧
    (endElement exampleParsers silentAfterFiveKm "Trackpoint").rideFile.dataPoints =
      [fiveKmPoint, { originPoint with secs := 1, km := 5, kph := 0 }] ∧
    (5 : ℚ) ≠ 0 := by
  refine ⟨rfl, rfl, ?_, by norm_num⟩
  decide!

/-- C17 (trackpoint with neither speed nor distance), amended. For every
trackpoint that reports no Speed and no DistanceMeters (speed 0 and distance
unset, that is negative, at Trackpoint-close), the point reaches its emission
with speed 0 and with the last known distance (lines 158-162 with speed 0: no
distance travelled), which is also stored as the new last distance; when the
trackpoint is emitted as it is (first sample, or the condition of line 210) the
sample recorded has speed 0 and that distance, which is 0 exactly when the last
known distance is 0. -/
theorem silent_trackpoint (P : Parsers) (s : TcxParser)
    (hspeed : s.speed = 0) (hdist : s.distance < 0) :
    (beforeRecord s).speed = 0 ∧
    (beforeRecord s).distance = s.last_distance ∧
    (endElement P s "Trackpoint").last_distance = s.last_distance ∧
    ((s.rideFile.dataPoints.getLast? = none ∨
        ∃ prevPoint : RideFilePoint, s.rideFile.dataPoints.getLast? = some prevPoint ∧
          rawRule (beforeRecord s) (s.secs - prevPoint.secs)) →
      ∃ p : RideFilePoint,
        (endElement P s "Trackpoint").rideFile.dataPoints = s.rideFile.dataPoints ++ [p] ∧
        p.kph = 0 ∧ p.km = s.last_distance ∧ (p.km = 0 ↔ s.last_distance = 0)) := by
  have hnp : ¬ s.distance > 0 := not_lt.mpr hdist.le
  have hd : (deriveSpeedDistance s).distance = s.last_distance := by
    unfold deriveSpeedDistance
    simp only [hdist, or_true, if_true, hnp, and_false, if_false, hspeed, mul_zero, zero_div,
      add_zero]
  have hs : (deriveSpeedDistance s).speed = 0 := by
    unfold deriveSpeedDistance
    simp only [hdist, or_true, if_true, hnp, and_false, if_false, hspeed]
  have hbs : (beforeRecord s).speed = 0 := by rw [beforeRecord_speed, hs]
  have hbd : (beforeRecord s).distance = s.last_distance := by rw [beforeRecord_distance, hd]
  have hend : (endElement P s "Trackpoint").last_distance = (beforeRecord s).distance :=
    (recordTrackpoint_scratch (beforeRecord s)).2.1
  refine ⟨hbs, hbd, by rw [hend, hbd], fun hraw =>
    ⟨rawPoint (beforeRecord s), ?_, hbs, hbd, by rw [show (rawPoint (beforeRecord s)).km =
      (beforeRecord s).distance from rfl, hbd]⟩⟩
  rcases hraw with hnone | ⟨prevPoint, hprev, hrule⟩
  · have hbn : (beforeRecord s).rideFile.dataPoints.getLast? = none := by
      rw [(beforeRecord_same s).1, hnone]
    rw [endElement_Trackpoint_rideFile, recordTrackpoint_first _ hbn, (beforeRecord_same s).1]
  · exact trackpoint_raw P s prevPoint hprev hrule

theorem silent_trackpoint_witness :
    silentAfterFiveKm.speed = 0 ∧ silentAfterFiveKm.distance < 0 ∧
    silentAfterFiveKm.last_distance = 5 ∧
    silentAfterFiveKm.rideFile.dataPoints.getLast? = some fiveKmPoint ∧
    rawRule (beforeRecord silentAfterFiveKm) (silentAfterFiveKm.secs - fiveKmPoint.secs) ∧
    (beforeRecord silentAfterFiveKm).speed = 0 ∧
    (beforeRecord silentAfterFiveKm).distance = 5 ∧
    (endElement exampleParsers silentAfterFiveKm "Trackpoint").last_distance = 5 ∧
    ∃ p : RideFilePoint,
      (endElement exampleParsers silentAfterFiveKm "Trackpoint").rideFile.dataPoints =
        silentAfterFiveKm.rideFile.dataPoints ++ [p] ∧
      p.kph = 0 ∧ p.km = 5 := by
  have hspeed : silentAfterFiveKm.speed = 0 := rfl
  have hdist : silentAfterFiveKm.distance < 0 := by decide!
  have hlast : silentAfterFiveKm.last_distance = 5 := rfl
  have hrule : rawRule (beforeRecord silentAfterFiveKm)
      (silentAfterFiveKm.secs - fiveKmPoint.secs) := by decide!
  obtain ⟨h1, h2, h3, h4⟩ := silent_trackpoint exampleParsers silentAfterFiveKm hspeed hdist
  obtain ⟨p, hp, hk, hkm, -⟩ := h4 (Or.inr ⟨fiveKmPoint, rfl, hrule⟩)
  rw [hlast] at h2 h3 hkm
  exact ⟨hspeed, hdist, hlast, rfl, hrule, h1, h2, h3, p, hp, hk, hkm⟩

/-! ## Swim classification -/

theorem deriveSpeedDistance_swim (s : TcxParser) :
    (deriveSpeedDistance s).swim = s.swim ∧ (deriveSpeedDistance s).badgps = s.badgps := by
  unfold deriveSpeedDistance
  dsimp only
  split_ifs <;> exact ⟨rfl, rfl⟩

theorem flagBadGps_swim (s : TcxParser) :
    (flagBadGps s).swim = s.swim ∧ (flagBadGps s).distance = s.distance := by
  unfold flagBadGps
  split_ifs <;> exact ⟨rfl, rfl⟩

theorem flagBadGps_badgps (s : TcxParser) :
    (flagBadGps s).badgps = true ↔ s.badgps = true ∨ (s.lat = 0 ∧ s.lon = 0) := by
  unfold flagBadGps
  split_ifs with h
  · simp [h]
  · simp [h]

theorem beforeRecord_swim (s : TcxParser) :
    (beforeRecord s).swim =
      if s.swim = SwimState.MayBeSwim ∧ (s.badgps = true ∨ (s.lat = 0 ∧ s.lon = 0)) ∧
          0 < (deriveSpeedDistance s).distance
      then SwimState.Swim else s.swim := by
  have hd := deriveSpeedDistance_swim s
  have hsame := deriveSpeedDistance_same s
  have hf := flagBadGps_swim (deriveSpeedDistance s)
  have hb := flagBadGps_badgps (deriveSpeedDistance s)
  rw [hd.2, hsame.2.2.2.2.2.2.2.2.1, hsame.2.2.2.2.2.2.2.1] at hb
  unfold beforeRecord classifySwim
  rw [hf.1, hf.2, hd.1]
  by_cases hc : s.swim = SwimState.MayBeSwim ∧ (s.badgps = true ∨ (s.lat = 0 ∧ s.lon = 0)) ∧
      0 < (deriveSpeedDistance s).distance
  · rw [if_pos hc, if_pos ⟨hc.1, hb.2 hc.2.1, hc.2.2⟩]
  · rw [if_neg hc, if_neg (fun h => hc ⟨h.1, hb.1 h.2.1, h.2.2⟩), hf.1, hd.1]

theorem beforeRecord_tags_of_swim (s : TcxParser)
    (hc : s.swim = SwimState.MayBeSwim ∧ (s.badgps = true ∨ (s.lat = 0 ∧ s.lon = 0)) ∧
      0 < (deriveSpeedDistance s).distance) :
    (beforeRecord s).rideFile.getTag "Sport" = some "Swim" := by
  have hd := deriveSpeedDistance_swim s
  have hsame := deriveSpeedDistance_same s
  have hf := flagBadGps_swim (deriveSpeedDistance s)
  have hb := flagBadGps_badgps (deriveSpeedDistance s)
  rw [hd.2, hsame.2.2.2.2.2.2.2.2.1, hsame.2.2.2.2.2.2.2.1] at hb
  unfold beforeRecord classifySwim
  rw [if_pos ⟨by rw [hf.1, hd.1]; exact hc.1, hb.2 hc.2.1, by rw [hf.2]; exact hc.2.2⟩]
  simp [RideFile.getTag, RideFile.setTag]

theorem recordTrackpoint_swim (t : TcxParser) : (recordTrackpoint t).swim = t.swim := by
  unfold recordTrackpoint
  split
  · rfl
  · dsimp only
    split_ifs <;> exact flagPrevBadGps_swim _ _

theorem recordTrackpoint_tags (t : TcxParser) :
    (recordTrackpoint t).rideFile.tags = t.rideFile.tags := by
  unfold recordTrackpoint
  split
  · rfl
  · dsimp only
    split_ifs
    · show (flagPrevBadGps t _).rideFile.tags = _
      rw [flagPrevBadGps_rideFile]
    · show (interpolate _ _ 1 (flagPrevBadGps t _).rideFile).tags = _
      rw [interpolate_eq _ _ _ 1 _ rfl, flagPrevBadGps_rideFile]

theorem startElement_swim_of_ne (P : Parsers) (s : TcxParser) (qName : String)
    (qAttributes : String → String) (ha : qName ≠ "Activity") :
    (startElement P s qName qAttributes).swim = s.swim := by
  unfold startElement
  simp only [ha, if_false]
  split_ifs <;> rfl

theorem startElement_Activity_swim (P : Parsers) (s : TcxParser)
    (qAttributes : String → String) :
    (startElement P s "Activity" qAttributes).swim =
      if qAttributes "Sport" = "Other" then SwimState.MayBeSwim else SwimState.NotSwim := by
  unfold startElement
  simp only [if_true]
  by_cases h : qAttributes "Sport" = "Other"
  · simp [h]
  · simp only [h, if_false]
    split_ifs <;> rfl

theorem endElement_swim (P : Parsers) (s : TcxParser) (qName : String) :
    (endElement P s qName).swim = s.swim ∨
      (s.swim = SwimState.MayBeSwim ∧ (endElement P s qName).swim = SwimState.Swim) := by
  by_cases hq : qName = "Trackpoint"
  · subst hq
    have h : (endElement P s "Trackpoint").swim = (beforeRecord s).swim :=
      recordTrackpoint_swim _
    rw [h, beforeRecord_swim]
    split_ifs with hc
    · exact Or.inr ⟨hc.1, rfl⟩
    · exact Or.inl rfl
  · left
    unfold endElement
    simp only [apply_ite TcxParser.swim, hq, if_false, ite_self]

theorem handle_swim (P : Parsers) (s : TcxParser) (e : Event) (ha : ¬ opensActivity e) :
    (handle P s e).swim = s.swim ∨
      (s.swim = SwimState.MayBeSwim ∧ (handle P s e).swim = SwimState.Swim) := by
  cases e with
  | startElement q a => exact Or.inl (startElement_swim_of_ne P s q a ha)
  | characters str => exact Or.inl rfl
  | endElement q => exact endElement_swim P s q

theorem parse_swim_sticky (P : Parsers) (events : List Event) (s : TcxParser)
    (hev : ∀ e ∈ events, ¬ opensActivity e) :
    (s.swim = SwimState.Swim → (parse P s events).swim = SwimState.Swim) ∧
    (s.swim = SwimState.NotSwim → (parse P s events).swim = SwimState.NotSwim) ∧
    (s.swim = SwimState.MayBeSwim →
      (parse P s events).swim = SwimState.MayBeSwim ∨
        (parse P s events).swim = SwimState.Swim) := by
  induction events generalizing s with
  | nil => exact ⟨fun h => h, fun h => h, fun h => Or.inl h⟩
  | cons e rest ih =>
    have he := handle_swim P s e (hev e (List.mem_cons_self _ _))
    have hrest := ih (handle P s e) (fun e' he' => hev e' (List.mem_cons_of_mem _ he'))
    refine ⟨fun h => ?_, fun h => ?_, fun h => ?_⟩
    · apply hrest.1
      rcases he with h1 | ⟨h1, -⟩
      · rw [h1, h]
      · rw [h] at h1
        exact SwimState.noConfusion h1
    · apply hrest.2.1
      rcases he with h1 | ⟨h1, -⟩
      · rw [h1, h]
      · rw [h] at h1
        exact SwimState.noConfusion h1
    · rcases he with h1 | ⟨-, h1⟩
      · exact hrest.2.2 (by rw [h1, h])
      · exact Or.inr (hrest.1 h1)

/-- C11 (swim classification). For a trackpoint, that is a Trackpoint-open
followed by any events other than a Trackpoint-close, the Trackpoint-close turns
an activity that is not classified Swim into one that is exactly when the
activity is in the state MayBeSwim (opened with Sport "Other" and not yet
classified) and the trackpoint has latitude 0, longitude 0 and a positive
(possibly derived) distance, and it then sets the Sport tag to Swim. Activity-open
puts the activity in the state MayBeSwim exactly when Sport is "Other" and in
NotSwim otherwise; and over every sequence of events without an Activity-open,
an activity classified Swim stays classified Swim, one in NotSwim stays in
NotSwim, and one in MayBeSwim stays there or becomes Swim. -/
theorem swim_classification (P : Parsers) (s₀ : TcxParser) (qAttributes : String → String)
    (body : List Event) (hbody : ∀ e ∈ body, ¬ closesTrackpoint e) (s : TcxParser)
    (hs : s = parse P (startElement P s₀ "Trackpoint" qAttributes) body) :
    ((s.swim ≠ SwimState.Swim ∧ (endElement P s "Trackpoint").swim = SwimState.Swim) ↔
      (s.swim = SwimState.MayBeSwim ∧ s.lat = 0 ∧ s.lon = 0 ∧
        0 < (deriveSpeedDistance s).distance)) ∧
    ((s.swim = SwimState.MayBeSwim ∧ s.lat = 0 ∧ s.lon = 0 ∧
        0 < (deriveSpeedDistance s).distance) →
      (endElement P s "Trackpoint").rideFile.getTag "Sport" = some "Swim") ∧
    (∀ (t : TcxParser) (a : String → String),
      (startElement P t "Activity" a).swim =
        if a "Sport" = "Other" then SwimState.MayBeSwim else SwimState.NotSwim) ∧
    (∀ (t : TcxParser) (events : List Event), (∀ e ∈ events, ¬ opensActivity e) →
      (t.swim = SwimState.Swim → (parse P t events).swim = SwimState.Swim) ∧
      (t.swim = SwimState.NotSwim → (parse P t events).swim = SwimState.NotSwim) ∧
      (t.swim = SwimState.MayBeSwim →
        (parse P t events).swim = SwimState.MayBeSwim ∨
          (parse P t events).swim = SwimState.Swim)) := by
  have hopen : (startElement P s₀ "Trackpoint" qAttributes).badgps = false := rfl
  have hflag : s.badgps = false := by
    rw [hs]
    exact parse_badgps_false P body _ hbody hopen
  have hend : (endElement P s "Trackpoint").swim = (beforeRecord s).swim :=
    recordTrackpoint_swim _
  have hcond : (s.swim = SwimState.MayBeSwim ∧ (s.badgps = true ∨ (s.lat = 0 ∧ s.lon = 0)) ∧
      0 < (deriveSpeedDistance s).distance) ↔
      (s.swim = SwimState.MayBeSwim ∧ s.lat = 0 ∧ s.lon = 0 ∧
        0 < (deriveSpeedDistance s).distance) := by
    rw [hflag]
    constructor
    · rintro ⟨h1, h2 | h2, h3⟩
      · exact Bool.noConfusion h2
      · exact ⟨h1, h2.1, h2.2, h3⟩
    · rintro ⟨h1, h2, h3, h4⟩
      exact ⟨h1, Or.inr ⟨h2, h3⟩, h4⟩
  refine ⟨?_, fun hc => ?_, fun t a => startElement_Activity_swim P t a,
    fun t events hev => parse_swim_sticky P events t hev⟩
  · rw [hend, beforeRecord_swim, ← hcond]
    constructor
    · rintro ⟨hne, hsw⟩
      by_contra hc
      rw [if_neg hc] at hsw
      exact hne hsw
    · intro hc
      rw [if_pos hc]
      refine ⟨?_, rfl⟩
      rw [hc.1]
      decide
  · have htag : (endElement P s "Trackpoint").rideFile.tags = (beforeRecord s).rideFile.tags :=
      recordTrackpoint_tags _
    have := beforeRecord_tags_of_swim s (hcond.2 hc)
    unfold RideFile.getTag at this ⊢
    rw [htag]
    exact this

theorem swim_classification_witness :
    (∀ e ∈ poolBody, ¬ closesTrackpoint e) ∧
    (poolTrackpoint.swim = SwimState.MayBeSwim ∧ poolTrackpoint.lat = 0 ∧
      poolTrackpoint.lon = 0 ∧ 0 < (deriveSpeedDistance poolTrackpoint).distance) ∧
    (poolTrackpoint.swim ≠ SwimState.Swim ∧
      (endElement poolParsers poolTrackpoint "Trackpoint").swim = SwimState.Swim) ∧
    (endElement poolParsers poolTrackpoint "Trackpoint").rideFile.getTag "Sport" = some "Swim" ∧
    (∀ e ∈ [Event.endElement "Lap", Event.startElement "Lap" noAttributes],
      ¬ opensActivity e) ∧
    (parse poolParsers (endElement poolParsers poolTrackpoint "Trackpoint")
      [Event.endElement "Lap", Event.startElement "Lap" noAttributes]).swim =
        SwimState.Swim := by
  have hbody : ∀ e ∈ poolBody, ¬ closesTrackpoint e := by
    intro e he
    simp only [poolBody, List.mem_cons, List.mem_singleton, List.mem_nil_iff, or_false] at he
    rcases he with h | h | h | h | h | h <;> subst h <;> simp [closesTrackpoint]
  have hcond : poolTrackpoint.swim = SwimState.MayBeSwim ∧ poolTrackpoint.lat = 0 ∧
      poolTrackpoint.lon = 0 ∧ 0 < (deriveSpeedDistance poolTrackpoint).distance := by
    decide!
  have hev : ∀ e ∈ [Event.endElement "Lap", Event.startElement "Lap" noAttributes],
      ¬ opensActivity e := by
    intro e he
    simp only [List.mem_cons, List.mem_singleton, List.mem_nil_iff, or_false] at he
    rcases he with h | h <;> subst h <;> simp [opensActivity]
  obtain ⟨h1, h2, -, h4⟩ := swim_classification poolParsers otherInLap noAttributes poolBody
    hbody poolTrackpoint rfl
  have hsw := h1.2 hcond
  exact ⟨hbody, hcond, hsw, h2 hcond, hev, (h4 _ _ hev).1 hsw.2⟩

/-! ## Stale trackpoints and strict ordering -/

/-- With smart recording on and a positive high water mark, a Trackpoint-close
whose offset is not greater than the last emitted timestamp appends nothing. -/
theorem trackpoint_stale (P : Parsers) (s : TcxParser) (prevPoint : RideFilePoint)
    (hsmart : s.isGarminSmartRecording ≠ 0) (hhwm : 0 < s.GarminHWM)
    (hprev : s.rideFile.dataPoints.getLast? = some prevPoint)
    (hle : s.secs ≤ prevPoint.secs) :
    (endElement P s "Trackpoint").rideFile.dataPoints = s.rideFile.dataPoints := by
  have hsame := beforeRecord_same s
  have hq : (0 : ℚ) < (s.GarminHWM : ℚ) := by exact_mod_cast hhwm
  have hnot : ¬ rawRule (beforeRecord s) (s.secs - prevPoint.secs) := by
    rw [not_rawRule_iff, hsame.2.2.2.2.2.2.2.2.2.2.2.2.1,
      hsame.2.2.2.2.2.2.2.2.2.2.2.2.2.1]
    refine ⟨hsmart, ?_, Or.inl ?_⟩
    · intro h
      linarith
    · linarith
  have hfloor : Int.floor (s.secs - prevPoint.secs) ≤ 0 := by
    have : Int.floor (s.secs - prevPoint.secs) ≤ Int.floor (0 : ℚ) :=
      Int.floor_le_floor (by linarith)
    simpa using this
  have hit : iterations (Int.floor (s.secs - prevPoint.secs)) s.GarminHWM 1 = 0 := by
    unfold iterations
    omega
  rw [trackpoint_interpolated P s prevPoint hprev hnot, hit]
  simp

theorem recordTrackpoint_secs (t : TcxParser) : (recordTrackpoint t).secs = t.secs := by
  unfold recordTrackpoint
  split
  · rfl
  · have h := flagPrevBadGps_same t
    dsimp only
    split_ifs <;> exact (h _).2.1

theorem endElement_Trackpoint_secs (P : Parsers) (s : TcxParser) :
    (endElement P s "Trackpoint").secs = s.secs := by
  show (recordTrackpoint (beforeRecord s)).secs = s.secs
  rw [recordTrackpoint_secs, (beforeRecord_same s).2.1]

/-- After a Trackpoint-close on an empty series, or with an integer gap not
above the cap `300 * HWM`, the last sample is stamped at or after the
trackpoint's offset. -/
theorem trackpoint_last_secs (P : Parsers) (s : TcxParser)
    (h : s.rideFile.dataPoints.getLast? = none ∨
      ∃ (prevPoint : RideFilePoint) (d : Int),
        s.rideFile.dataPoints.getLast? = some prevPoint ∧
        s.secs - prevPoint.secs = (d : ℚ) ∧ d ≤ 300 * s.GarminHWM) :
    ∃ q : RideFilePoint,
      (endElement P s "Trackpoint").rideFile.dataPoints.getLast? = some q ∧ s.secs ≤ q.secs := by
  have hsame := beforeRecord_same s
  have hraw : (rawPoint (beforeRecord s)).secs = s.secs := hsame.2.1
  rcases h with hnone | ⟨prevPoint, d, hprev, hgap, hcap⟩
  · have hbn : (beforeRecord s).rideFile.dataPoints.getLast? = none := by
      rw [hsame.1, hnone]
    refine ⟨rawPoint (beforeRecord s), ?_, hraw.ge⟩
    rw [endElement_Trackpoint_rideFile, recordTrackpoint_first _ hbn]
    simp
  · by_cases hr : rawRule (beforeRecord s) (s.secs - prevPoint.secs)
    · refine ⟨rawPoint (beforeRecord s), ?_, hraw.ge⟩
      rw [trackpoint_raw P s prevPoint hprev hr]
      simp
    · obtain ⟨run, hrun, hlen, hget⟩ := trackpoint_interpolated_run P s prevPoint hprev hr
      have hlen' : (run.length : Int) = max 0 (min d (300 * s.GarminHWM)) := by
        rw [hlen, hgap, iterations_int]
      by_cases hd : d ≤ 0
      · have hnil : run = [] := by
          apply List.eq_nil_of_length_eq_zero
          omega
        refine ⟨prevPoint, ?_, ?_⟩
        · rw [hrun, hnil, List.append_nil, hprev]
        · have : (d : ℚ) ≤ 0 := by exact_mod_cast hd
          linarith
      · have hpos : 0 < run.length := by omega
        have hne : run ≠ [] := List.length_pos.mp hpos
        refine ⟨run.getLast hne, ?_, ?_⟩
        · rw [hrun, List.getLast?_append_of_ne_nil _ hne, List.getLast?_eq_getLast _ hne]
        · rw [List.getLast_eq_getElem, hget _ (by omega)]
          have hne0 : (atInterpolation s prevPoint).secs - prevPoint.secs ≠ 0 := by
            rw [(atInterpolation_same s prevPoint).2.1, hgap]
            have : (d : ℚ) ≠ 0 := by
              have : d ≠ 0 := by omega
              exact_mod_cast this
            exact this
          rw [interpolatedPoint_secs _ _ _ hne0]
          have hcast : (((run.length - 1 : Nat) : Int) + 1 : Int) = d := by omega
          have : ((((run.length - 1 : Nat) : Int) + 1 : Int) : ℚ) = (d : ℚ) := by
            rw [hcast]
          rw [this, ← hgap]
          linarith

theorem endElement_swim_of_ne (P : Parsers) (s : TcxParser) (qName : String)
    (hq : qName ≠ "Trackpoint") : (endElement P s qName).swim = s.swim := by
  unfold endElement
  simp only [apply_ite TcxParser.swim, hq, if_false, ite_self]

theorem handle_not_swim (P : Parsers) (s : TcxParser) (e : Event)
    (he : ¬ closesTrackpoint e) (h : s.swim ≠ SwimState.Swim) :
    (handle P s e).swim ≠ SwimState.Swim := by
  cases e with
  | startElement q a =>
    by_cases hq : q = "Activity"
    · subst hq
      show (startElement P s "Activity" a).swim ≠ SwimState.Swim
      rw [startElement_Activity_swim]
      split_ifs <;> decide
    · show (startElement P s q a).swim ≠ SwimState.Swim
      rw [startElement_swim_of_ne P s q a hq]
      exact h
  | characters str => exact h
  | endElement q =>
    show (endElement P s q).swim ≠ SwimState.Swim
    rw [endElement_swim_of_ne P s q he]
    exact h

theorem parse_not_swim (P : Parsers) (events : List Event) (s : TcxParser)
    (hev : ∀ e ∈ events, ¬ closesTrackpoint e) (h : s.swim ≠ SwimState.Swim) :
    (parse P s events).swim ≠ SwimState.Swim := by
  induction events generalizing s with
  | nil => exact h
  | cons e rest ih =>
    exact ih (handle P s e) (fun e' he' => hev e' (List.mem_cons_of_mem _ he'))
      (handle_not_swim P s e (hev e (List.mem_cons_self _ _)) h)

/-- C15 (out-of-sequence events), as stated, fails: with smart recording
unchecked, a second Trackpoint-close directly after the close of the only
trackpoint appends the scratch sample once more. -/
theorem out_of_sequence_counterexample :
    timestamps uncheckedAfterClose.rideFile = [10] ∧
    timestamps (endElement clockParsers uncheckedAfterClose "Trackpoint").rideFile = [10, 10] := by
  constructor <;> decide!

/-- C15 (out-of-sequence events), amended. With smart recording enabled and a
positive high water mark, a Trackpoint-close whose seconds-offset is not greater
than the last emitted timestamp appends no sample; in particular a second
Trackpoint-close directly after a first appends no sample when the first found
the series empty or an integer gap not above the cap `300 * HWM`. A Lap-close
leaves the parser as it is unless the activity is classified Swim with scratch
distance 0 and smart recording enabled; in particular a Lap-close that follows
an Activity-open with no Trackpoint-close in between appends no sample. -/
theorem out_of_sequence_closes (P : Parsers) (s : TcxParser)
    (hsmart : s.isGarminSmartRecording ≠ 0) (hhwm : 0 < s.GarminHWM) :
    (∀ prevPoint : RideFilePoint, s.rideFile.dataPoints.getLast? = some prevPoint →
      s.secs ≤ prevPoint.secs →
      (endElement P s "Trackpoint").rideFile.dataPoints = s.rideFile.dataPoints) ∧
    ((s.rideFile.dataPoints.getLast? = none ∨
        ∃ (prevPoint : RideFilePoint) (d : Int),
          s.rideFile.dataPoints.getLast? = some prevPoint ∧
          s.secs - prevPoint.secs = (d : ℚ) ∧ d ≤ 300 * s.GarminHWM) →
      (endElement P (endElement P s "Trackpoint") "Trackpoint").rideFile.dataPoints =
        (endElement P s "Trackpoint").rideFile.dataPoints) ∧
    (¬ (s.swim = SwimState.Swim ∧ s.distance = 0 ∧ s.isGarminSmartRecording ≠ 0) →
      endElement P s "Lap" = s) ∧
    (∀ (qAttributes : String → String) (body : List Event),
      (∀ e ∈ body, ¬ closesTrackpoint e) →
      endElement P (parse P (startElement P s "Activity" qAttributes) body) "Lap" =
        parse P (startElement P s "Activity" qAttributes) body) := by
  refine ⟨fun prevPoint hprev hle => trackpoint_stale P s prevPoint hsmart hhwm hprev hle,
    fun h => ?_, fun h => ?_, fun a body hbody => ?_⟩
  · obtain ⟨q, hq, hle⟩ := trackpoint_last_secs P s h
    have hset := endElement_settings P s "Trackpoint"
    apply trackpoint_stale P _ q (by rw [hset.1]; exact hsmart) (by rw [hset.2]; exact hhwm) hq
    rw [endElement_Trackpoint_secs]
    exact hle
  · have hf : ¬ fillsPause s := h
    rw [endElement_Lap, if_neg hf]
  · have hsw : (parse P (startElement P s "Activity" a) body).swim ≠ SwimState.Swim := by
      apply parse_not_swim P body _ hbody
      rw [startElement_Activity_swim]
      split_ifs <;> decide
    have hf : ¬ fillsPause (parse P (startElement P s "Activity" a) body) := fun hfp => hsw hfp.1
    rw [endElement_Lap, if_neg hf]

theorem out_of_sequence_closes_witness :
    defaultAfterClose.isGarminSmartRecording ≠ 0 ∧ 0 < defaultAfterClose.GarminHWM ∧
    timestamps defaultAfterClose.rideFile = [10] ∧ defaultAfterClose.secs = 10 ∧
    timestamps (endElement clockParsers defaultAfterClose "Trackpoint").rideFile = [10] ∧
    ¬ (defaultAfterClose.swim = SwimState.Swim ∧ defaultAfterClose.distance = 0 ∧
      defaultAfterClose.isGarminSmartRecording ≠ 0) ∧
    endElement clockParsers defaultAfterClose "Lap" = defaultAfterClose := by
  have hsmart : defaultAfterClose.isGarminSmartRecording ≠ 0 := by decide!
  have hhwm : 0 < defaultAfterClose.GarminHWM := by decide!
  have hts : timestamps defaultAfterClose.rideFile = [10] := by decide!
  have hsecs : defaultAfterClose.secs = 10 := by decide!
  have hlast : defaultAfterClose.rideFile.dataPoints.getLast? =
      some { originPoint with secs := 10, km := 0, interval := 1 } := by decide!
  have hno : ¬ (defaultAfterClose.swim = SwimState.Swim ∧ defaultAfterClose.distance = 0 ∧
      defaultAfterClose.isGarminSmartRecording ≠ 0) := by decide!
  obtain ⟨h1, -, h3, -⟩ := out_of_sequence_closes clockParsers defaultAfterClose hsmart hhwm
  have hsame := h1 _ hlast (by rw [hsecs])
  refine ⟨hsmart, hhwm, hts, hsecs, ?_, hno, h3 hno⟩
  unfold timestamps at hts ⊢
  rw [hsame, hts]

theorem sorted_lt_append_of_lt_last (l r : List ℚ) (x : ℚ) (hs : l.Sorted (· < ·))
    (hlast : l.getLast? = some x) (hr : r.Sorted (· < ·)) (hx : ∀ b ∈ r, x < b) :
    (l ++ r).Sorted (· < ·) := by
  have hle : l.Sorted (· ≤ ·) := List.Pairwise.imp (fun h => le_of_lt h) hs
  rw [List.Sorted, List.pairwise_append]
  exact ⟨hs, hr, fun a ha b hb =>
    lt_of_le_of_lt (le_last_of_sorted l x hle hlast a ha) (hx b hb)⟩

/-- With smart recording on and a positive high water mark, a Trackpoint-close
keeps the timestamps of the current series strictly increasing. -/
theorem trackpoint_strict (P : Parsers) (s : TcxParser)
    (hsmart : s.isGarminSmartRecording ≠ 0) (hhwm : 0 < s.GarminHWM)
    (hs : (timestamps s.rideFile).Sorted (· < ·)) :
    (timestamps (endElement P s "Trackpoint").rideFile).Sorted (· < ·) := by
  unfold timestamps at hs ⊢
  cases hlast : s.rideFile.dataPoints.getLast? with
  | none =>
    have hnil : s.rideFile.dataPoints = [] := List.getLast?_eq_none_iff.1 hlast
    have hb : (beforeRecord s).rideFile.dataPoints.getLast? = none := by
      rw [(beforeRecord_same s).1, hlast]
    rw [endElement_Trackpoint_rideFile, recordTrackpoint_first _ hb, (beforeRecord_same s).1,
      hnil]
    simp
  | some prevPoint =>
    have hl : (s.rideFile.dataPoints.map RideFilePoint.secs).getLast? = some prevPoint.secs := by
      rw [List.getLast?_map, hlast]
      rfl
    by_cases hr : rawRule (beforeRecord s) (s.secs - prevPoint.secs)
    · rw [trackpoint_raw P s prevPoint hlast hr, List.map_append]
      apply sorted_lt_append_of_lt_last _ _ _ hs hl
      · simp
      · intro b hb
        simp only [List.map_cons, List.map_nil, List.mem_singleton] at hb
        rw [hb]
        have hsec : (rawPoint (beforeRecord s)).secs = s.secs := (beforeRecord_same s).2.1
        rw [hsec]
        rcases (beforeRecord_rawRule s _).1 hr with h | h | ⟨h, -⟩
        · exact absurd h hsmart
        · linarith
        · have : (0 : ℚ) < (s.GarminHWM : ℚ) := by exact_mod_cast hhwm
          linarith
    · rw [trackpoint_interpolated P s prevPoint hlast hr, List.map_append, List.map_map]
      have hsec := (atInterpolation_same s prevPoint).2.1
      have hval : ∀ k ∈ List.range
          (iterations (Int.floor (s.secs - prevPoint.secs)) s.GarminHWM 1),
          (interpolatedPoint (atInterpolation s prevPoint) prevPoint (1 + (k : Int))).secs =
            prevPoint.secs + (1 + (k : ℚ)) := by
        intro k hk
        have hpos := (iterations_lt _ _ k (List.mem_range.1 hk)).1
        have hne0 : (atInterpolation s prevPoint).secs - prevPoint.secs ≠ 0 := by
          rw [hsec]
          have : (0 : ℚ) < (k : ℚ) + 1 := by positivity
          linarith
        rw [interpolatedPoint_secs _ _ _ hne0]
        push_cast
        rfl
      apply sorted_lt_append_of_lt_last _ _ _ hs hl
      · rw [List.Sorted, List.pairwise_map]
        apply (List.pairwise_lt_range _).imp_of_mem
        intro a b ha hb hab
        simp only [Function.comp]
        rw [hval a ha, hval b hb]
        have : (a : ℚ) < (b : ℚ) := by exact_mod_cast hab
        linarith
      · intro b hb
        obtain ⟨k, hk, rfl⟩ := List.mem_map.1 hb
        simp only [Function.comp]
        rw [hval k hk]
        have : (0 : ℚ) ≤ (k : ℚ) := by positivity
        linarith

theorem strictlyOrdered_iff (s : TcxParser) :
    StrictlyOrdered s ↔ (∀ rf ∈ s.earlier, (timestamps rf).Sorted (· < ·)) ∧
      (timestamps s.rideFile).Sorted (· < ·) := by
  unfold StrictlyOrdered activities
  constructor
  · intro h
    exact ⟨fun rf hrf => h rf (List.mem_append_left _ hrf),
      h _ (List.mem_append_right _ (List.mem_singleton_self _))⟩
  · rintro ⟨h1, h2⟩ rf hrf
    rcases List.mem_append.1 hrf with h | h
    · exact h1 rf h
    · rw [List.mem_singleton.1 h]
      exact h2

/-- Every event delivered while the activity is not classified Swim keeps the
timestamps of every activity strictly increasing, smart recording being on and
the high water mark positive. -/
theorem handle_strict (P : Parsers) (s : TcxParser) (e : Event)
    (hsmart : s.isGarminSmartRecording ≠ 0) (hhwm : 0 < s.GarminHWM)
    (hswim : s.swim ≠ SwimState.Swim) (hord : StrictlyOrdered s) :
    StrictlyOrdered (handle P s e) := by
  rw [strictlyOrdered_iff] at hord ⊢
  obtain ⟨h1, h2⟩ := hord
  cases e with
  | startElement q a =>
    rcases startElement_series P s q a with ⟨he, hd⟩ | ⟨he, hd⟩
    · refine ⟨?_, ?_⟩
      · show ∀ rf ∈ (startElement P s q a).earlier, _
        rw [he]
        exact h1
      · show (timestamps (startElement P s q a).rideFile).Sorted (· < ·)
        unfold timestamps at h2 ⊢
        rw [hd]
        exact h2
    · refine ⟨?_, ?_⟩
      · show ∀ rf ∈ (startElement P s q a).earlier, _
        rw [he]
        intro rf hrf
        rcases List.mem_append.1 hrf with h | h
        · exact h1 rf h
        · rw [List.mem_singleton.1 h]
          exact h2
      · show (timestamps (startElement P s q a).rideFile).Sorted (· < ·)
        unfold timestamps
        rw [hd]
        simp
  | characters str => exact ⟨h1, h2⟩
  | endElement q =>
    by_cases hq : q = "Trackpoint"
    · subst hq
      refine ⟨?_, trackpoint_strict P s hsmart hhwm h2⟩
      show ∀ rf ∈ (endElement P s "Trackpoint").earlier, _
      have he : (endElement P s "Trackpoint").earlier = s.earlier :=
        (recordTrackpoint_settings (beforeRecord s)).2.2.trans
          (beforeRecord_same s).2.2.2.2.2.2.2.2.2.2.2.2.2.2.2.2.2.1
      rw [he]
      exact h1
    · obtain ⟨he, hr⟩ := endElement_series_of_ne P s q hq (fun _ hf => hswim hf.1)
      refine ⟨?_, ?_⟩
      · show ∀ rf ∈ (endElement P s q).earlier, _
        rw [he]
        exact h1
      · show (timestamps (endElement P s q).rideFile).Sorted (· < ·)
        rw [hr]
        exact h2

/-- C18 (strictly increasing timestamps). With smart recording enabled and a
positive high water mark, for every sequence of decoder events during which the
activity is never classified Swim, started in a state whose activities have
strictly increasing timestamps (a newly constructed parser on an empty ride file
for one), each sample appended after the first has a timestamp strictly greater
than the sample before it; and a trackpoint whose offset is not greater than the
last emitted timestamp appends nothing. -/
theorem timestamps_strictly_increasing (P : Parsers) (events : List Event) (s : TcxParser)
    (hsmart : s.isGarminSmartRecording ≠ 0) (hhwm : 0 < s.GarminHWM)
    (hnever : neverSwim P s events) (hord : StrictlyOrdered s) :
    StrictlyOrdered (parse P s events) ∧
    (∀ prevPoint : RideFilePoint, s.rideFile.dataPoints.getLast? = some prevPoint →
      s.secs ≤ prevPoint.secs →
      (endElement P s "Trackpoint").rideFile.dataPoints = s.rideFile.dataPoints) := by
  refine ⟨?_, fun prevPoint hprev hle => trackpoint_stale P s prevPoint hsmart hhwm hprev hle⟩
  induction events generalizing s with
  | nil => exact hord
  | cons e rest ih =>
    have hset := handle_settings P s e
    exact ih (handle P s e) (by rw [hset.1]; exact hsmart) (by rw [hset.2]; exact hhwm)
      hnever.2 (handle_strict P s e hsmart hhwm hnever.1 hord)

theorem timestamps_strictly_increasing_witness :
    defaultParser.isGarminSmartRecording ≠ 0 ∧ 0 < defaultParser.GarminHWM ∧
    neverSwim clockParsers defaultParser inOrderEvents ∧ StrictlyOrdered defaultParser ∧
    StrictlyOrdered (parse clockParsers defaultParser inOrderEvents) := by
  have hsmart : defaultParser.isGarminSmartRecording ≠ 0 := by decide
  have hhwm : 0 < defaultParser.GarminHWM := by decide
  have hnever : neverSwim clockParsers defaultParser inOrderEvents := by decide!
  have hord : StrictlyOrdered defaultParser := by
    intro rf hrf
    have : rf = RideFile.fresh := by
      simpa [activities, defaultParser, TcxParser.new] using hrf
    rw [this]
    simp [timestamps, RideFile.fresh]
  exact ⟨hsmart, hhwm, hnever, hord,
    (timestamps_strictly_increasing clockParsers inOrderEvents defaultParser hsmart hhwm
      hnever hord).1⟩

end TcxParser

end GoldenCheetah
